import Mathlib

/-!
# The DXVK pipeline state cache (`src/dxvk/dxvk_state_cache.cpp`)

A shallow embedding of `DxvkStateCache`: the in-memory entry store with its two
indexes, the shader registry, the worker and writer queues, and the binary
cache file (header followed by fixed-size hash-checked records).

Conventions of the embedding.

* `std::vector` and `std::queue` are lists (the queue front is the list head).
* `std::unordered_multimap` is an association list in insertion order;
  `equal_range` is the sub-list of the pairs whose key compares equal.
* `std::unordered_map` is an association list that `insert` leaves unchanged
  when the key is already present.
* `Rc<DxvkShader>` is `Option DxvkShader`, `nullptr` being `none`.
* Streams are byte lists; a read of `n` bytes fails, and leaves the stream in a
  failed state, when fewer than `n` bytes remain.
* The counter `numInvalidEntries` is a `uint32_t`: additions are taken modulo
  `2 ^ 32`.
* Calls into the pipeline manager and the render pass pool are recorded as a
  list of `PipeCall` events.
* Declarations that live in headers outside the translated sources (the SHA-1
  routine, `DxvkRenderPassFormat::matches`, the object representation of the
  record and of the header, the header constants) are the fields of
  `Externals`, a parameter of every function that uses one of them.
-/

namespace dxvk

/-- A byte of a stream or of an object representation. -/
abbrev Byte := UInt8

/-- Modelled from the spec: `DxvkShaderKey` (its header is not among the
translated sources) is a content-derived identifier of one shader stage that
can be compared for equality. -/
structure DxvkShaderKey where
  id : Nat
deriving DecidableEq, Repr

/-- Modelled from the spec: `DxvkShaderKey::eq` is equality of keys. -/
def DxvkShaderKey.eq (a b : DxvkShaderKey) : Bool := decide (a = b)

/-- The key `g_nullShaderKey = DxvkShaderKey()` of an unused stage. -/
def g_nullShaderKey : DxvkShaderKey := DxvkShaderKey.mk 0

/-- Modelled from the spec: `Sha1Hash` (header not among the sources), the
value of an integrity hash. -/
structure Sha1Hash where
  digest : Nat
deriving DecidableEq, Repr

/-- Modelled from the spec: `DxvkGraphicsPipelineStateInfo`, the graphics state
descriptor, compared structurally by `operator ==`. -/
structure DxvkGraphicsPipelineStateInfo where
  raw : Nat
deriving DecidableEq, Repr

/-- Modelled from the spec: `DxvkComputePipelineStateInfo`, the compute state
descriptor, compared structurally by `operator ==`. -/
structure DxvkComputePipelineStateInfo where
  raw : Nat
deriving DecidableEq, Repr

/-- Modelled from the spec: `DxvkRenderPassFormat`, the render pass format
descriptor. -/
structure DxvkRenderPassFormat where
  raw : Nat
deriving DecidableEq, Repr

/-- The default-constructed graphics state `DxvkGraphicsPipelineStateInfo()`. -/
def DxvkGraphicsPipelineStateInfo.default : DxvkGraphicsPipelineStateInfo :=
  DxvkGraphicsPipelineStateInfo.mk 0

/-- The default-constructed compute state `DxvkComputePipelineStateInfo()`. -/
def DxvkComputePipelineStateInfo.default : DxvkComputePipelineStateInfo :=
  DxvkComputePipelineStateInfo.mk 0

/-- The default-constructed format `DxvkRenderPassFormat()`. -/
def DxvkRenderPassFormat.default : DxvkRenderPassFormat :=
  DxvkRenderPassFormat.mk 0

/-- The six shader keys of a pipeline, `DxvkStateCacheKey`; a default-constructed
key holds the null key in every slot. -/
structure DxvkStateCacheKey where
  vs : DxvkShaderKey := g_nullShaderKey
  tcs : DxvkShaderKey := g_nullShaderKey
  tes : DxvkShaderKey := g_nullShaderKey
  gs : DxvkShaderKey := g_nullShaderKey
  fs : DxvkShaderKey := g_nullShaderKey
  cs : DxvkShaderKey := g_nullShaderKey
deriving DecidableEq, Repr

/-- The comparison `DxvkStateCacheKey::eq`: all six slots compare equal. -/
def DxvkStateCacheKey.eq (a key : DxvkStateCacheKey) : Bool :=
  a.vs.eq key.vs
    && a.tcs.eq key.tcs
    && a.tes.eq key.tes
    && a.gs.eq key.gs
    && a.fs.eq key.fs
    && a.cs.eq key.cs

/-- The six slots of a key in the order vs, tcs, tes, gs, fs, cs. -/
def DxvkStateCacheKey.slots (k : DxvkStateCacheKey) : List DxvkShaderKey :=
  [k.vs, k.tcs, k.tes, k.gs, k.fs, k.cs]

/-- A cache record `DxvkStateCacheEntry`, fields in the order of the aggregate
initialisers `{ shaders, gpState, cpState, format, hash }`. -/
structure DxvkStateCacheEntry where
  shaders : DxvkStateCacheKey
  gpState : DxvkGraphicsPipelineStateInfo
  cpState : DxvkComputePipelineStateInfo
  format : DxvkRenderPassFormat
  hash : Sha1Hash
deriving DecidableEq, Repr

/-- The file header `DxvkStateCacheHeader`: four magic bytes, a version and the
record size. -/
structure DxvkStateCacheHeader where
  magic : Fin 4 → Byte
  version : Nat
  entrySize : Nat

/-- Modelled from the spec: a live shader object `DxvkShader`, reduced to its
identity and to the key that `getShaderKey()` returns. -/
structure DxvkShader where
  object : Nat
  key : DxvkShaderKey
deriving DecidableEq, Repr

/-- The accessor `DxvkShader::getShaderKey`. -/
def DxvkShader.getShaderKey (s : DxvkShader) : DxvkShaderKey := s.key

/-- The resolved shader set `WorkerItem`; every reference starts as `nullptr`. -/
structure WorkerItem where
  vs : Option DxvkShader := none
  tcs : Option DxvkShader := none
  tes : Option DxvkShader := none
  gs : Option DxvkShader := none
  fs : Option DxvkShader := none
  cs : Option DxvkShader := none
deriving DecidableEq, Repr

/-- The declarations used by the cache whose definitions are outside the
translated sources. -/
structure Externals where
  /-- The routine `Sha1Hash::compute(data, size)` on a byte block. -/
  sha1 : List Byte → Sha1Hash
  /-- The comparison `DxvkRenderPassFormat::matches`. -/
  fmtMatches : DxvkRenderPassFormat → DxvkRenderPassFormat → Bool
  /-- The record size `sizeof(DxvkStateCacheEntry)`. -/
  entrySize : Nat
  /-- The object representation of a record (`reinterpret_cast<const char*>`). -/
  entryBytes : DxvkStateCacheEntry → List Byte
  /-- The record held by a block of `entrySize` bytes read into `&entry`. -/
  entryOfBytes : List Byte → DxvkStateCacheEntry
  /-- The header size `sizeof(DxvkStateCacheHeader)`. -/
  headerSize : Nat
  /-- The object representation of a header. -/
  headerBytes : DxvkStateCacheHeader → List Byte
  /-- The header held by a block of `headerSize` bytes. -/
  headerOfBytes : List Byte → DxvkStateCacheHeader
  /-- The magic bytes of a default-constructed header. -/
  magic : Fin 4 → Byte
  /-- The version of a default-constructed header. -/
  version : Nat

/-- The hash `g_nullHash = Sha1Hash::compute(nullptr, 0)` of the empty block. -/
def Externals.g_nullHash (E : Externals) : Sha1Hash := E.sha1 []

/-- The template `Sha1Hash::compute(const T&)` at a record: the hash of the
`sizeof(DxvkStateCacheEntry)` bytes of its object representation. -/
def Externals.compute (E : Externals) (entry : DxvkStateCacheEntry) : Sha1Hash :=
  E.sha1 (E.entryBytes entry)

/-- The default-constructed header of the current build (`expected`). -/
def Externals.expectedHeader (E : Externals) : DxvkStateCacheHeader :=
  { magic := E.magic, version := E.version, entrySize := E.entrySize }

/-- The state of a `DxvkStateCache` object. -/
structure DxvkStateCache where
  m_entries : List DxvkStateCacheEntry := []
  m_entryMap : List (DxvkStateCacheKey × Nat) := []
  m_pipelineMap : List (DxvkShaderKey × DxvkStateCacheKey) := []
  m_shaderMap : List (DxvkShaderKey × DxvkShader) := []
  m_workerQueue : List WorkerItem := []
  m_writerQueue : List DxvkStateCacheEntry := []
deriving DecidableEq, Repr

/-- The elements of the range `m_entryMap.equal_range(key)`, listed in the
order in which they were inserted. `std::unordered_multimap` fixes no order
among elements with equal keys, so this list stands for the elements of the
range and their number, not for the order of a traversal: a method whose
result depends on that order takes the order as an argument
(`compilePipelinesOver`), and a statement about this list is meant up to
permutation. -/
def DxvkStateCache.entryRange (c : DxvkStateCache) (key : DxvkStateCacheKey) :
    List (DxvkStateCacheKey × Nat) :=
  c.m_entryMap.filter (fun p => p.1.eq key)

/-- The elements of the range `m_pipelineMap.equal_range(key)`, listed in the
order in which they were inserted. As for `entryRange`, the container fixes no
order among them; `registerShaderOver` takes the order of the traversal as an
argument. -/
def DxvkStateCache.pipelineRange (c : DxvkStateCache) (key : DxvkShaderKey) :
    List (DxvkShaderKey × DxvkStateCacheKey) :=
  c.m_pipelineMap.filter (fun p => p.1.eq key)

/-- The scan of `addGraphicsPipeline` over `equal_range(shaders)`: some entry of
the range has a matching format and an equal graphics state. An index that is
not a position of `m_entries` (none exists in a state built by `readCacheFile`)
is passed over. -/
def DxvkStateCache.hasGraphicsEntry (E : Externals) (c : DxvkStateCache)
    (shaders : DxvkStateCacheKey) (state : DxvkGraphicsPipelineStateInfo)
    (format : DxvkRenderPassFormat) : Bool :=
  (c.entryRange shaders).any (fun e =>
    match c.m_entries[e.2]? with
    | some entry => E.fmtMatches entry.format format && decide (entry.gpState = state)
    | none => false)

/-- The method `DxvkStateCache::addGraphicsPipeline`. -/
def DxvkStateCache.addGraphicsPipeline (E : Externals) (c : DxvkStateCache)
    (shaders : DxvkStateCacheKey) (state : DxvkGraphicsPipelineStateInfo)
    (format : DxvkRenderPassFormat) : DxvkStateCache :=
  if shaders.vs.eq g_nullShaderKey then c
  else if c.hasGraphicsEntry E shaders state format then c
  else
    { c with m_writerQueue := c.m_writerQueue ++
        [{ shaders := shaders, gpState := state,
           cpState := DxvkComputePipelineStateInfo.default,
           format := format, hash := E.g_nullHash }] }

/-- The scan of `addComputePipeline` over `equal_range(shaders)`: some entry of
the range has an equal compute state. -/
def DxvkStateCache.hasComputeEntry (c : DxvkStateCache)
    (shaders : DxvkStateCacheKey) (state : DxvkComputePipelineStateInfo) : Bool :=
  (c.entryRange shaders).any (fun e =>
    match c.m_entries[e.2]? with
    | some entry => decide (entry.cpState = state)
    | none => false)

/-- The method `DxvkStateCache::addComputePipeline`. -/
def DxvkStateCache.addComputePipeline (E : Externals) (c : DxvkStateCache)
    (shaders : DxvkStateCacheKey) (state : DxvkComputePipelineStateInfo) :
    DxvkStateCache :=
  if shaders.cs.eq g_nullShaderKey then c
  else if c.hasComputeEntry shaders state then c
  else
    { c with m_writerQueue := c.m_writerQueue ++
        [{ shaders := shaders, gpState := DxvkGraphicsPipelineStateInfo.default,
           cpState := state,
           format := DxvkRenderPassFormat.default, hash := E.g_nullHash }] }

/-- The method `DxvkStateCache::getShaderKey`: the key of a shader reference,
the null key for `nullptr`. -/
def getShaderKey (shader : Option DxvkShader) : DxvkShaderKey :=
  match shader with
  | some s => s.getShaderKey
  | none => g_nullShaderKey

/-- The lookup `m_shaderMap.find(key)`. -/
def DxvkStateCache.findShader (c : DxvkStateCache) (key : DxvkShaderKey) :
    Option (DxvkShaderKey × DxvkShader) :=
  c.m_shaderMap.find? (fun p => p.1.eq key)

/-- The method `DxvkStateCache::getShaderByKey`: the result flag and the value
of the reference parameter `shader` after the call. -/
def DxvkStateCache.getShaderByKey (c : DxvkStateCache) (key : DxvkShaderKey)
    (shader : Option DxvkShader) : Bool × Option DxvkShader :=
  if key.eq g_nullShaderKey then (true, shader)
  else
    match c.findShader key with
    | none => (false, shader)
    | some entry => (true, some entry.2)

/-- The condition of the loop body of `registerShader` for one pipeline key:
the six `getShaderByKey` calls in order on a fresh `WorkerItem`, stopping at the
first that fails; `none` is the `continue` branch, `some item` the item that is
pushed. -/
def DxvkStateCache.resolveItem (c : DxvkStateCache) (k : DxvkStateCacheKey) :
    Option WorkerItem :=
  let item : WorkerItem := {}
  let r1 := c.getShaderByKey k.vs item.vs
  if !r1.1 then none else
  let r2 := c.getShaderByKey k.tcs item.tcs
  if !r2.1 then none else
  let r3 := c.getShaderByKey k.tes item.tes
  if !r3.1 then none else
  let r4 := c.getShaderByKey k.gs item.gs
  if !r4.1 then none else
  let r5 := c.getShaderByKey k.fs item.fs
  if !r5.1 then none else
  let r6 := c.getShaderByKey k.cs item.cs
  if !r6.1 then none else
  some { vs := r1.2, tcs := r2.2, tes := r3.2, gs := r4.2, fs := r5.2, cs := r6.2 }

/-- The call `m_shaderMap.insert({ key, shader })`: no effect when the key is
already mapped. -/
def DxvkStateCache.insertShader (c : DxvkStateCache) (key : DxvkShaderKey)
    (shader : DxvkShader) : DxvkStateCache :=
  match c.findShader key with
  | some _ => c
  | none => { c with m_shaderMap := c.m_shaderMap ++ [(key, shader)] }

/-- The method `DxvkStateCache::registerShader` for a given order of traversal:
`range` lists the elements of `m_pipelineMap.equal_range(key)` in the order in
which the loop visits them. -/
def DxvkStateCache.registerShaderOver (c : DxvkStateCache) (shader : DxvkShader)
    (range : List (DxvkShaderKey × DxvkStateCacheKey)) : DxvkStateCache :=
  let key := shader.getShaderKey
  if key.eq g_nullShaderKey then c
  else
    let c1 := c.insertShader key shader
    range.foldl
      (fun acc p =>
        match c1.resolveItem p.2 with
        | none => acc
        | some item => { acc with m_workerQueue := acc.m_workerQueue ++ [item] })
      c1

/-- The method `DxvkStateCache::registerShader` when the loop visits the range
in the order of insertion, one of the orders the container may choose. The
work items pushed are the same for every order, up to their order in the
queue. -/
def DxvkStateCache.registerShader (c : DxvkStateCache) (shader : DxvkShader) :
    DxvkStateCache :=
  c.registerShaderOver shader
    ((c.insertShader shader.getShaderKey shader).pipelineRange shader.getShaderKey)

/-- The method `DxvkStateCache::mapPipelineToEntry`. -/
def DxvkStateCache.mapPipelineToEntry (c : DxvkStateCache) (key : DxvkStateCacheKey)
    (entryId : Nat) : DxvkStateCache :=
  { c with m_entryMap := c.m_entryMap ++ [(key, entryId)] }

/-- The method `DxvkStateCache::mapShaderToPipeline`. -/
def DxvkStateCache.mapShaderToPipeline (c : DxvkStateCache) (shader : DxvkShaderKey)
    (key : DxvkStateCacheKey) : DxvkStateCache :=
  if !shader.eq g_nullShaderKey then
    { c with m_pipelineMap := c.m_pipelineMap ++ [(shader, key)] }
  else c

/-- The branch of `readCacheFile` taken for a record that passed validation:
the entry is appended to `m_entries` and entered in both indexes. -/
def DxvkStateCache.indexEntry (c : DxvkStateCache) (entry : DxvkStateCacheEntry) :
    DxvkStateCache :=
  let entryId := c.m_entries.length
  let c := { c with m_entries := c.m_entries ++ [entry] }
  let c := c.mapPipelineToEntry entry.shaders entryId
  let c := c.mapShaderToPipeline entry.shaders.vs entry.shaders
  let c := c.mapShaderToPipeline entry.shaders.tcs entry.shaders
  let c := c.mapShaderToPipeline entry.shaders.tes entry.shaders
  let c := c.mapShaderToPipeline entry.shaders.gs entry.shaders
  let c := c.mapShaderToPipeline entry.shaders.fs entry.shaders
  c.mapShaderToPipeline entry.shaders.cs entry.shaders

/-- A call made by `compilePipelines` into the pipeline manager or the render
pass pool. A pipeline handle request carries the state it is given and, for a
graphics pipeline, the format whose render pass it is given. -/
inductive PipeCall where
  | createGraphicsPipeline (vs tcs tes gs fs : Option DxvkShader)
  | getRenderPass (format : DxvkRenderPassFormat)
  | getGraphicsPipelineHandle (state : DxvkGraphicsPipelineStateInfo)
      (format : DxvkRenderPassFormat)
  | createComputePipeline (cs : Option DxvkShader)
  | getComputePipelineHandle (state : DxvkComputePipelineStateInfo)
deriving DecidableEq, Repr

/-- The key that `compilePipelines` recomputes from a work item. -/
def WorkerItem.key (item : WorkerItem) : DxvkStateCacheKey :=
  { vs := getShaderKey item.vs
    tcs := getShaderKey item.tcs
    tes := getShaderKey item.tes
    gs := getShaderKey item.gs
    fs := getShaderKey item.fs
    cs := getShaderKey item.cs }

/-- The method `DxvkStateCache::compilePipelines` for a given order of
traversal, as the calls it makes in order: `range` lists the elements of
`m_entryMap.equal_range(key)` in the order in which the loop visits them. An
index of the range that is not a position of `m_entries` (none exists in a
state built by `readCacheFile`) is passed over. -/
def DxvkStateCache.compilePipelinesOver (c : DxvkStateCache) (item : WorkerItem)
    (range : List (DxvkStateCacheKey × Nat)) : List PipeCall :=
  if item.cs = none then
    PipeCall.createGraphicsPipeline item.vs item.tcs item.tes item.gs item.fs ::
      range.flatMap (fun e =>
        match c.m_entries[e.2]? with
        | some entry =>
          [PipeCall.getRenderPass entry.format,
           PipeCall.getGraphicsPipelineHandle entry.gpState entry.format]
        | none => [])
  else
    PipeCall.createComputePipeline item.cs ::
      range.flatMap (fun e =>
        match c.m_entries[e.2]? with
        | some entry => [PipeCall.getComputePipelineHandle entry.cpState]
        | none => [])

/-- The method `DxvkStateCache::compilePipelines` when the loop visits the range
of the recomputed key in the order of insertion, one of the orders the
container may choose. -/
def DxvkStateCache.compilePipelines (c : DxvkStateCache) (item : WorkerItem) :
    List PipeCall :=
  c.compilePipelinesOver item (c.entryRange item.key)

/-- An input stream: the bytes not yet consumed and the state tested by
`if (stream)`. -/
structure IStream where
  data : List Byte
  good : Bool
deriving DecidableEq, Repr

/-- The call `stream.read(data, size)`: the block read, if `size` bytes were
available on a good stream, and the stream afterwards; a short read consumes
what is left and puts the stream in a failed state. -/
def IStream.read (s : IStream) (size : Nat) : Option (List Byte) × IStream :=
  if s.good && decide (size ≤ s.data.length) then
    (some (s.data.take size), { data := s.data.drop size, good := true })
  else
    (none, { data := [], good := false })

/-- The method `DxvkStateCache::readCacheHeader`: its result and the stream
afterwards. -/
def readCacheHeader (E : Externals) (stream : IStream) : Bool × IStream :=
  let expected := E.expectedHeader
  match stream.read E.headerSize with
  | (none, stream) => (false, stream)
  | (some block, stream) =>
    let actual := E.headerOfBytes block
    if ([0, 1, 2, 3] : List (Fin 4)).any (fun i => expected.magic i != actual.magic i) then
      (false, stream)
    else
      (decide (expected.version = actual.version)
        && decide (expected.entrySize = actual.entrySize), stream)

/-- The method `DxvkStateCache::readCacheEntry`: its result, the value left in
`entry` and the stream afterwards. After a failed read `entry` is not looked at
again; it is reported as `none`. -/
def readCacheEntry (E : Externals) (stream : IStream) :
    Bool × Option DxvkStateCacheEntry × IStream :=
  match stream.read E.entrySize with
  | (none, stream) => (false, none, stream)
  | (some block, stream) =>
    let entry := E.entryOfBytes block
    let expectedHash := entry.hash
    let entry := { entry with hash := E.g_nullHash }
    let computedHash := E.compute entry
    (decide (expectedHash = computedHash), some entry, stream)

/-- The method `DxvkStateCache::writeCacheEntry`: the entry after its hash
field was assigned, and the bytes appended to the output stream. -/
def writeCacheEntry (E : Externals) (stream : List Byte) (entry : DxvkStateCacheEntry) :
    List Byte × DxvkStateCacheEntry :=
  let entry := { entry with hash := E.compute entry }
  (stream ++ E.entryBytes entry, entry)

/-- The loop `while (ifile)` of `readCacheFile`, with the cache and the 32-bit
counter `numInvalidEntries` as state. The first argument bounds the number of
iterations; `readCacheFile` passes a bound that a positive record size never
reaches. -/
def readCacheLoop (E : Externals) :
    Nat → IStream → DxvkStateCache → Nat → DxvkStateCache × Nat
  | 0, _, c, numInvalidEntries => (c, numInvalidEntries)
  | fuel + 1, ifile, c, numInvalidEntries =>
    if ifile.good then
      match readCacheEntry E ifile with
      | (true, some entry, ifile) =>
        readCacheLoop E fuel ifile (c.indexEntry entry) numInvalidEntries
      | (_, _, ifile) =>
        if ifile.good then
          readCacheLoop E fuel ifile c ((numInvalidEntries + 1) % 2 ^ 32)
        else
          readCacheLoop E fuel ifile c numInvalidEntries
    else (c, numInvalidEntries)

/-- What `readCacheFile` leaves behind: its return value, the final value of
`numInvalidEntries`, and the cache. -/
structure ReadResult where
  ok : Bool
  numInvalidEntries : Nat
  cache : DxvkStateCache
deriving DecidableEq, Repr

/-- The method `DxvkStateCache::readCacheFile`; `file` is the content of the
cache file, `none` when it cannot be opened for reading. -/
def DxvkStateCache.readCacheFile (E : Externals) (c : DxvkStateCache)
    (file : Option (List Byte)) : ReadResult :=
  match file with
  | none => { ok := false, numInvalidEntries := 0, cache := c }
  | some bytes =>
    let ifile : IStream := { data := bytes, good := true }
    match readCacheHeader E ifile with
    | (false, _) => { ok := false, numInvalidEntries := 0, cache := c }
    | (true, ifile) =>
      let r := readCacheLoop E (ifile.data.length + 1) ifile c 0
      { ok := decide (r.2 = 0), numInvalidEntries := r.2, cache := r.1 }

/-- The loop of the constructor that writes every entry of `m_entries` to the
new file: `writeCacheEntry` is handed each element by reference, so its hash
field is updated in place. -/
def writeAllEntries (E : Externals) :
    List DxvkStateCacheEntry → List Byte → List Byte × List DxvkStateCacheEntry
  | [], stream => (stream, [])
  | e :: es, stream =>
    let w := writeCacheEntry E stream e
    let r := writeAllEntries E es w.1
    (r.1, w.2 :: r.2)

/-- What the first part of the constructor leaves behind: the cache, the flag
`newFile`, whether `m_writerFile` is usable, and the content of the cache file
on disk. -/
structure OpenResult where
  cache : DxvkStateCache
  newFile : Bool
  writerOpen : Bool
  file : Option (List Byte)

/-- The constructor `DxvkStateCache::DxvkStateCache` up to the flush of the new
file (lines 36 to 68). `file` is the content of the cache file at start-up and
`canWrite` tells whether it can be opened for writing. -/
def DxvkStateCache.openCache (E : Externals) (file : Option (List Byte))
    (canWrite : Bool) : OpenResult :=
  let r := DxvkStateCache.readCacheFile E {} file
  let newFile := !r.ok
  if !canWrite then
    { cache := r.cache, newFile := newFile, writerOpen := false, file := file }
  else if newFile then
    let w := writeAllEntries E r.cache.m_entries (E.headerBytes E.expectedHeader)
    { cache := { r.cache with m_entries := w.2 }, newFile := newFile,
      writerOpen := true, file := some w.1 }
  else
    { cache := r.cache, newFile := newFile, writerOpen := true, file := file }

/-- The layout facts used by the round trip of one record: its object
representation has `sizeof(DxvkStateCacheEntry)` bytes and reading these bytes
back gives the record. -/
def Externals.Faithful (E : Externals) (e : DxvkStateCacheEntry) : Prop :=
  (E.entryBytes e).length = E.entrySize ∧ E.entryOfBytes (E.entryBytes e) = e

/-- The layout facts used for the header of the current build. -/
def Externals.HeaderFaithful (E : Externals) : Prop :=
  (E.headerBytes E.expectedHeader).length = E.headerSize
    ∧ (E.headerOfBytes (E.headerBytes E.expectedHeader)).magic = E.magic
    ∧ (E.headerOfBytes (E.headerBytes E.expectedHeader)).version = E.version
    ∧ (E.headerOfBytes (E.headerBytes E.expectedHeader)).entrySize = E.entrySize

/-- The record that `writeCacheEntry` stores for `e`. -/
def Externals.written (E : Externals) (e : DxvkStateCacheEntry) : DxvkStateCacheEntry :=
  { e with hash := E.compute e }

/-- A file: the header of the current build followed by the given blocks. -/
def Externals.fileOf (E : Externals) (blocks : List (List Byte)) : List Byte :=
  E.headerBytes E.expectedHeader ++ blocks.flatten

/-- The record that `readCacheEntry` leaves in `entry` for a block. -/
def Externals.loaded (E : Externals) (block : List Byte) : DxvkStateCacheEntry :=
  { E.entryOfBytes block with hash := E.g_nullHash }

/-- The validation of `readCacheEntry` on a block: the stored hash equals the
hash recomputed with the hash field reset to `g_nullHash`. -/
def Externals.validBlock (E : Externals) (block : List Byte) : Bool :=
  decide ((E.entryOfBytes block).hash = E.compute (E.loaded block))

/-- The cache after the entries `es` were indexed one after the other. -/
def DxvkStateCache.indexAll (c : DxvkStateCache) (es : List DxvkStateCacheEntry) :
    DxvkStateCache :=
  es.foldl DxvkStateCache.indexEntry c

/-- The cache after `registerShader` was called on each shader of the list, in
order. -/
def DxvkStateCache.registerAll (c : DxvkStateCache) (shaders : List DxvkShader) :
    DxvkStateCache :=
  shaders.foldl DxvkStateCache.registerShader c

/-- The pairs that the six `mapShaderToPipeline` calls made for an entry with
shaders `k` add to `m_pipelineMap`: one for every slot that is not null. -/
def pipelinePairs (k : DxvkStateCacheKey) : List (DxvkShaderKey × DxvkStateCacheKey) :=
  k.slots.flatMap (fun s => if !s.eq g_nullShaderKey then [(s, k)] else [])

/-- The pairs that `mapPipelineToEntry` adds to `m_entryMap` for the entries
`es` stored from position `n` on. -/
def entryPairs : Nat → List DxvkStateCacheEntry → List (DxvkStateCacheKey × Nat)
  | _, [] => []
  | n, e :: es => (e.shaders, n) :: entryPairs (n + 1) es

/-- Consistency of a cache state: both indexes are the projections of the
entry sequence, and every shader of the registry is filed under its own key. -/
def DxvkStateCache.Indexed (c : DxvkStateCache) : Prop :=
  c.m_entryMap = entryPairs 0 c.m_entries
    ∧ c.m_pipelineMap = c.m_entries.flatMap (fun e => pipelinePairs e.shaders)
    ∧ ∀ p ∈ c.m_shaderMap, p.2.getShaderKey = p.1

/-- The states of a cache object: the state the constructor leaves, and every
state obtained from it by a call of `registerShader`, `addGraphicsPipeline` or
`addComputePipeline`, or by a worker or the writer taking the front element of
its queue. -/
inductive Reachable (E : Externals) : DxvkStateCache → Prop where
  | construct (file : Option (List Byte)) (canWrite : Bool) :
      Reachable E (DxvkStateCache.openCache E file canWrite).cache
  | registerShader (c : DxvkStateCache) (shader : DxvkShader) :
      Reachable E c → Reachable E (c.registerShader shader)
  | addGraphicsPipeline (c : DxvkStateCache) (shaders : DxvkStateCacheKey)
      (state : DxvkGraphicsPipelineStateInfo) (format : DxvkRenderPassFormat) :
      Reachable E c → Reachable E (c.addGraphicsPipeline E shaders state format)
  | addComputePipeline (c : DxvkStateCache) (shaders : DxvkStateCacheKey)
      (state : DxvkComputePipelineStateInfo) :
      Reachable E c → Reachable E (c.addComputePipeline E shaders state)
  | workerPop (c : DxvkStateCache) :
      Reachable E c → Reachable E { c with m_workerQueue := c.m_workerQueue.tail }
  | writerPop (c : DxvkStateCache) :
      Reachable E c → Reachable E { c with m_writerQueue := c.m_writerQueue.tail }

/-- An operation on a cache object after its construction: a call of one of
the three public methods, or a worker or the writer taking the front element
of its queue. -/
inductive CacheOp where
  | registerShader (shader : DxvkShader)
  | addGraphicsPipeline (shaders : DxvkStateCacheKey)
      (state : DxvkGraphicsPipelineStateInfo) (format : DxvkRenderPassFormat)
  | addComputePipeline (shaders : DxvkStateCacheKey)
      (state : DxvkComputePipelineStateInfo)
  | workerPop
  | writerPop
deriving DecidableEq, Repr

/-- The state after one operation. -/
def DxvkStateCache.apply (E : Externals) (c : DxvkStateCache) : CacheOp → DxvkStateCache
  | CacheOp.registerShader shader => c.registerShader shader
  | CacheOp.addGraphicsPipeline shaders state format =>
    c.addGraphicsPipeline E shaders state format
  | CacheOp.addComputePipeline shaders state => c.addComputePipeline E shaders state
  | CacheOp.workerPop => { c with m_workerQueue := c.m_workerQueue.tail }
  | CacheOp.writerPop => { c with m_writerQueue := c.m_writerQueue.tail }

/-- The state after a sequence of operations. -/
def DxvkStateCache.applyAll (E : Externals) (c : DxvkStateCache) (ops : List CacheOp) :
    DxvkStateCache :=
  ops.foldl (DxvkStateCache.apply E) c

/-- The result of `readCacheHeader` on the `sizeof(DxvkStateCacheHeader)` bytes
`hdr` at the start of a file: magic, version and record size are those of the
current build. -/
def Externals.headerAccepted (E : Externals) (hdr : List Byte) : Bool :=
  decide ((E.headerOfBytes hdr).magic = E.magic
    ∧ (E.headerOfBytes hdr).version = E.version
    ∧ (E.headerOfBytes hdr).entrySize = E.entrySize)

/-- What the loop body of `registerShader` leaves in one slot of the work item
for the stage key `key`: nothing for the null key, and otherwise a shader of
the registry `m` filed under `key` whose own key is `key`. -/
def slotHolds (m : List (DxvkShaderKey × DxvkShader)) (key : DxvkShaderKey)
    (r : Option DxvkShader) : Prop :=
  (key = g_nullShaderKey ∧ r = none)
    ∨ (key ≠ g_nullShaderKey ∧ ∃ s, r = some s ∧ (key, s) ∈ m ∧ s.getShaderKey = key)

/-- Where the writer thread stands in `writerFunc`: before the test of the loop
condition `!m_stopThreads.load()`; inside `m_writerCond.wait` with the writer
lock; after it popped `entry` and released the lock, before `writeCacheEntry`;
after the loop. -/
inductive WriterPc where
  | loopHead
  | waiting
  | writing (entry : DxvkStateCacheEntry)
  | done
deriving DecidableEq, Repr

/-- The writer thread and what it shares with the other threads: the writer
queue, the stop flag and the output stream `m_writerFile` (`none` when it
failed to open, in which case a write has no effect). The remaining fields
record the history of a run: every entry pushed on the queue, every entry
handed to `writeCacheEntry`, and the number of entries popped after the stop
flag was set. -/
structure WriterState where
  m_writerQueue : List DxvkStateCacheEntry
  m_stopThreads : Bool
  m_writerFile : Option (List Byte)
  pc : WriterPc
  enqueued : List DxvkStateCacheEntry
  taken : List DxvkStateCacheEntry
  takenAfterStop : Nat
deriving DecidableEq, Repr

/-- The atomic steps of a run: a registration pushes an entry on the writer
queue (`m_writerQueue.push` under the writer lock in `addGraphicsPipeline` and
`addComputePipeline`), the destructor sets the stop flag, or the writer thread
makes its next step. -/
inductive WriterAction where
  | enqueue (entry : DxvkStateCacheEntry)
  | stop
  | writer
deriving DecidableEq, Repr

/-- The state in which the constructor starts the writer thread. -/
def WriterState.init (file : Option (List Byte)) : WriterState :=
  { m_writerQueue := [], m_stopThreads := false, m_writerFile := file,
    pc := WriterPc.loopHead, enqueued := [], taken := [], takenAfterStop := 0 }

/-- The next step of `writerFunc`. At the loop head the stop flag is tested. In
`wait` the thread stays blocked while the queue is empty and the flag is clear;
otherwise it leaves the loop if the queue is empty and else pops the front
entry. After the pop it calls `writeCacheEntry` and returns to the loop head. -/
def WriterState.writerStep (E : Externals) (s : WriterState) : WriterState :=
  match s.pc with
  | WriterPc.loopHead =>
    if s.m_stopThreads then { s with pc := WriterPc.done }
    else { s with pc := WriterPc.waiting }
  | WriterPc.waiting =>
    match s.m_writerQueue with
    | [] => if s.m_stopThreads then { s with pc := WriterPc.done } else s
    | entry :: queue =>
      { s with m_writerQueue := queue, pc := WriterPc.writing entry,
               takenAfterStop :=
                 if s.m_stopThreads then s.takenAfterStop + 1 else s.takenAfterStop }
  | WriterPc.writing entry =>
    { s with m_writerFile := s.m_writerFile.map (fun f => (writeCacheEntry E f entry).1),
             pc := WriterPc.loopHead, taken := s.taken ++ [entry] }
  | WriterPc.done => s

/-- One step of a run. -/
def WriterState.step (E : Externals) (s : WriterState) : WriterAction → WriterState
  | WriterAction.enqueue entry =>
    { s with m_writerQueue := s.m_writerQueue ++ [entry],
             enqueued := s.enqueued ++ [entry] }
  | WriterAction.stop => { s with m_stopThreads := true }
  | WriterAction.writer => s.writerStep E

/-- The state after a sequence of steps. -/
def WriterState.run (E : Externals) (s : WriterState) (acts : List WriterAction) :
    WriterState :=
  acts.foldl (WriterState.step E) s

/-- The entry that the writer has popped and not yet written, if any. -/
def WriterPc.inFlight : WriterPc → List DxvkStateCacheEntry
  | WriterPc.writing entry => [entry]
  | _ => []

/-- The bytes that `writeCacheEntry` appends for the entries `es`, in order. -/
def Externals.records (E : Externals) (es : List DxvkStateCacheEntry) : List Byte :=
  (es.map (fun e => E.entryBytes (E.written e))).flatten

/-- The invariant of the runs of the writer that start with the output stream
`file0`: the entries pushed are, in order, those handed to `writeCacheEntry`,
the one in flight, and those in the queue; the stream holds `file0` followed by
the records of the entries handed over; the loop is left only with the stop
flag set; at most one entry was popped after the flag was set, and none while
the thread is about to wait. -/
def WriterState.Inv (E : Externals) (file0 : Option (List Byte)) (s : WriterState) :
    Prop :=
  s.enqueued = s.taken ++ s.pc.inFlight ++ s.m_writerQueue
    ∧ s.m_writerFile = file0.map (fun f => f ++ E.records s.taken)
    ∧ (s.pc = WriterPc.done → s.m_stopThreads = true)
    ∧ s.takenAfterStop ≤ 1
    ∧ (s.m_stopThreads = false → s.takenAfterStop = 0)
    ∧ (s.pc = WriterPc.waiting → s.takenAfterStop = 0)

/-- The computation of `numWorkers` in the constructor (lines 71 to 77) from
the value `numCpuCores` of `hardware_concurrency()`; both are `uint32_t`, the
products are taken modulo `2 ^ 32`. -/
def numWorkers (numCpuCores : Nat) : Nat :=
  let numWorkers :=
    if numCpuCores > 8 then numCpuCores * 3 % 2 ^ 32 / 4
    else numCpuCores * 1 % 2 ^ 32 / 2
  let numWorkers := if numWorkers < 1 then 1 else numWorkers
  if numWorkers > 16 then 16 else numWorkers

/-- The call `std::string::find_last_of(c)`: the position of the last
occurrence of `c`, `none` for `npos`. -/
def findLastOf : List Char → Char → Option Nat
  | [], _ => none
  | x :: xs, c =>
    match findLastOf xs c with
    | some i => some (i + 1)
    | none => if x = c then some 0 else none

/-- The method `DxvkStateCache::getCacheFileName`; `path` is the value of the
environment variable `DXVK_STATE_CACHE_PATH` (empty when unset) and `exeName`
the result of `env::getExeName()`. Strings are lists of characters. -/
def getCacheFileName (path exeName : List Char) : List Char :=
  let path :=
    if !path.isEmpty && path.getLast? != some '/' then path ++ ['/'] else path
  let extp := findLastOf exeName '.'
  let exeName :=
    match extp with
    | some p => if exeName.drop (p + 1) = ['e', 'x', 'e'] then exeName.take p else exeName
    | none => exeName
  path ++ (exeName ++ ['.', 'd', 'x', 'v', 'k', '-', 'c', 'a', 'c', 'h', 'e'])

/-- The directory part of a cache file name: the directory, followed by a slash
when it is not empty and does not end in one. -/
def cacheDirectory (path : List Char) : List Char :=
  if path ≠ [] ∧ path.getLast? ≠ some '/' then path ++ ['/'] else path

/-- Modelled from the spec: the Windows type `BOOL` is a signed integer; the
code tests it against 0 and 1 only. -/
abbrev BOOL := Int

/-- Modelled from the spec: result codes of the Windows headers, by name.
`D3D_OK` is the same code as `S_OK`. -/
inductive HRESULT where
  | S_OK
  | E_INVALIDARG
  | D3DERR_INVALIDCALL
  | D3DERR_NOTAVAILABLE
  | D3DERR_INVALIDDEVICE
deriving DecidableEq, Repr

/-- Modelled from the spec: `D3D_OK` of `d3d9.h`. -/
abbrev D3D_OK : HRESULT := HRESULT.S_OK

/-! The enumerators of `D3D11_BLEND`, `D3D11_BLEND_OP`, `D3D11_LOGIC_OP` and
`D3D11_COLOR_WRITE_ENABLE` come from the header `d3d11.h`, which is not part of
the sources. An enumeration value is an `Int`, as the code compares it with
`<`, `>` and `==` and an application can pass any integer. -/

/-- Modelled from the spec: enumerator of `D3D11_BLEND` in `d3d11.h`. -/
def D3D11_BLEND_ZERO : Int := 1
/-- Modelled from the spec: enumerator of `D3D11_BLEND` in `d3d11.h`. -/
def D3D11_BLEND_ONE : Int := 2
/-- Modelled from the spec: enumerator of `D3D11_BLEND` in `d3d11.h`. -/
def D3D11_BLEND_SRC_COLOR : Int := 3
/-- Modelled from the spec: enumerator of `D3D11_BLEND` in `d3d11.h`. -/
def D3D11_BLEND_INV_SRC_COLOR : Int := 4
/-- Modelled from the spec: enumerator of `D3D11_BLEND` in `d3d11.h`. -/
def D3D11_BLEND_SRC_ALPHA : Int := 5
/-- Modelled from the spec: enumerator of `D3D11_BLEND` in `d3d11.h`. -/
def D3D11_BLEND_INV_SRC_ALPHA : Int := 6
/-- Modelled from the spec: enumerator of `D3D11_BLEND` in `d3d11.h`. -/
def D3D11_BLEND_DEST_ALPHA : Int := 7
/-- Modelled from the spec: enumerator of `D3D11_BLEND` in `d3d11.h`. -/
def D3D11_BLEND_INV_DEST_ALPHA : Int := 8
/-- Modelled from the spec: enumerator of `D3D11_BLEND` in `d3d11.h`. -/
def D3D11_BLEND_DEST_COLOR : Int := 9
/-- Modelled from the spec: enumerator of `D3D11_BLEND` in `d3d11.h`. -/
def D3D11_BLEND_INV_DEST_COLOR : Int := 10
/-- Modelled from the spec: enumerator of `D3D11_BLEND` in `d3d11.h`. -/
def D3D11_BLEND_SRC_ALPHA_SAT : Int := 11
/-- Modelled from the spec: enumerator of `D3D11_BLEND` in `d3d11.h`; the
header defines no enumerator with the values 12 and 13. -/
def D3D11_BLEND_BLEND_FACTOR : Int := 14
/-- Modelled from the spec: enumerator of `D3D11_BLEND` in `d3d11.h`. -/
def D3D11_BLEND_INV_BLEND_FACTOR : Int := 15
/-- Modelled from the spec: enumerator of `D3D11_BLEND` in `d3d11.h`. -/
def D3D11_BLEND_SRC1_COLOR : Int := 16
/-- Modelled from the spec: enumerator of `D3D11_BLEND` in `d3d11.h`. -/
def D3D11_BLEND_INV_SRC1_COLOR : Int := 17
/-- Modelled from the spec: enumerator of `D3D11_BLEND` in `d3d11.h`. -/
def D3D11_BLEND_SRC1_ALPHA : Int := 18
/-- Modelled from the spec: enumerator of `D3D11_BLEND` in `d3d11.h`. -/
def D3D11_BLEND_INV_SRC1_ALPHA : Int := 19

/-- Modelled from the spec: enumerator of `D3D11_BLEND_OP` in `d3d11.h`. -/
def D3D11_BLEND_OP_ADD : Int := 1
/-- Modelled from the spec: enumerator of `D3D11_BLEND_OP` in `d3d11.h`. -/
def D3D11_BLEND_OP_SUBTRACT : Int := 2
/-- Modelled from the spec: enumerator of `D3D11_BLEND_OP` in `d3d11.h`. -/
def D3D11_BLEND_OP_REV_SUBTRACT : Int := 3
/-- Modelled from the spec: enumerator of `D3D11_BLEND_OP` in `d3d11.h`. -/
def D3D11_BLEND_OP_MIN : Int := 4
/-- Modelled from the spec: enumerator of `D3D11_BLEND_OP` in `d3d11.h`. -/
def D3D11_BLEND_OP_MAX : Int := 5

/-- Modelled from the spec: first enumerator of `D3D11_LOGIC_OP` in `d3d11.h`. -/
def D3D11_LOGIC_OP_CLEAR : Int := 0
/-- Modelled from the spec: enumerator of `D3D11_LOGIC_OP` in `d3d11.h`. -/
def D3D11_LOGIC_OP_NOOP : Int := 4
/-- Modelled from the spec: last enumerator of `D3D11_LOGIC_OP` in `d3d11.h`. -/
def D3D11_LOGIC_OP_OR_INVERTED : Int := 15

/-- Modelled from the spec: `D3D11_COLOR_WRITE_ENABLE_ALL` of `d3d11.h`, the
four channel bits together. -/
def D3D11_COLOR_WRITE_ENABLE_ALL : Nat := 15

/-- Modelled from the spec: `D3D11_RENDER_TARGET_BLEND_DESC1` of `d3d11_1.h`.
The write mask is a `UINT8`. -/
structure D3D11_RENDER_TARGET_BLEND_DESC1 where
  BlendEnable : BOOL
  LogicOpEnable : BOOL
  SrcBlend : Int
  DestBlend : Int
  BlendOp : Int
  SrcBlendAlpha : Int
  DestBlendAlpha : Int
  BlendOpAlpha : Int
  LogicOp : Int
  RenderTargetWriteMask : Nat
deriving DecidableEq, Repr

/-- Modelled from the spec: `D3D11_BLEND_DESC1` of `d3d11_1.h`, with its array
of eight render targets. -/
structure D3D11_BLEND_DESC1 where
  AlphaToCoverageEnable : BOOL
  IndependentBlendEnable : BOOL
  RenderTarget : Fin 8 → D3D11_RENDER_TARGET_BLEND_DESC1

/-- Modelled from the spec: the blend factors of `vulkan_core.h` that the
decoder returns, by name. -/
inductive VkBlendFactor where
  | VK_BLEND_FACTOR_ZERO
  | VK_BLEND_FACTOR_ONE
  | VK_BLEND_FACTOR_SRC_COLOR
  | VK_BLEND_FACTOR_ONE_MINUS_SRC_COLOR
  | VK_BLEND_FACTOR_SRC_ALPHA
  | VK_BLEND_FACTOR_ONE_MINUS_SRC_ALPHA
  | VK_BLEND_FACTOR_DST_ALPHA
  | VK_BLEND_FACTOR_ONE_MINUS_DST_ALPHA
  | VK_BLEND_FACTOR_DST_COLOR
  | VK_BLEND_FACTOR_ONE_MINUS_DST_COLOR
  | VK_BLEND_FACTOR_SRC_ALPHA_SATURATE
  | VK_BLEND_FACTOR_CONSTANT_ALPHA
  | VK_BLEND_FACTOR_CONSTANT_COLOR
  | VK_BLEND_FACTOR_ONE_MINUS_CONSTANT_ALPHA
  | VK_BLEND_FACTOR_ONE_MINUS_CONSTANT_COLOR
  | VK_BLEND_FACTOR_SRC1_COLOR
  | VK_BLEND_FACTOR_ONE_MINUS_SRC1_COLOR
  | VK_BLEND_FACTOR_SRC1_ALPHA
  | VK_BLEND_FACTOR_ONE_MINUS_SRC1_ALPHA
deriving DecidableEq, Repr

/-- Modelled from the spec: the blend operations of `vulkan_core.h`, by name. -/
inductive VkBlendOp where
  | VK_BLEND_OP_ADD
  | VK_BLEND_OP_SUBTRACT
  | VK_BLEND_OP_REVERSE_SUBTRACT
  | VK_BLEND_OP_MIN
  | VK_BLEND_OP_MAX
deriving DecidableEq, Repr

/-- Modelled from the spec: `DxvkBlendMode` of `dxvk_constant_state.h`, with
the fields that `DecodeBlendMode` assigns. -/
structure DxvkBlendMode where
  enableBlending : Int
  colorSrcFactor : VkBlendFactor
  colorDstFactor : VkBlendFactor
  colorBlendOp : VkBlendOp
  alphaSrcFactor : VkBlendFactor
  alphaDstFactor : VkBlendFactor
  alphaBlendOp : VkBlendOp
  writeMask : Nat
deriving DecidableEq, Repr

/-- Result of a decoder: the value it returns and whether it wrote the
"invalid" message to the error log on the way. -/
structure Decoded (α : Type) where
  value : α
  loggedError : Bool
deriving DecidableEq, Repr

/-- The method `D3D11BlendState::DefaultDesc`. -/
def D3D11BlendState.DefaultDesc : D3D11_BLEND_DESC1 :=
  { AlphaToCoverageEnable := 0
    IndependentBlendEnable := 0
    RenderTarget := fun _ =>
      { BlendEnable := 0
        LogicOpEnable := 0
        SrcBlend := D3D11_BLEND_ONE
        DestBlend := D3D11_BLEND_ZERO
        BlendOp := D3D11_BLEND_OP_ADD
        SrcBlendAlpha := D3D11_BLEND_ONE
        DestBlendAlpha := D3D11_BLEND_ZERO
        BlendOpAlpha := D3D11_BLEND_OP_ADD
        LogicOp := D3D11_LOGIC_OP_NOOP
        RenderTargetWriteMask := D3D11_COLOR_WRITE_ENABLE_ALL } }

/-- The method `D3D11BlendState::ValidBlend`. -/
def D3D11BlendState.ValidBlend (blend : Int) : Bool :=
  if blend < D3D11_BLEND_ZERO ∨ blend > D3D11_BLEND_INV_SRC1_ALPHA then false else true

/-- The method `D3D11BlendState::ValidBlendAlpha`. -/
def D3D11BlendState.ValidBlendAlpha (blendAlpha : Int) : Bool :=
  if blendAlpha = D3D11_BLEND_SRC_COLOR
      ∨ blendAlpha = D3D11_BLEND_INV_SRC_COLOR
      ∨ blendAlpha = D3D11_BLEND_DEST_COLOR
      ∨ blendAlpha = D3D11_BLEND_INV_DEST_COLOR
      ∨ blendAlpha = D3D11_BLEND_SRC1_COLOR
      ∨ blendAlpha = D3D11_BLEND_INV_SRC1_COLOR
      ∨ blendAlpha > D3D11_BLEND_INV_SRC1_ALPHA
      ∨ blendAlpha < D3D11_BLEND_ZERO then false else true

/-- The method `D3D11BlendState::ValidBlendOp`. -/
def D3D11BlendState.ValidBlendOp (blendOp : Int) : Bool :=
  if blendOp < D3D11_BLEND_OP_ADD ∨ blendOp > D3D11_BLEND_OP_MAX then false else true

/-- The method `D3D11BlendState::ValidLogicOp`. -/
def D3D11BlendState.ValidLogicOp (logicOp : Int) : Bool :=
  if logicOp < D3D11_LOGIC_OP_CLEAR ∨ logicOp > D3D11_LOGIC_OP_OR_INVERTED then false else true

/-- The method `D3D11BlendState::DecodeBlendFactor`: the switch over the enumerators, then
the fallback, which logs unless the value is 0 and returns
`VK_BLEND_FACTOR_ZERO`. -/
def D3D11BlendState.DecodeBlendFactor (BlendFactor : Int) (IsAlpha : Bool) :
    Decoded VkBlendFactor :=
  if BlendFactor = D3D11_BLEND_ZERO then ⟨.VK_BLEND_FACTOR_ZERO, false⟩
  else if BlendFactor = D3D11_BLEND_ONE then ⟨.VK_BLEND_FACTOR_ONE, false⟩
  else if BlendFactor = D3D11_BLEND_SRC_COLOR then ⟨.VK_BLEND_FACTOR_SRC_COLOR, false⟩
  else if BlendFactor = D3D11_BLEND_INV_SRC_COLOR then
    ⟨.VK_BLEND_FACTOR_ONE_MINUS_SRC_COLOR, false⟩
  else if BlendFactor = D3D11_BLEND_SRC_ALPHA then ⟨.VK_BLEND_FACTOR_SRC_ALPHA, false⟩
  else if BlendFactor = D3D11_BLEND_INV_SRC_ALPHA then
    ⟨.VK_BLEND_FACTOR_ONE_MINUS_SRC_ALPHA, false⟩
  else if BlendFactor = D3D11_BLEND_DEST_ALPHA then ⟨.VK_BLEND_FACTOR_DST_ALPHA, false⟩
  else if BlendFactor = D3D11_BLEND_INV_DEST_ALPHA then
    ⟨.VK_BLEND_FACTOR_ONE_MINUS_DST_ALPHA, false⟩
  else if BlendFactor = D3D11_BLEND_DEST_COLOR then ⟨.VK_BLEND_FACTOR_DST_COLOR, false⟩
  else if BlendFactor = D3D11_BLEND_INV_DEST_COLOR then
    ⟨.VK_BLEND_FACTOR_ONE_MINUS_DST_COLOR, false⟩
  else if BlendFactor = D3D11_BLEND_SRC_ALPHA_SAT then
    ⟨.VK_BLEND_FACTOR_SRC_ALPHA_SATURATE, false⟩
  else if BlendFactor = D3D11_BLEND_BLEND_FACTOR then
    ⟨if IsAlpha then .VK_BLEND_FACTOR_CONSTANT_ALPHA else .VK_BLEND_FACTOR_CONSTANT_COLOR, false⟩
  else if BlendFactor = D3D11_BLEND_INV_BLEND_FACTOR then
    ⟨if IsAlpha then .VK_BLEND_FACTOR_ONE_MINUS_CONSTANT_ALPHA
      else .VK_BLEND_FACTOR_ONE_MINUS_CONSTANT_COLOR, false⟩
  else if BlendFactor = D3D11_BLEND_SRC1_COLOR then ⟨.VK_BLEND_FACTOR_SRC1_COLOR, false⟩
  else if BlendFactor = D3D11_BLEND_INV_SRC1_COLOR then
    ⟨.VK_BLEND_FACTOR_ONE_MINUS_SRC1_COLOR, false⟩
  else if BlendFactor = D3D11_BLEND_SRC1_ALPHA then ⟨.VK_BLEND_FACTOR_SRC1_ALPHA, false⟩
  else if BlendFactor = D3D11_BLEND_INV_SRC1_ALPHA then
    ⟨.VK_BLEND_FACTOR_ONE_MINUS_SRC1_ALPHA, false⟩
  else ⟨.VK_BLEND_FACTOR_ZERO, decide (BlendFactor ≠ 0)⟩

/-- The method `D3D11BlendState::DecodeBlendOp`. -/
def D3D11BlendState.DecodeBlendOp (BlendOp : Int) : Decoded VkBlendOp :=
  if BlendOp = D3D11_BLEND_OP_ADD then ⟨.VK_BLEND_OP_ADD, false⟩
  else if BlendOp = D3D11_BLEND_OP_SUBTRACT then ⟨.VK_BLEND_OP_SUBTRACT, false⟩
  else if BlendOp = D3D11_BLEND_OP_REV_SUBTRACT then ⟨.VK_BLEND_OP_REVERSE_SUBTRACT, false⟩
  else if BlendOp = D3D11_BLEND_OP_MIN then ⟨.VK_BLEND_OP_MIN, false⟩
  else if BlendOp = D3D11_BLEND_OP_MAX then ⟨.VK_BLEND_OP_MAX, false⟩
  else ⟨.VK_BLEND_OP_ADD, decide (BlendOp ≠ 0)⟩

/-- The method `D3D11BlendState::DecodeBlendMode`; the messages of the decoders go to the
log and are not part of the mode. -/
def D3D11BlendState.DecodeBlendMode (BlendDesc : D3D11_RENDER_TARGET_BLEND_DESC1) :
    DxvkBlendMode :=
  { enableBlending := BlendDesc.BlendEnable
    colorSrcFactor := (D3D11BlendState.DecodeBlendFactor BlendDesc.SrcBlend false).value
    colorDstFactor := (D3D11BlendState.DecodeBlendFactor BlendDesc.DestBlend false).value
    colorBlendOp := (D3D11BlendState.DecodeBlendOp BlendDesc.BlendOp).value
    alphaSrcFactor := (D3D11BlendState.DecodeBlendFactor BlendDesc.SrcBlendAlpha true).value
    alphaDstFactor := (D3D11BlendState.DecodeBlendFactor BlendDesc.DestBlendAlpha true).value
    alphaBlendOp := (D3D11BlendState.DecodeBlendOp BlendDesc.BlendOpAlpha).value
    writeMask := BlendDesc.RenderTargetWriteMask }

/-- The member `m_blendModes` after the constructor of `D3D11BlendState`: for
each of the eight slots the decoded mode of render target `i`, or of render
target 0 when `IndependentBlendEnable` is zero. -/
def D3D11BlendState.construct (desc : D3D11_BLEND_DESC1) : Fin 8 → DxvkBlendMode :=
  fun i => D3D11BlendState.DecodeBlendMode
    (if desc.IndependentBlendEnable ≠ 0 then desc.RenderTarget i else desc.RenderTarget 0)

/-- The `setBlendMode` calls of `D3D11BlendState::BindToContext`, in order:
slot and mode. -/
def D3D11BlendState.BindToContext (m_blendModes : Fin 8 → DxvkBlendMode) :
    List (Nat × DxvkBlendMode) :=
  (List.finRange 8).map (fun i => (i.val, m_blendModes i))

/-- The first block of `NormalizeDesc` on render target 0
(`if (rt->BlendEnable != 0)`): `error` carries the target as it is when the
function returns `E_INVALIDARG`. -/
def D3D11BlendState.normalizeBlendEnable (rt : D3D11_RENDER_TARGET_BLEND_DESC1) :
    Except D3D11_RENDER_TARGET_BLEND_DESC1 D3D11_RENDER_TARGET_BLEND_DESC1 :=
  if rt.BlendEnable ≠ 0 then
    let rt := { rt with BlendEnable := 1 }
    if rt.LogicOpEnable = 1 then .error rt
    else if (!D3D11BlendState.ValidBlendOp rt.BlendOp
        || !D3D11BlendState.ValidBlendOp rt.BlendOpAlpha) = true then .error rt
    else if (!D3D11BlendState.ValidBlend rt.SrcBlend
        || !D3D11BlendState.ValidBlendAlpha rt.SrcBlendAlpha
        || !D3D11BlendState.ValidBlend rt.DestBlend
        || !D3D11BlendState.ValidBlendAlpha rt.DestBlendAlpha) = true then .error rt
    else .ok rt
  else .ok rt

/-- The second block of `NormalizeDesc` on render target 0
(`if (rt->LogicOpEnable != 0)`). -/
def D3D11BlendState.normalizeLogicOpEnable (IndependentBlendEnable : BOOL)
    (rt : D3D11_RENDER_TARGET_BLEND_DESC1) :
    Except D3D11_RENDER_TARGET_BLEND_DESC1 D3D11_RENDER_TARGET_BLEND_DESC1 :=
  if rt.LogicOpEnable ≠ 0 then
    let rt := { rt with LogicOpEnable := 1 }
    if rt.BlendEnable = 1 then .error rt
    else if IndependentBlendEnable = 1 then .error rt
    else if (!D3D11BlendState.ValidLogicOp rt.LogicOp) = true then .error rt
    else .ok rt
  else .ok rt

/-- The assignments `rt->SrcBlend = defaultDesc.RenderTarget[0].SrcBlend` to
`rt->BlendOpAlpha = ...` that `NormalizeDesc` makes in three places. -/
def D3D11BlendState.assignDefaultBlend (rt : D3D11_RENDER_TARGET_BLEND_DESC1) :
    D3D11_RENDER_TARGET_BLEND_DESC1 :=
  { rt with
    SrcBlend := (D3D11BlendState.DefaultDesc.RenderTarget 0).SrcBlend
    DestBlend := (D3D11BlendState.DefaultDesc.RenderTarget 0).DestBlend
    BlendOp := (D3D11BlendState.DefaultDesc.RenderTarget 0).BlendOp
    SrcBlendAlpha := (D3D11BlendState.DefaultDesc.RenderTarget 0).SrcBlendAlpha
    DestBlendAlpha := (D3D11BlendState.DefaultDesc.RenderTarget 0).DestBlendAlpha
    BlendOpAlpha := (D3D11BlendState.DefaultDesc.RenderTarget 0).BlendOpAlpha }

/-- The rest of the work of `NormalizeDesc` on render target 0: the defaults
for a disabled blend and a disabled logic op, then the write mask test. -/
def D3D11BlendState.normalizeDefaults (rt : D3D11_RENDER_TARGET_BLEND_DESC1) :
    Except D3D11_RENDER_TARGET_BLEND_DESC1 D3D11_RENDER_TARGET_BLEND_DESC1 :=
  let rt := if rt.BlendEnable = 0 then D3D11BlendState.assignDefaultBlend rt else rt
  let rt := if rt.LogicOpEnable = 0 then
      { rt with LogicOp := (D3D11BlendState.DefaultDesc.RenderTarget 0).LogicOp }
    else rt
  if rt.RenderTargetWriteMask > D3D11_COLOR_WRITE_ENABLE_ALL then .error rt else .ok rt

/-- The part of `NormalizeDesc` that works on render target 0, from
`rt = &pDesc->RenderTarget[0]` to the first write mask test. -/
def D3D11BlendState.normalizeTarget0 (IndependentBlendEnable : BOOL)
    (rt : D3D11_RENDER_TARGET_BLEND_DESC1) :
    Except D3D11_RENDER_TARGET_BLEND_DESC1 D3D11_RENDER_TARGET_BLEND_DESC1 :=
  match D3D11BlendState.normalizeBlendEnable rt with
  | .error rt => .error rt
  | .ok rt =>
    match D3D11BlendState.normalizeLogicOpEnable IndependentBlendEnable rt with
    | .error rt => .error rt
    | .ok rt => D3D11BlendState.normalizeDefaults rt

/-- The body of the loop of `NormalizeDesc` over render targets 1 to 7 when
independent blending is enabled, without the write mask test. -/
def D3D11BlendState.independentTarget (rt0 rt : D3D11_RENDER_TARGET_BLEND_DESC1) :
    D3D11_RENDER_TARGET_BLEND_DESC1 :=
  if rt.BlendEnable ≠ 0 then
    { rt with
      BlendEnable := 1
      SrcBlend := rt0.SrcBlend
      DestBlend := rt0.DestBlend
      BlendOp := rt0.BlendOp
      SrcBlendAlpha := rt0.SrcBlendAlpha
      DestBlendAlpha := rt0.DestBlendAlpha
      BlendOpAlpha := rt0.BlendOpAlpha }
  else D3D11BlendState.assignDefaultBlend rt

/-- The loop `for (int i = 1; i < 8; i++)` of `NormalizeDesc` for enabled
independent blending, over the indices still to visit; `error` carries the
descriptor as it is when the function returns `E_INVALIDARG`. -/
def D3D11BlendState.normalizeIndependent :
    List (Fin 8) → D3D11_BLEND_DESC1 → Except D3D11_BLEND_DESC1 D3D11_BLEND_DESC1
  | [], desc => .ok desc
  | i :: rest, desc =>
    let rt := D3D11BlendState.independentTarget (desc.RenderTarget 0) (desc.RenderTarget i)
    let desc := { desc with RenderTarget := Function.update desc.RenderTarget i rt }
    if rt.RenderTargetWriteMask > D3D11_COLOR_WRITE_ENABLE_ALL then .error desc
    else D3D11BlendState.normalizeIndependent rest desc

/-- The body of the loop of `NormalizeDesc` over render targets 1 to 7 when
independent blending is disabled: the value given to the target. -/
def D3D11BlendState.sharedTarget (rt0 : D3D11_RENDER_TARGET_BLEND_DESC1) :
    D3D11_RENDER_TARGET_BLEND_DESC1 :=
  let rt := D3D11BlendState.DefaultDesc.RenderTarget 0
  let rt := { rt with RenderTargetWriteMask := rt0.RenderTargetWriteMask }
  if rt0.LogicOpEnable = 1 then { rt with LogicOpEnable := 1, LogicOp := rt0.LogicOp } else rt

/-- The loop `for (int i = 1; i < 8; i++)` of `NormalizeDesc` for disabled
independent blending, over the indices still to visit. -/
def D3D11BlendState.normalizeShared : List (Fin 8) → D3D11_BLEND_DESC1 → D3D11_BLEND_DESC1
  | [], desc => desc
  | i :: rest, desc =>
    D3D11BlendState.normalizeShared rest
      { desc with
        RenderTarget := Function.update desc.RenderTarget i
          (D3D11BlendState.sharedTarget (desc.RenderTarget 0)) }

/-- The first two statements of `NormalizeDesc`: a non-zero
`AlphaToCoverageEnable` or `IndependentBlendEnable` becomes 1. -/
def D3D11BlendState.normalizeFlags (pDesc : D3D11_BLEND_DESC1) : D3D11_BLEND_DESC1 :=
  let pDesc := if pDesc.AlphaToCoverageEnable ≠ 0 then
      { pDesc with AlphaToCoverageEnable := 1 } else pDesc
  let pDesc := if pDesc.IndependentBlendEnable ≠ 0 then
      { pDesc with IndependentBlendEnable := 1 } else pDesc
  pDesc

/-- The rest of `NormalizeDesc`, from `rt = &pDesc->RenderTarget[0]` to the
end: render target 0, then the two loops over the render targets 1 to 7. -/
def D3D11BlendState.normalizeTargets (pDesc : D3D11_BLEND_DESC1) :
    HRESULT × D3D11_BLEND_DESC1 :=
  match D3D11BlendState.normalizeTarget0 pDesc.IndependentBlendEnable (pDesc.RenderTarget 0) with
  | .error rt =>
    (HRESULT.E_INVALIDARG, { pDesc with RenderTarget := Function.update pDesc.RenderTarget 0 rt })
  | .ok rt =>
    let pDesc := { pDesc with RenderTarget := Function.update pDesc.RenderTarget 0 rt }
    match (if pDesc.IndependentBlendEnable ≠ 0 then
        D3D11BlendState.normalizeIndependent [1, 2, 3, 4, 5, 6, 7] pDesc
      else .ok pDesc) with
    | .error pDesc => (HRESULT.E_INVALIDARG, pDesc)
    | .ok pDesc =>
      let pDesc := if pDesc.IndependentBlendEnable = 0 then
          D3D11BlendState.normalizeShared [1, 2, 3, 4, 5, 6, 7] pDesc else pDesc
      (HRESULT.S_OK, pDesc)

/-- The method `D3D11BlendState::NormalizeDesc`: the result code and the
descriptor `*pDesc` as the call leaves it. -/
def D3D11BlendState.NormalizeDesc (pDesc : D3D11_BLEND_DESC1) : HRESULT × D3D11_BLEND_DESC1 :=
  D3D11BlendState.normalizeTargets (D3D11BlendState.normalizeFlags pDesc)

/-- The validity tests that `NormalizeDesc` makes on the blend fields of render
target 0 when blending is enabled, taken together. -/
def D3D11BlendState.validBlendFields (r : D3D11_RENDER_TARGET_BLEND_DESC1) : Bool :=
  D3D11BlendState.ValidBlendOp r.BlendOp && D3D11BlendState.ValidBlendOp r.BlendOpAlpha
  && D3D11BlendState.ValidBlend r.SrcBlend && D3D11BlendState.ValidBlendAlpha r.SrcBlendAlpha
  && D3D11BlendState.ValidBlend r.DestBlend && D3D11BlendState.ValidBlendAlpha r.DestBlendAlpha

/-! ### Direct3D 9 core object (`d3d9_core.cpp`) -/

/-- Modelled from the spec: `D3DDEVTYPE_HAL` of `d3d9types.h`. -/
def D3DDEVTYPE_HAL : Int := 1

/-- The part of a `Direct3D9` object that the checks read: the number of
adapters, `m_adapters.size()`. -/
structure Direct3D9 where
  numAdapters : Nat
deriving DecidableEq, Repr

/-- The method `Direct3D9::ValidAdapter`. -/
def Direct3D9.ValidAdapter (self : Direct3D9) (adapter : Nat) : Bool :=
  decide (adapter < self.numAdapters)

/-- The method `Direct3D9::CheckDeviceMultiSampleType`: the result code and the
value behind `pQualityLevels` after the call (`none` for a null pointer). The
surface format and the windowed flag are not read. -/
def Direct3D9.CheckDeviceMultiSampleType (self : Direct3D9) (Adapter : Nat) (DevType : Int)
    (MultiSampleType : Int) (pQualityLevels : Option Nat) : HRESULT × Option Nat :=
  if !self.ValidAdapter Adapter then (HRESULT.D3DERR_INVALIDCALL, pQualityLevels)
  else if DevType ≠ D3DDEVTYPE_HAL then (HRESULT.D3DERR_INVALIDDEVICE, pQualityLevels)
  else
    let pQualityLevels := pQualityLevels.map (fun _ => 1)
    if MultiSampleType > 16 then (HRESULT.D3DERR_INVALIDCALL, pQualityLevels)
    else if MultiSampleType = 1 ∨ MultiSampleType = 2 ∨ MultiSampleType = 4
        ∨ MultiSampleType = 8 then (D3D_OK, pQualityLevels)
    else (HRESULT.D3DERR_NOTAVAILABLE, pQualityLevels)

/-! ### Monitor information (`dxgi_monitor.cpp`) -/

/-- Modelled from the spec: enumerator of `DXGI_COLOR_SPACE_TYPE` in
`dxgicommon.h` (sRGB). -/
def DXGI_COLOR_SPACE_RGB_FULL_G22_NONE_P709 : Nat := 0

/-- Modelled from the spec: enumerator of `DXGI_COLOR_SPACE_TYPE` in
`dxgicommon.h` (HDR10). -/
def DXGI_COLOR_SPACE_RGB_FULL_G2084_NONE_P2020 : Nat := 12

/-- Modelled from the spec: the option of `DxgiOptions` that the monitor
information reads. -/
structure DxgiOptions where
  enableHDR : Bool
deriving DecidableEq, Repr

/-- The members of `DxgiMonitorInfo` that the colour space methods use. -/
structure DxgiMonitorInfo where
  m_options : DxgiOptions
  m_globalColorSpace : Nat
deriving DecidableEq, Repr

/-- The method `DxgiMonitorInfo::DefaultColorSpace`. -/
def DxgiMonitorInfo.DefaultColorSpace (self : DxgiMonitorInfo) : Nat :=
  if self.m_options.enableHDR then DXGI_COLOR_SPACE_RGB_FULL_G2084_NONE_P2020
  else DXGI_COLOR_SPACE_RGB_FULL_G22_NONE_P709

/-- The constructor of `DxgiMonitorInfo`: the options are stored first, then
`m_globalColorSpace` is set to `DefaultColorSpace()`. -/
def DxgiMonitorInfo.construct (options : DxgiOptions) : DxgiMonitorInfo :=
  let self : DxgiMonitorInfo := { m_options := options, m_globalColorSpace := 0 }
  { self with m_globalColorSpace := self.DefaultColorSpace }

/-- The method `DxgiMonitorInfo::PuntColorSpace`. -/
def DxgiMonitorInfo.PuntColorSpace (self : DxgiMonitorInfo) (ColorSpace : Nat) :
    DxgiMonitorInfo :=
  if self.DefaultColorSpace ≠ DXGI_COLOR_SPACE_RGB_FULL_G22_NONE_P709 then self
  else { self with m_globalColorSpace := ColorSpace }

/-- The method `DxgiMonitorInfo::CurrentColorSpace`. -/
def DxgiMonitorInfo.CurrentColorSpace (self : DxgiMonitorInfo) : Nat :=
  self.m_globalColorSpace

/-! ### Bit operations (`util_bit.h`)

Values of type `uint32_t` are natural numbers below `2 ^ 32`, values of the
template type `T` natural numbers below `2 ^ Bits`; every operation that can
leave the range is reduced explicitly. -/

/-- The function `bit::popcntStep`; `~mask` is the complement in 32 bits. -/
def bit.popcntStep (n mask shift : Nat) : Nat :=
  ((n &&& mask) + ((n &&& (2 ^ 32 - 1 - mask)) >>> shift)) % 2 ^ 32

/-- The function `bit::popcnt`. -/
def bit.popcnt (n : Nat) : Nat :=
  let n := bit.popcntStep n 0x55555555 1
  let n := bit.popcntStep n 0x33333333 2
  let n := bit.popcntStep n 0x0F0F0F0F 4
  let n := bit.popcntStep n 0x00FF00FF 8
  let n := bit.popcntStep n 0x0000FFFF 16
  n

/-- What a call of `bit::pack` or `bit::unpack` leaves: the value returned and
the two reference arguments `dst` and `shift`. -/
structure bit.Packed where
  ret : Nat
  dst : Nat
  shift : Nat
deriving DecidableEq, Repr

/-- The function `bit::pack` for a type `T` of `Bits` bits. -/
def bit.pack (Bits : Nat) (dst shift src count : Nat) : bit.Packed :=
  let dst := if shift < Bits then (dst ||| (src <<< shift)) % 2 ^ Bits else dst
  let shift := (shift + count) % 2 ^ 32
  { ret := if shift > Bits then shift - Bits else 0, dst := dst, shift := shift }

/-- The function `bit::unpack` for a type `T` of `Bits` bits; `dst` is the
value of the reference argument before the call. The mask `(T(1) << count) - 1`
is taken for `count < Bits`, where the shift is defined. -/
def bit.unpack (Bits : Nat) (dst src shift count : Nat) : bit.Packed :=
  let dst := if shift < Bits then ((src >>> shift) &&& ((1 <<< count) - 1)) % 2 ^ Bits else dst
  let shift := (shift + count) % 2 ^ 32
  { ret := if shift > Bits then shift - Bits else 0, dst := dst, shift := shift }

/-! ### Sample values

Concrete inputs on which the definitions are evaluated. -/

/-- The byte at position `i` of a block, zero past its end. -/
def byteAt (block : List Byte) (i : Nat) : Byte := block.getD i 0

/-- A small layout on which the definitions can be evaluated: every field of a
record and of the header occupies one byte, and the hash of a block is a
checksum of its bytes. It represents faithfully the records whose fields are
below 256. -/
def sampleExternals : Externals where
  sha1 := fun block =>
    Sha1Hash.mk (block.foldl (fun acc b => (acc * 31 + b.toNat + 7) % 251) 1)
  fmtMatches := fun a b => decide (a = b)
  entrySize := 10
  entryBytes := fun e =>
    [UInt8.ofNat e.shaders.vs.id, UInt8.ofNat e.shaders.tcs.id,
     UInt8.ofNat e.shaders.tes.id, UInt8.ofNat e.shaders.gs.id,
     UInt8.ofNat e.shaders.fs.id, UInt8.ofNat e.shaders.cs.id,
     UInt8.ofNat e.gpState.raw, UInt8.ofNat e.cpState.raw,
     UInt8.ofNat e.format.raw, UInt8.ofNat e.hash.digest]
  entryOfBytes := fun block =>
    { shaders :=
        { vs := DxvkShaderKey.mk (byteAt block 0).toNat
          tcs := DxvkShaderKey.mk (byteAt block 1).toNat
          tes := DxvkShaderKey.mk (byteAt block 2).toNat
          gs := DxvkShaderKey.mk (byteAt block 3).toNat
          fs := DxvkShaderKey.mk (byteAt block 4).toNat
          cs := DxvkShaderKey.mk (byteAt block 5).toNat }
      gpState := DxvkGraphicsPipelineStateInfo.mk (byteAt block 6).toNat
      cpState := DxvkComputePipelineStateInfo.mk (byteAt block 7).toNat
      format := DxvkRenderPassFormat.mk (byteAt block 8).toNat
      hash := Sha1Hash.mk (byteAt block 9).toNat }
  headerSize := 6
  headerBytes := fun h =>
    [h.magic 0, h.magic 1, h.magic 2, h.magic 3,
     UInt8.ofNat h.version, UInt8.ofNat h.entrySize]
  headerOfBytes := fun block =>
    { magic := fun i => byteAt block i.val
      version := (byteAt block 4).toNat
      entrySize := (byteAt block 5).toNat }
  magic := fun i => byteAt [68, 88, 86, 75] i.val
  version := 2

/-- A graphics combination with a vertex and a fragment stage. -/
def sampleKey : DxvkStateCacheKey :=
  { vs := DxvkShaderKey.mk 1, fs := DxvkShaderKey.mk 2 }

/-- A combination with six distinct stages. -/
def sampleKey6 : DxvkStateCacheKey :=
  { vs := DxvkShaderKey.mk 1, tcs := DxvkShaderKey.mk 2, tes := DxvkShaderKey.mk 3,
    gs := DxvkShaderKey.mk 4, fs := DxvkShaderKey.mk 5, cs := DxvkShaderKey.mk 6 }

/-- A record for `sampleKey` with graphics state `g` and format `f`, its hash
field holding the null hash of `sampleExternals`. -/
def sampleEntry (g f : Nat) : DxvkStateCacheEntry :=
  { shaders := sampleKey
    gpState := DxvkGraphicsPipelineStateInfo.mk g
    cpState := DxvkComputePipelineStateInfo.default
    format := DxvkRenderPassFormat.mk f
    hash := sampleExternals.g_nullHash }

/-- A shader object with key `k`. -/
def sampleShader (k : Nat) : DxvkShader :=
  { object := 100 + k, key := DxvkShaderKey.mk k }

/-- Three full-size blocks for `sampleExternals`: two written records around a
block whose stored hash does not validate. -/
def sampleBlocks : List (List Byte) :=
  [sampleExternals.entryBytes (sampleExternals.written (sampleEntry 3 4)),
   [1, 0, 0, 0, 2, 0, 9, 9, 9, 9],
   sampleExternals.entryBytes (sampleExternals.written (sampleEntry 5 4))]

/-- A record for `sampleKey6`, its hash field holding the null hash of
`sampleExternals`. -/
def sampleEntry6 : DxvkStateCacheEntry :=
  { shaders := sampleKey6
    gpState := DxvkGraphicsPipelineStateInfo.mk 7
    cpState := DxvkComputePipelineStateInfo.default
    format := DxvkRenderPassFormat.mk 8
    hash := sampleExternals.g_nullHash }

/-- Six shaders carrying the six keys of `sampleKey6`, in slot order. -/
def sampleShaders6 : List DxvkShader :=
  [sampleShader 1, sampleShader 2, sampleShader 3, sampleShader 4, sampleShader 5,
   sampleShader 6]

/-- The shaders of `sampleShaders6` in another order. -/
def sampleOrder6 : List DxvkShader :=
  [sampleShader 4, sampleShader 6, sampleShader 1, sampleShader 5, sampleShader 3,
   sampleShader 2]

/-- A run of the writer: two entries are pushed, the writer pops the first, the
destructor sets the stop flag, the writer writes the entry it holds and tests
the loop condition. -/
def sampleWriterRun : List WriterAction :=
  [WriterAction.enqueue (sampleEntry 3 4), WriterAction.enqueue (sampleEntry 5 4),
   WriterAction.writer, WriterAction.writer, WriterAction.stop,
   WriterAction.writer, WriterAction.writer]

/-- The fields of an entry that identify it: the combination key, both state
descriptors and the format (everything but the hash). -/
def DxvkStateCacheEntry.descriptor (e : DxvkStateCacheEntry) :
    DxvkStateCacheKey × DxvkGraphicsPipelineStateInfo × DxvkComputePipelineStateInfo
      × DxvkRenderPassFormat :=
  (e.shaders, e.gpState, e.cpState, e.format)

/-- A record whose vertex-stage and compute-stage keys are both null. -/
def sampleNullPrimary : DxvkStateCacheEntry :=
  { shaders := { fs := DxvkShaderKey.mk 2 }
    gpState := DxvkGraphicsPipelineStateInfo.mk 3
    cpState := DxvkComputePipelineStateInfo.default
    format := DxvkRenderPassFormat.mk 4
    hash := sampleExternals.g_nullHash }

/-- Two full-size blocks for `sampleExternals` holding the same written record. -/
def sampleDupBlocks : List (List Byte) :=
  [sampleExternals.entryBytes (sampleExternals.written (sampleEntry 3 4)),
   sampleExternals.entryBytes (sampleExternals.written (sampleEntry 3 4))]
/-- A render target with blending enabled and valid operations. -/
def sampleBlendTarget : D3D11_RENDER_TARGET_BLEND_DESC1 :=
  { BlendEnable := 7, LogicOpEnable := 0, SrcBlend := 5, DestBlend := 6, BlendOp := 1,
    SrcBlendAlpha := 2, DestBlendAlpha := 1, BlendOpAlpha := 1, LogicOp := 9,
    RenderTargetWriteMask := 15 }

/-- A descriptor without independent blending whose render targets 1 to 7 differ
from render target 0. -/
def sampleBlendDesc : D3D11_BLEND_DESC1 :=
  { AlphaToCoverageEnable := 3, IndependentBlendEnable := 0,
    RenderTarget := fun i =>
      if i = 0 then sampleBlendTarget
      else { sampleBlendTarget with BlendEnable := 0, SrcBlend := 3, RenderTargetWriteMask := 1 } }

/-- A descriptor whose render target 0 has blending and the logic op enabled,
the latter with a value other than 1. -/
def sampleBlendLogicDesc : D3D11_BLEND_DESC1 :=
  { AlphaToCoverageEnable := 0, IndependentBlendEnable := 0,
    RenderTarget := fun _ => { sampleBlendTarget with LogicOpEnable := 2, LogicOp := 4 } }

/-- A descriptor whose render target 0 has blending enabled with the source
factor 12, a value between two enumerators of `D3D11_BLEND`. -/
def sampleGapDesc : D3D11_BLEND_DESC1 :=
  { AlphaToCoverageEnable := 0, IndependentBlendEnable := 0,
    RenderTarget := fun _ => { sampleBlendTarget with BlendEnable := 1, SrcBlend := 12 } }

end dxvk

/-! ## Theorems -/

namespace dxvk

theorem shaderKey_eq_iff (a b : DxvkShaderKey) : a.eq b = true ↔ a = b := by
  simp [DxvkShaderKey.eq]

theorem shaderKey_eq_false_iff (a b : DxvkShaderKey) : a.eq b = false ↔ a ≠ b := by
  simp [DxvkShaderKey.eq]

theorem cacheKey_eq_iff (a b : DxvkStateCacheKey) : a.eq b = true ↔ a = b := by
  cases a; cases b
  simp [DxvkStateCacheKey.eq, shaderKey_eq_iff, and_assoc]

theorem hasGraphicsEntry_iff (E : Externals) (c : DxvkStateCache)
    (shaders : DxvkStateCacheKey) (state : DxvkGraphicsPipelineStateInfo)
    (format : DxvkRenderPassFormat) :
    c.hasGraphicsEntry E shaders state format = true ↔
      ∃ p ∈ c.m_entryMap, p.1 = shaders ∧ ∃ entry, c.m_entries[p.2]? = some entry
        ∧ E.fmtMatches entry.format format = true ∧ entry.gpState = state := by
  unfold DxvkStateCache.hasGraphicsEntry DxvkStateCache.entryRange
  simp only [List.any_eq_true, List.mem_filter, cacheKey_eq_iff]
  constructor
  · rintro ⟨p, ⟨hp, hk⟩, h⟩
    refine ⟨p, hp, hk, ?_⟩
    cases hg : c.m_entries[p.2]? with
    | none => simp [hg] at h
    | some entry =>
      simp only [hg, Bool.and_eq_true, decide_eq_true_eq] at h
      exact ⟨entry, rfl, h.1, h.2⟩
  · rintro ⟨p, hp, hk, entry, hg, hm, hs⟩
    exact ⟨p, ⟨hp, hk⟩, by simp [hg, hm, hs]⟩

/-- C6: `addGraphicsPipeline` with a null vertex-stage key and
`addComputePipeline` with a null compute-stage key return the cache state they
were given: entries, both indexes and the writer queue are unchanged. -/
theorem C6_null_primary_rejection (E : Externals) (c : DxvkStateCache)
    (gshaders cshaders : DxvkStateCacheKey)
    (gstate : DxvkGraphicsPipelineStateInfo) (format : DxvkRenderPassFormat)
    (cstate : DxvkComputePipelineStateInfo)
    (hvs : gshaders.vs = g_nullShaderKey) (hcs : cshaders.cs = g_nullShaderKey) :
    c.addGraphicsPipeline E gshaders gstate format = c
      ∧ c.addComputePipeline E cshaders cstate = c := by
  constructor
  · simp [DxvkStateCache.addGraphicsPipeline, hvs, DxvkShaderKey.eq]
  · simp [DxvkStateCache.addComputePipeline, hcs, DxvkShaderKey.eq]

/-- Witness of C6 on a cache holding one loaded entry, with the default key
(all stages null) as argument of both calls. -/
theorem C6_null_primary_rejection_witness :
    (({} : DxvkStateCacheKey).vs = g_nullShaderKey
      ∧ ({} : DxvkStateCacheKey).cs = g_nullShaderKey)
    ∧ (DxvkStateCache.indexEntry {} (sampleEntry 3 4)).addGraphicsPipeline
          sampleExternals {} (DxvkGraphicsPipelineStateInfo.mk 3)
          (DxvkRenderPassFormat.mk 4)
        = DxvkStateCache.indexEntry {} (sampleEntry 3 4)
    ∧ (DxvkStateCache.indexEntry {} (sampleEntry 3 4)).addComputePipeline
          sampleExternals {} (DxvkComputePipelineStateInfo.mk 1)
        = DxvkStateCache.indexEntry {} (sampleEntry 3 4) :=
  ⟨⟨rfl, rfl⟩,
   C6_null_primary_rejection sampleExternals _ {} {} _ _ _ rfl rfl⟩

/-- C7: with a non-null vertex-stage key, `addGraphicsPipeline` leaves the cache
unchanged when some entry indexed under the same combination key has a matching
format and an equal graphics state, and otherwise appends exactly one entry to
the back of the writer queue, holding the given shaders, state and format, the
default compute state and the null hash; nothing else changes. -/
theorem C7_addGraphicsPipeline_enqueue (E : Externals) (c : DxvkStateCache)
    (shaders : DxvkStateCacheKey) (state : DxvkGraphicsPipelineStateInfo)
    (format : DxvkRenderPassFormat) (hvs : shaders.vs ≠ g_nullShaderKey) :
    ((∃ p ∈ c.m_entryMap, p.1 = shaders ∧ ∃ entry, c.m_entries[p.2]? = some entry
        ∧ E.fmtMatches entry.format format = true ∧ entry.gpState = state) →
      c.addGraphicsPipeline E shaders state format = c)
    ∧ ((¬ ∃ p ∈ c.m_entryMap, p.1 = shaders ∧ ∃ entry, c.m_entries[p.2]? = some entry
        ∧ E.fmtMatches entry.format format = true ∧ entry.gpState = state) →
      c.addGraphicsPipeline E shaders state format =
        { c with m_writerQueue := c.m_writerQueue ++
            [{ shaders := shaders, gpState := state,
               cpState := DxvkComputePipelineStateInfo.default,
               format := format, hash := E.g_nullHash }] })
    ∧ ((c.addGraphicsPipeline E shaders state format).m_writerQueue ≠ c.m_writerQueue ↔
        ¬ ∃ p ∈ c.m_entryMap, p.1 = shaders ∧ ∃ entry, c.m_entries[p.2]? = some entry
          ∧ E.fmtMatches entry.format format = true ∧ entry.gpState = state) := by
  have hne : shaders.vs.eq g_nullShaderKey = false := (shaderKey_eq_false_iff _ _).2 hvs
  rw [← hasGraphicsEntry_iff]
  cases hd : c.hasGraphicsEntry E shaders state format <;>
    simp [DxvkStateCache.addGraphicsPipeline, hne, hd]

/-- Witness of C7: on the empty cache the call enqueues one entry. -/
theorem C7_addGraphicsPipeline_enqueue_witness :
    sampleKey.vs ≠ g_nullShaderKey
    ∧ (DxvkStateCache.addGraphicsPipeline sampleExternals {} sampleKey
          (DxvkGraphicsPipelineStateInfo.mk 3) (DxvkRenderPassFormat.mk 4)).m_writerQueue
        = [sampleEntry 3 4] :=
  ⟨by decide,
   by
    have h := (C7_addGraphicsPipeline_enqueue sampleExternals {} sampleKey
      (DxvkGraphicsPipelineStateInfo.mk 3) (DxvkRenderPassFormat.mk 4) (by decide)).2.1
      (by decide)
    rw [h]
    rfl⟩

theorem hasGraphicsEntry_writerQueue (E : Externals) (c : DxvkStateCache)
    (q : List DxvkStateCacheEntry) (shaders : DxvkStateCacheKey)
    (state : DxvkGraphicsPipelineStateInfo) (format : DxvkRenderPassFormat) :
    DxvkStateCache.hasGraphicsEntry E { c with m_writerQueue := q } shaders state format
      = c.hasGraphicsEntry E shaders state format := rfl

/-- C1 (as amended): `addGraphicsPipeline` never adds an entry to the entry
store or to an index. Called twice with the same arguments and a non-null
vertex-stage key, it leaves the cache unchanged when an entry indexed under the
combination key with a matching format and an equal state is stored, and
otherwise each of the two calls appends one entry to the writer queue, two in
total. -/
theorem C1_addGraphicsPipeline_twice (E : Externals) (c : DxvkStateCache)
    (shaders : DxvkStateCacheKey) (state : DxvkGraphicsPipelineStateInfo)
    (format : DxvkRenderPassFormat) (hvs : shaders.vs ≠ g_nullShaderKey) :
    ((∃ p ∈ c.m_entryMap, p.1 = shaders ∧ ∃ entry, c.m_entries[p.2]? = some entry
        ∧ E.fmtMatches entry.format format = true ∧ entry.gpState = state) →
      (c.addGraphicsPipeline E shaders state format).addGraphicsPipeline E shaders
        state format = c)
    ∧ ((¬ ∃ p ∈ c.m_entryMap, p.1 = shaders ∧ ∃ entry, c.m_entries[p.2]? = some entry
        ∧ E.fmtMatches entry.format format = true ∧ entry.gpState = state) →
      (c.addGraphicsPipeline E shaders state format).addGraphicsPipeline E shaders
        state format =
        { c with m_writerQueue := c.m_writerQueue ++
            [{ shaders := shaders, gpState := state,
               cpState := DxvkComputePipelineStateInfo.default,
               format := format, hash := E.g_nullHash },
             { shaders := shaders, gpState := state,
               cpState := DxvkComputePipelineStateInfo.default,
               format := format, hash := E.g_nullHash }] })
    ∧ ((c.addGraphicsPipeline E shaders state format).addGraphicsPipeline E shaders
        state format).m_entries = c.m_entries
    ∧ ((c.addGraphicsPipeline E shaders state format).addGraphicsPipeline E shaders
        state format).m_entryMap = c.m_entryMap
    ∧ ((c.addGraphicsPipeline E shaders state format).addGraphicsPipeline E shaders
        state format).m_pipelineMap = c.m_pipelineMap := by
  have hne : shaders.vs.eq g_nullShaderKey = false := (shaderKey_eq_false_iff _ _).2 hvs
  rw [← hasGraphicsEntry_iff]
  cases hd : c.hasGraphicsEntry E shaders state format <;>
    simp [DxvkStateCache.addGraphicsPipeline, hne, hd, hasGraphicsEntry_writerQueue]

/-- Witness of C1 (as amended) on a cache that holds the entry already. -/
theorem C1_addGraphicsPipeline_twice_witness :
    sampleKey.vs ≠ g_nullShaderKey
    ∧ ((DxvkStateCache.indexEntry {} (sampleEntry 3 4)).addGraphicsPipeline
          sampleExternals sampleKey (DxvkGraphicsPipelineStateInfo.mk 3)
          (DxvkRenderPassFormat.mk 4)).addGraphicsPipeline
          sampleExternals sampleKey (DxvkGraphicsPipelineStateInfo.mk 3)
          (DxvkRenderPassFormat.mk 4)
        = DxvkStateCache.indexEntry {} (sampleEntry 3 4) :=
  ⟨by decide,
   (C1_addGraphicsPipeline_twice sampleExternals
      (DxvkStateCache.indexEntry {} (sampleEntry 3 4)) sampleKey
      (DxvkGraphicsPipelineStateInfo.mk 3) (DxvkRenderPassFormat.mk 4) (by decide)).1
      ⟨(sampleKey, 0), by decide, rfl, sampleEntry 3 4, by decide, by decide, rfl⟩⟩

/-- C1 fails as stated: on the empty cache, two calls of `addGraphicsPipeline`
with the same arguments and a non-null vertex-stage key add two elements to the
writer queue, the second call is not a no-op, and no entry is created. -/
theorem C1_counterexample :
    sampleKey.vs ≠ g_nullShaderKey
    ∧ ((DxvkStateCache.addGraphicsPipeline sampleExternals {} sampleKey
          (DxvkGraphicsPipelineStateInfo.mk 3)
          (DxvkRenderPassFormat.mk 4)).addGraphicsPipeline sampleExternals sampleKey
          (DxvkGraphicsPipelineStateInfo.mk 3) (DxvkRenderPassFormat.mk 4)).m_writerQueue
        = [sampleEntry 3 4, sampleEntry 3 4]
    ∧ (DxvkStateCache.addGraphicsPipeline sampleExternals {} sampleKey
          (DxvkGraphicsPipelineStateInfo.mk 3)
          (DxvkRenderPassFormat.mk 4)).addGraphicsPipeline sampleExternals sampleKey
          (DxvkGraphicsPipelineStateInfo.mk 3) (DxvkRenderPassFormat.mk 4)
        ≠ DxvkStateCache.addGraphicsPipeline sampleExternals {} sampleKey
          (DxvkGraphicsPipelineStateInfo.mk 3) (DxvkRenderPassFormat.mk 4)
    ∧ ((DxvkStateCache.addGraphicsPipeline sampleExternals {} sampleKey
          (DxvkGraphicsPipelineStateInfo.mk 3)
          (DxvkRenderPassFormat.mk 4)).addGraphicsPipeline sampleExternals sampleKey
          (DxvkGraphicsPipelineStateInfo.mk 3) (DxvkRenderPassFormat.mk 4)).m_entries
        = [] := by
  decide

/-! ### The cache file -/

theorem read_full (d : List Byte) (size : Nat) (h : size ≤ d.length) :
    IStream.read { data := d, good := true } size
      = (some (d.take size), { data := d.drop size, good := true }) := by
  simp [IStream.read, h]

theorem read_short (d : List Byte) (size : Nat) (h : d.length < size) :
    IStream.read { data := d, good := true } size
      = (none, { data := [], good := false }) := by
  simp [IStream.read, Nat.not_le.2 h]

theorem magicLoop_eq_false_iff (a b : Fin 4 → Byte) :
    ([0, 1, 2, 3] : List (Fin 4)).any (fun i => a i != b i) = false ↔ a = b := by
  constructor
  · intro h
    simp only [List.any_cons, List.any_nil, Bool.or_false, Bool.or_eq_false_iff,
      bne_eq_false_iff_eq] at h
    funext i
    fin_cases i
    · exact h.1
    · exact h.2.1
    · exact h.2.2.1
    · exact h.2.2.2
  · rintro rfl
    simp

theorem readCacheHeader_short (E : Externals) (d : List Byte)
    (h : d.length < E.headerSize) :
    readCacheHeader E { data := d, good := true } = (false, { data := [], good := false }) := by
  simp [readCacheHeader, read_short d _ h]

theorem readCacheHeader_full (E : Externals) (d : List Byte)
    (h : E.headerSize ≤ d.length) :
    readCacheHeader E { data := d, good := true }
      = (decide ((E.headerOfBytes (d.take E.headerSize)).magic = E.magic
          ∧ (E.headerOfBytes (d.take E.headerSize)).version = E.version
          ∧ (E.headerOfBytes (d.take E.headerSize)).entrySize = E.entrySize),
         { data := d.drop E.headerSize, good := true }) := by
  simp only [readCacheHeader, read_full d _ h, Externals.expectedHeader]
  by_cases hm : (E.headerOfBytes (d.take E.headerSize)).magic = E.magic
  · have := (magicLoop_eq_false_iff E.magic (E.headerOfBytes (d.take E.headerSize)).magic).2 hm.symm
    simp only [this, hm, true_and]
    simp [eq_comm]
  · have h1 : ([0, 1, 2, 3] : List (Fin 4)).any
        (fun i => E.magic i != (E.headerOfBytes (d.take E.headerSize)).magic i) = true := by
      cases hx : ([0, 1, 2, 3] : List (Fin 4)).any
        (fun i => E.magic i != (E.headerOfBytes (d.take E.headerSize)).magic i) with
      | true => rfl
      | false => exact absurd ((magicLoop_eq_false_iff _ _).1 hx).symm hm
    simp [h1, hm]

theorem readCacheEntry_full (E : Externals) (block rest : List Byte)
    (h : block.length = E.entrySize) :
    readCacheEntry E { data := block ++ rest, good := true }
      = (E.validBlock block, some (E.loaded block), { data := rest, good := true }) := by
  have hle : E.entrySize ≤ (block ++ rest).length := by simp [h]
  have ht : (block ++ rest).take E.entrySize = block := List.take_left' h
  have hd : (block ++ rest).drop E.entrySize = rest := List.drop_left' h
  simp only [readCacheEntry, read_full _ _ hle, ht, hd, Externals.validBlock, Externals.loaded]

theorem readCacheEntry_short (E : Externals) (d : List Byte) (h : d.length < E.entrySize) :
    readCacheEntry E { data := d, good := true }
      = (false, none, { data := [], good := false }) := by
  simp [readCacheEntry, read_short d _ h]

theorem readCacheLoop_failed (E : Externals) (fuel : Nat) (d : List Byte)
    (c : DxvkStateCache) (n : Nat) :
    readCacheLoop E fuel { data := d, good := false } c n = (c, n) := by
  cases fuel <;> simp [readCacheLoop]

theorem indexAll_cons (c : DxvkStateCache) (e : DxvkStateCacheEntry)
    (es : List DxvkStateCacheEntry) :
    c.indexAll (e :: es) = (c.indexEntry e).indexAll es := rfl

theorem readCacheLoop_blocks (E : Externals) (blocks : List (List Byte))
    (tail : List Byte) (hfull : ∀ b ∈ blocks, b.length = E.entrySize)
    (htail : tail.length < E.entrySize) :
    ∀ (fuel : Nat) (c : DxvkStateCache) (n : Nat), blocks.length < fuel →
      readCacheLoop E fuel { data := blocks.flatten ++ tail, good := true } c n
        = (c.indexAll ((blocks.filter E.validBlock).map E.loaded),
           (fun x => (x + 1) % 2 ^ 32)^[blocks.countP (fun b => !E.validBlock b)] n) := by
  induction blocks with
  | nil =>
    intro fuel c n hf
    obtain ⟨f, rfl⟩ : ∃ f, fuel = f + 1 := ⟨fuel - 1, by simp at hf; omega⟩
    simp [readCacheLoop, readCacheEntry_short E tail htail, readCacheLoop_failed,
      DxvkStateCache.indexAll]
  | cons b bs ih =>
    intro fuel c n hf
    obtain ⟨f, rfl⟩ : ∃ f, fuel = f + 1 := ⟨fuel - 1, by simp at hf; omega⟩
    have hb : b.length = E.entrySize := hfull b (List.mem_cons_self _ _)
    have hbs : ∀ x ∈ bs, x.length = E.entrySize := fun x hx => hfull x (List.mem_cons_of_mem _ hx)
    have hf' : bs.length < f := by simp at hf; omega
    have hstep := readCacheEntry_full E b (bs.flatten ++ tail) hb
    rw [List.flatten_cons, List.append_assoc]
    cases hv : E.validBlock b with
    | true =>
      rw [hv] at hstep
      simp only [readCacheLoop, hstep, if_true]
      rw [ih hbs f _ n hf']
      simp [hv, indexAll_cons]
    | false =>
      rw [hv] at hstep
      simp only [readCacheLoop, hstep, if_true]
      rw [ih hbs f c _ hf']
      simp [hv, List.countP_cons_of_pos]

theorem iterate_bump_zero (k : Nat) :
    (fun x => (x + 1) % 2 ^ 32)^[k] 0 = k % 2 ^ 32 := by
  induction k with
  | zero => rfl
  | succ k ih =>
    rw [Function.iterate_succ_apply', ih]
    omega

theorem length_le_flatten (size : Nat) (hpos : 0 < size) (blocks : List (List Byte))
    (hfull : ∀ b ∈ blocks, b.length = size) : blocks.length ≤ blocks.flatten.length := by
  induction blocks with
  | nil => simp
  | cons b bs ih =>
    have hb : b.length = size := hfull b (List.mem_cons_self _ _)
    have := ih (fun x hx => hfull x (List.mem_cons_of_mem _ hx))
    simp only [List.flatten_cons, List.length_append, List.length_cons]
    omega

theorem readCacheHeader_fileOf (E : Externals) (hhdr : E.HeaderFaithful)
    (rest : List Byte) :
    readCacheHeader E { data := E.headerBytes E.expectedHeader ++ rest, good := true }
      = (true, { data := rest, good := true }) := by
  obtain ⟨hlen, hm, hv, hs⟩ := hhdr
  have hle : E.headerSize ≤ (E.headerBytes E.expectedHeader ++ rest).length := by
    simp [hlen]
  rw [readCacheHeader_full E _ hle, List.take_left' hlen, List.drop_left' hlen]
  simp [hm, hv, hs]

theorem readCacheFile_fileOf (E : Externals) (hpos : 0 < E.entrySize)
    (hhdr : E.HeaderFaithful) (c : DxvkStateCache) (blocks : List (List Byte))
    (tail : List Byte) (hfull : ∀ b ∈ blocks, b.length = E.entrySize)
    (htail : tail.length < E.entrySize) :
    DxvkStateCache.readCacheFile E c (some (E.fileOf blocks ++ tail))
      = { ok := decide (blocks.countP (fun b => !E.validBlock b) % 2 ^ 32 = 0)
          numInvalidEntries := blocks.countP (fun b => !E.validBlock b) % 2 ^ 32
          cache := c.indexAll ((blocks.filter E.validBlock).map E.loaded) } := by
  have hfuel : blocks.length < (blocks.flatten ++ tail).length + 1 := by
    have := length_le_flatten E.entrySize hpos blocks hfull
    simp only [List.length_append]
    omega
  simp only [DxvkStateCache.readCacheFile, Externals.fileOf, List.append_assoc,
    readCacheHeader_fileOf E hhdr,
    readCacheLoop_blocks E blocks tail hfull htail _ c 0 hfuel, iterate_bump_zero]

theorem indexEntry_entries (c : DxvkStateCache) (e : DxvkStateCacheEntry) :
    (c.indexEntry e).m_entries = c.m_entries ++ [e] := by
  simp only [DxvkStateCache.indexEntry, DxvkStateCache.mapShaderToPipeline,
    DxvkStateCache.mapPipelineToEntry]
  repeat' split
  all_goals rfl

theorem indexAll_entries (es : List DxvkStateCacheEntry) :
    ∀ c : DxvkStateCache, (c.indexAll es).m_entries = c.m_entries ++ es := by
  induction es with
  | nil => intro c; simp [DxvkStateCache.indexAll]
  | cons e es ih =>
    intro c
    rw [indexAll_cons, ih, indexEntry_entries]
    simp

/-- C3: for a file made of the header of the current build followed by
full-size records, `readCacheFile` loads exactly the records whose stored hash
equals the recomputed one, in file order, and indexes them; the 32-bit counter
`numInvalidEntries` is incremented once for every other record; the result is
true exactly when the counter is zero. For a file of fewer than `2 ^ 32`
records the counter is the number of records that fail validation and the
result is true exactly when every record validates. When exactly one record
fails validation, all the others are loaded, the counter is 1 and the result
is false. -/
theorem C3_corruption_skip (E : Externals) (blocks : List (List Byte))
    (hpos : 0 < E.entrySize) (hhdr : E.HeaderFaithful)
    (hfull : ∀ b ∈ blocks, b.length = E.entrySize) :
    (DxvkStateCache.readCacheFile E {} (some (E.fileOf blocks))).cache.m_entries
        = (blocks.filter E.validBlock).map E.loaded
    ∧ (DxvkStateCache.readCacheFile E {} (some (E.fileOf blocks))).cache
        = DxvkStateCache.indexAll {} ((blocks.filter E.validBlock).map E.loaded)
    ∧ (DxvkStateCache.readCacheFile E {} (some (E.fileOf blocks))).numInvalidEntries
        = blocks.countP (fun b => !E.validBlock b) % 2 ^ 32
    ∧ ((DxvkStateCache.readCacheFile E {} (some (E.fileOf blocks))).ok = true ↔
        (DxvkStateCache.readCacheFile E {} (some (E.fileOf blocks))).numInvalidEntries = 0)
    ∧ (blocks.length < 2 ^ 32 →
        (DxvkStateCache.readCacheFile E {} (some (E.fileOf blocks))).numInvalidEntries
            = blocks.countP (fun b => !E.validBlock b)
          ∧ ((DxvkStateCache.readCacheFile E {} (some (E.fileOf blocks))).ok = true ↔
              ∀ b ∈ blocks, E.validBlock b = true))
    ∧ (blocks.countP (fun b => !E.validBlock b) = 1 →
        (DxvkStateCache.readCacheFile E {} (some (E.fileOf blocks))).cache.m_entries.length
            = blocks.length - 1
          ∧ (DxvkStateCache.readCacheFile E {} (some (E.fileOf blocks))).numInvalidEntries = 1
          ∧ (DxvkStateCache.readCacheFile E {} (some (E.fileOf blocks))).ok = false) := by
  have h := readCacheFile_fileOf E hpos hhdr {} blocks [] hfull (by simpa using hpos)
  rw [List.append_nil] at h
  rw [h]
  refine ⟨?_, rfl, rfl, by simp, ?_, ?_⟩
  · rw [indexAll_entries]; rfl
  · intro hlt
    have hle : blocks.countP (fun b => !E.validBlock b) ≤ blocks.length :=
      List.countP_le_length _
    have hmod : blocks.countP (fun b => !E.validBlock b) % 2 ^ 32
        = blocks.countP (fun b => !E.validBlock b) := Nat.mod_eq_of_lt (by omega)
    refine ⟨hmod, ?_⟩
    simp only [hmod, decide_eq_true_eq, List.countP_eq_zero]
    constructor
    · intro h b hb
      have := h b hb
      simpa using this
    · intro h b hb
      simp [h b hb]
  · intro h1
    have hlen := List.length_eq_countP_add_countP E.validBlock blocks
    have hc : blocks.countP (fun b => decide ¬E.validBlock b = true)
        = blocks.countP (fun b => !E.validBlock b) := by
      congr 1; funext b; cases E.validBlock b <;> rfl
    rw [hc, h1] at hlen
    refine ⟨?_, ?_, ?_⟩
    · rw [indexAll_entries]
      simp only [List.length_map, List.nil_append, ← List.countP_eq_length_filter]
      show (List.countP E.validBlock blocks) = blocks.length - 1
      omega
    · simp [h1]
    · simp [h1]

/-- Witness of C3: three records, the second of which fails validation. -/
theorem C3_corruption_skip_witness :
    (0 < sampleExternals.entrySize ∧ sampleExternals.HeaderFaithful
      ∧ ∀ b ∈ sampleBlocks, b.length = sampleExternals.entrySize)
    ∧ (DxvkStateCache.readCacheFile sampleExternals {}
          (some (sampleExternals.fileOf sampleBlocks))).cache.m_entries.length = 2
    ∧ (DxvkStateCache.readCacheFile sampleExternals {}
          (some (sampleExternals.fileOf sampleBlocks))).numInvalidEntries = 1
    ∧ (DxvkStateCache.readCacheFile sampleExternals {}
          (some (sampleExternals.fileOf sampleBlocks))).ok = false :=
  ⟨⟨by decide, by unfold Externals.HeaderFaithful; decide, by decide⟩,
   (C3_corruption_skip sampleExternals sampleBlocks (by decide)
      (by unfold Externals.HeaderFaithful; decide) (by decide)).2.2.2.2.2 (by decide)⟩

theorem writeCacheEntry_eq (E : Externals) (stream : List Byte)
    (e : DxvkStateCacheEntry) :
    writeCacheEntry E stream e = (stream ++ E.entryBytes (E.written e), E.written e) := rfl

theorem foldl_writeCacheEntry (E : Externals) (es : List DxvkStateCacheEntry) :
    ∀ stream : List Byte,
      es.foldl (fun stream e => (writeCacheEntry E stream e).1) stream
        = stream ++ (es.map (fun e => E.entryBytes (E.written e))).flatten := by
  induction es with
  | nil => intro stream; simp
  | cons e es ih =>
    intro stream
    rw [List.foldl_cons, ih, writeCacheEntry_eq, List.map_cons, List.flatten_cons,
      List.append_assoc]

theorem loaded_written (E : Externals) (e : DxvkStateCacheEntry)
    (hnull : e.hash = E.g_nullHash) (hf : E.Faithful (E.written e)) :
    E.loaded (E.entryBytes (E.written e)) = e := by
  unfold Externals.loaded
  rw [hf.2]
  cases e
  simp only [Externals.written] at *
  simp [hnull]

theorem validBlock_written (E : Externals) (e : DxvkStateCacheEntry)
    (hnull : e.hash = E.g_nullHash) (hf : E.Faithful (E.written e)) :
    E.validBlock (E.entryBytes (E.written e)) = true := by
  unfold Externals.validBlock
  rw [loaded_written E e hnull hf, hf.2]
  simp [Externals.written]

/-- C2: for entries whose hash field holds the null hash, the file made of the
header of the current build followed by the records that `writeCacheEntry`
appends, in list order, is read back by `readCacheFile` with result true, no
invalid record, and an entry store holding exactly these entries in the same
order, indexed one after the other; every record passes the hash validation
and is loaded with all fields equal to the entry written. -/
theorem C2_round_trip (E : Externals) (es : List DxvkStateCacheEntry)
    (hpos : 0 < E.entrySize) (hhdr : E.HeaderFaithful)
    (hnull : ∀ e ∈ es, e.hash = E.g_nullHash)
    (hfaith : ∀ e ∈ es, E.Faithful (E.written e)) :
    DxvkStateCache.readCacheFile E {}
        (some (es.foldl (fun stream e => (writeCacheEntry E stream e).1)
          (E.headerBytes E.expectedHeader)))
      = { ok := true, numInvalidEntries := 0, cache := DxvkStateCache.indexAll {} es }
    ∧ (DxvkStateCache.indexAll {} es).m_entries = es
    ∧ ∀ e ∈ es, E.validBlock (E.entryBytes (E.written e)) = true
        ∧ E.loaded (E.entryBytes (E.written e)) = e := by
  have hvalid : ∀ e ∈ es, E.validBlock (E.entryBytes (E.written e)) = true :=
    fun e he => validBlock_written E e (hnull e he) (hfaith e he)
  have hload : ∀ e ∈ es, E.loaded (E.entryBytes (E.written e)) = e :=
    fun e he => loaded_written E e (hnull e he) (hfaith e he)
  refine ⟨?_, ?_, fun e he => ⟨hvalid e he, hload e he⟩⟩
  · have hfull : ∀ b ∈ es.map (fun e => E.entryBytes (E.written e)),
        b.length = E.entrySize := by
      intro b hb
      obtain ⟨e, he, rfl⟩ := List.mem_map.1 hb
      exact (hfaith e he).1
    have h := readCacheFile_fileOf E hpos hhdr {}
      (es.map (fun e => E.entryBytes (E.written e))) [] hfull (by simpa using hpos)
    rw [List.append_nil] at h
    rw [foldl_writeCacheEntry]
    have hfilter : ((es.map (fun e => E.entryBytes (E.written e))).filter E.validBlock).map
        E.loaded = es := by
      rw [List.filter_eq_self.2 (by
        intro b hb
        obtain ⟨e, he, rfl⟩ := List.mem_map.1 hb
        exact hvalid e he)]
      rw [List.map_map]
      calc es.map (E.loaded ∘ fun e => E.entryBytes (E.written e))
          = es.map id := List.map_congr_left (fun e he => hload e he)
        _ = es := List.map_id es
    have hcount : (es.map (fun e => E.entryBytes (E.written e))).countP
        (fun b => !E.validBlock b) = 0 := by
      rw [List.countP_eq_zero]
      intro b hb
      obtain ⟨e, he, rfl⟩ := List.mem_map.1 hb
      simp [hvalid e he]
    rw [hfilter, hcount] at h
    simpa [Externals.fileOf] using h
  · rw [indexAll_entries]; rfl

/-- Witness of C2: two entries written with `sampleExternals`. -/
theorem C2_round_trip_witness :
    (0 < sampleExternals.entrySize ∧ sampleExternals.HeaderFaithful
      ∧ (∀ e ∈ [sampleEntry 3 4, sampleEntry 5 4], e.hash = sampleExternals.g_nullHash)
      ∧ ∀ e ∈ [sampleEntry 3 4, sampleEntry 5 4],
          sampleExternals.Faithful (sampleExternals.written e))
    ∧ DxvkStateCache.readCacheFile sampleExternals {}
        (some ([sampleEntry 3 4, sampleEntry 5 4].foldl
          (fun stream e => (writeCacheEntry sampleExternals stream e).1)
          (sampleExternals.headerBytes sampleExternals.expectedHeader)))
      = { ok := true, numInvalidEntries := 0
          cache := DxvkStateCache.indexAll {} [sampleEntry 3 4, sampleEntry 5 4] } :=
  ⟨⟨by decide, by unfold Externals.HeaderFaithful; decide, by decide,
    by unfold Externals.Faithful; decide⟩,
   (C2_round_trip sampleExternals [sampleEntry 3 4, sampleEntry 5 4] (by decide)
      (by unfold Externals.HeaderFaithful; decide) (by decide)
      (by unfold Externals.Faithful; decide)).1⟩

theorem readCacheHeader_failed (E : Externals) (d : List Byte) :
    (readCacheHeader E { data := d, good := false }).1 = false := by
  simp [readCacheHeader, IStream.read]

theorem readCacheFile_unusable (E : Externals) (c : DxvkStateCache)
    (file : Option (List Byte))
    (h : file = none ∨ ∃ bytes, file = some bytes
      ∧ (readCacheHeader E { data := bytes, good := true }).1 = false) :
    DxvkStateCache.readCacheFile E c file
      = { ok := false, numInvalidEntries := 0, cache := c } := by
  rcases h with rfl | ⟨bytes, rfl, hb⟩
  · rfl
  · unfold DxvkStateCache.readCacheFile
    rcases hr : readCacheHeader E { data := bytes, good := true } with ⟨b, s⟩
    rw [hr] at hb
    simp only at hb
    subst hb
    simp only [hr]

/-- C9: `readCacheHeader` returns true exactly when `sizeof(header)` bytes can be
read and the four magic bytes, the version and the record size they hold equal
those of the header of the current build. When it returns false, or when the
file cannot be opened, `readCacheFile` returns false and leaves the cache as it
was (no entry is loaded), and the constructor sets `newFile`; if it can open
the file for writing, it replaces it by the header of the current build alone,
and if it cannot, the file stays as it is. -/
theorem C9_header_acceptance (E : Externals) :
    (∀ bytes : List Byte,
      (readCacheHeader E { data := bytes, good := true }).1 = true ↔
        E.headerSize ≤ bytes.length
        ∧ (∀ i : Fin 4, (E.headerOfBytes (bytes.take E.headerSize)).magic i
            = E.expectedHeader.magic i)
        ∧ (E.headerOfBytes (bytes.take E.headerSize)).version = E.expectedHeader.version
        ∧ (E.headerOfBytes (bytes.take E.headerSize)).entrySize
            = E.expectedHeader.entrySize)
    ∧ (∀ (c : DxvkStateCache) (file : Option (List Byte)),
        (file = none ∨ ∃ bytes, file = some bytes
          ∧ (readCacheHeader E { data := bytes, good := true }).1 = false) →
        (DxvkStateCache.readCacheFile E c file).ok = false
        ∧ (DxvkStateCache.readCacheFile E c file).cache = c)
    ∧ (∀ file : Option (List Byte),
        (file = none ∨ ∃ bytes, file = some bytes
          ∧ (readCacheHeader E { data := bytes, good := true }).1 = false) →
        (DxvkStateCache.openCache E file true).newFile = true
        ∧ (DxvkStateCache.openCache E file true).cache.m_entries = []
        ∧ (DxvkStateCache.openCache E file true).file
            = some (E.headerBytes E.expectedHeader)
        ∧ (DxvkStateCache.openCache E file false).newFile = true
        ∧ (DxvkStateCache.openCache E file false).file = file) := by
  refine ⟨?_, ?_, ?_⟩
  · intro bytes
    by_cases hlen : E.headerSize ≤ bytes.length
    · rw [readCacheHeader_full E bytes hlen]
      simp [hlen, Externals.expectedHeader, funext_iff]
    · rw [readCacheHeader_short E bytes (Nat.not_le.1 hlen)]
      simp [hlen]
  · intro c file h
    rw [readCacheFile_unusable E c file h]
    exact ⟨rfl, rfl⟩
  · intro file h
    simp [DxvkStateCache.openCache, readCacheFile_unusable E {} file h, writeAllEntries]

theorem readCacheEntry_failed (E : Externals) (d : List Byte) :
    readCacheEntry E { data := d, good := false }
      = (false, none, { data := [], good := false }) := by
  simp [readCacheEntry, IStream.read]

/-- C10: the hash that `writeCacheEntry` stores in the record of an entry whose
hash field holds `g_nullHash` (the value it has in every entry the cache hands
to it: `readCacheEntry` leaves it in the entries it loads, and
`addGraphicsPipeline` and `addComputePipeline` put it in the entries they
enqueue) is the hash of the object representation of the record with the hash
field reset to `g_nullHash`; `readCacheEntry` returns true exactly when a full
record was read and the stored hash equals the hash recomputed in this way. -/
theorem C10_integrity_hash (E : Externals) (stream : List Byte)
    (e : DxvkStateCacheEntry) (s : IStream) (hnull : e.hash = E.g_nullHash) :
    writeCacheEntry E stream e
        = (stream ++ E.entryBytes
            { e with hash := E.sha1 (E.entryBytes { e with hash := E.g_nullHash }) },
           { e with hash := E.sha1 (E.entryBytes { e with hash := E.g_nullHash }) })
    ∧ ((readCacheEntry E s).1 = true ↔
        s.good = true ∧ E.entrySize ≤ s.data.length
        ∧ (E.entryOfBytes (s.data.take E.entrySize)).hash
            = E.sha1 (E.entryBytes
                { E.entryOfBytes (s.data.take E.entrySize) with hash := E.g_nullHash }))
    ∧ (∀ x, (readCacheEntry E s).2.1 = some x → x.hash = E.g_nullHash)
    ∧ (∀ (c : DxvkStateCache) (shaders : DxvkStateCacheKey)
        (gstate : DxvkGraphicsPipelineStateInfo) (format : DxvkRenderPassFormat),
        ∀ x ∈ (c.addGraphicsPipeline E shaders gstate format).m_writerQueue,
          x ∈ c.m_writerQueue ∨ x.hash = E.g_nullHash)
    ∧ (∀ (c : DxvkStateCache) (shaders : DxvkStateCacheKey)
        (cstate : DxvkComputePipelineStateInfo),
        ∀ x ∈ (c.addComputePipeline E shaders cstate).m_writerQueue,
          x ∈ c.m_writerQueue ∨ x.hash = E.g_nullHash) := by
  refine ⟨?_, ?_, ?_, ?_, ?_⟩
  · have he : ({ e with hash := E.g_nullHash } : DxvkStateCacheEntry) = e := by
      cases e; simp only at hnull; simp [hnull]
    rw [he]
    rfl
  · rcases s with ⟨d, g⟩
    cases g with
    | false => simp [readCacheEntry_failed]
    | true =>
      by_cases hlen : E.entrySize ≤ d.length
      · simp [readCacheEntry, read_full d _ hlen, hlen, Externals.compute]
      · simp [readCacheEntry_short E d (Nat.not_le.1 hlen), hlen]
  · intro x hx
    rcases s with ⟨d, g⟩
    cases g with
    | false => simp [readCacheEntry_failed] at hx
    | true =>
      by_cases hlen : E.entrySize ≤ d.length
      · simp only [readCacheEntry, read_full d _ hlen, Option.some.injEq] at hx
        rw [← hx]
      · simp [readCacheEntry_short E d (Nat.not_le.1 hlen)] at hx
  · intro c shaders gstate format x hx
    unfold DxvkStateCache.addGraphicsPipeline at hx
    split at hx
    · exact Or.inl hx
    · split at hx
      · exact Or.inl hx
      · simp only [List.mem_append, List.mem_singleton] at hx
        rcases hx with hx | rfl
        · exact Or.inl hx
        · exact Or.inr rfl
  · intro c shaders cstate x hx
    unfold DxvkStateCache.addComputePipeline at hx
    split at hx
    · exact Or.inl hx
    · split at hx
      · exact Or.inl hx
      · simp only [List.mem_append, List.mem_singleton] at hx
        rcases hx with hx | rfl
        · exact Or.inl hx
        · exact Or.inr rfl

/-- Witness of C10: a record written with `sampleExternals` and read back. -/
theorem C10_integrity_hash_witness :
    (sampleEntry 3 4).hash = sampleExternals.g_nullHash
    ∧ (writeCacheEntry sampleExternals [] (sampleEntry 3 4)).2.hash = Sha1Hash.mk 84
    ∧ (readCacheEntry sampleExternals
        { data := (writeCacheEntry sampleExternals [] (sampleEntry 3 4)).1,
          good := true }).1 = true :=
  ⟨rfl,
   by
    rw [(C10_integrity_hash sampleExternals [] (sampleEntry 3 4)
      { data := [], good := true } rfl).1]
    decide,
   (C10_integrity_hash sampleExternals [] (sampleEntry 3 4)
      { data := (writeCacheEntry sampleExternals [] (sampleEntry 3 4)).1, good := true }
      rfl).2.1.2 (by decide)⟩

/-! ### The shader registry and the work items -/

theorem mapShaderToPipeline_pipelineMap (c : DxvkStateCache) (s : DxvkShaderKey)
    (k : DxvkStateCacheKey) :
    (c.mapShaderToPipeline s k).m_pipelineMap
      = c.m_pipelineMap ++ (if !s.eq g_nullShaderKey then [(s, k)] else []) := by
  unfold DxvkStateCache.mapShaderToPipeline
  split <;> simp

theorem indexEntry_pipelineMap (c : DxvkStateCache) (e : DxvkStateCacheEntry) :
    (c.indexEntry e).m_pipelineMap = c.m_pipelineMap ++ pipelinePairs e.shaders := by
  unfold DxvkStateCache.indexEntry
  simp only [mapShaderToPipeline_pipelineMap, pipelinePairs, DxvkStateCacheKey.slots,
    List.flatMap_cons, List.flatMap_nil, List.append_assoc, List.append_nil]
  rfl

theorem indexEntry_entryMap (c : DxvkStateCache) (e : DxvkStateCacheEntry) :
    (c.indexEntry e).m_entryMap = c.m_entryMap ++ [(e.shaders, c.m_entries.length)] := by
  simp only [DxvkStateCache.indexEntry, DxvkStateCache.mapShaderToPipeline,
    DxvkStateCache.mapPipelineToEntry]
  repeat' split
  all_goals rfl

theorem indexEntry_shaderMap (c : DxvkStateCache) (e : DxvkStateCacheEntry) :
    (c.indexEntry e).m_shaderMap = c.m_shaderMap := by
  simp only [DxvkStateCache.indexEntry, DxvkStateCache.mapShaderToPipeline,
    DxvkStateCache.mapPipelineToEntry]
  repeat' split
  all_goals rfl

theorem entryPairs_append (es : List DxvkStateCacheEntry) (e : DxvkStateCacheEntry) :
    ∀ n : Nat, entryPairs n (es ++ [e]) = entryPairs n es ++ [(e.shaders, n + es.length)] := by
  induction es with
  | nil => intro n; simp [entryPairs]
  | cons x xs ih =>
    intro n
    show (x.shaders, n) :: entryPairs (n + 1) (xs ++ [e])
      = (x.shaders, n) :: entryPairs (n + 1) xs ++ [(e.shaders, n + (xs.length + 1))]
    rw [ih, show n + 1 + xs.length = n + (xs.length + 1) by omega]
    rfl

theorem indexed_empty : DxvkStateCache.Indexed {} := by
  refine ⟨rfl, rfl, ?_⟩
  intro p hp
  cases hp

theorem indexed_indexEntry (c : DxvkStateCache) (e : DxvkStateCacheEntry)
    (h : c.Indexed) : (c.indexEntry e).Indexed := by
  obtain ⟨h1, h2, h3⟩ := h
  refine ⟨?_, ?_, ?_⟩
  · rw [indexEntry_entryMap, indexEntry_entries, entryPairs_append, h1]
    simp
  · rw [indexEntry_pipelineMap, indexEntry_entries, h2]
    simp
  · rw [indexEntry_shaderMap]
    exact h3

theorem indexed_indexAll (es : List DxvkStateCacheEntry) :
    ∀ c : DxvkStateCache, c.Indexed → (c.indexAll es).Indexed := by
  induction es with
  | nil => intro c h; exact h
  | cons e es ih =>
    intro c h
    rw [indexAll_cons]
    exact ih _ (indexed_indexEntry c e h)

theorem insertShader_shaderMap (c : DxvkStateCache) (k : DxvkShaderKey) (sh : DxvkShader) :
    (c.insertShader k sh).m_shaderMap
      = if (c.findShader k).isSome then c.m_shaderMap else c.m_shaderMap ++ [(k, sh)] := by
  unfold DxvkStateCache.insertShader
  cases h : c.findShader k <;> simp

theorem insertShader_other (c : DxvkStateCache) (k : DxvkShaderKey) (sh : DxvkShader) :
    (c.insertShader k sh).m_entries = c.m_entries
      ∧ (c.insertShader k sh).m_entryMap = c.m_entryMap
      ∧ (c.insertShader k sh).m_pipelineMap = c.m_pipelineMap
      ∧ (c.insertShader k sh).m_workerQueue = c.m_workerQueue
      ∧ (c.insertShader k sh).m_writerQueue = c.m_writerQueue := by
  unfold DxvkStateCache.insertShader
  cases h : c.findShader k <;> simp

theorem findShader_insertShader (c : DxvkStateCache) (k k' : DxvkShaderKey)
    (sh : DxvkShader) :
    ((c.insertShader k sh).findShader k').isSome
      = ((c.findShader k').isSome || decide (k = k')) := by
  unfold DxvkStateCache.findShader
  rw [insertShader_shaderMap]
  unfold DxvkStateCache.findShader
  cases h : List.find? (fun p => p.1.eq k) c.m_shaderMap with
  | some p =>
    have hp := List.find?_some h
    have hk : p.1 = k := (shaderKey_eq_iff _ _).1 hp
    simp only [Option.isSome_some, if_true]
    by_cases hkk : k = k'
    · subst hkk
      simp [h]
    · simp [hkk]
  | none =>
    simp only [Option.isSome_none, Bool.false_eq_true, if_false, List.find?_append,
      List.find?_cons, List.find?_nil]
    cases h' : List.find? (fun p => p.1.eq k') c.m_shaderMap with
    | some q => simp
    | none =>
      by_cases hkk : k = k'
      · simp [hkk, DxvkShaderKey.eq]
      · simp [hkk, DxvkShaderKey.eq]

theorem registerShader_fold (c1 : DxvkStateCache)
    (l : List (DxvkShaderKey × DxvkStateCacheKey)) :
    ∀ acc : DxvkStateCache,
      l.foldl
        (fun acc p =>
          match c1.resolveItem p.2 with
          | none => acc
          | some item => { acc with m_workerQueue := acc.m_workerQueue ++ [item] })
        acc
      = { acc with m_workerQueue :=
            acc.m_workerQueue ++ l.filterMap (fun p => c1.resolveItem p.2) } := by
  induction l with
  | nil => intro acc; simp
  | cons p ps ih =>
    intro acc
    rw [List.foldl_cons, ih]
    cases h : c1.resolveItem p.2 with
    | none => simp [List.filterMap_cons, h]
    | some item => simp [List.filterMap_cons, h]

theorem registerShader_eq (c : DxvkStateCache) (sh : DxvkShader)
    (hk : sh.getShaderKey ≠ g_nullShaderKey) :
    c.registerShader sh
      = { c.insertShader sh.getShaderKey sh with
          m_workerQueue := c.m_workerQueue ++
            ((c.insertShader sh.getShaderKey sh).pipelineRange sh.getShaderKey).filterMap
              (fun p => (c.insertShader sh.getShaderKey sh).resolveItem p.2) } := by
  unfold DxvkStateCache.registerShader DxvkStateCache.registerShaderOver
  simp only [(shaderKey_eq_false_iff _ _).2 hk, Bool.false_eq_true, if_false]
  rw [registerShader_fold, (insertShader_other c _ sh).2.2.2.1]

theorem registerShader_null (c : DxvkStateCache) (sh : DxvkShader)
    (hk : sh.getShaderKey = g_nullShaderKey) : c.registerShader sh = c := by
  unfold DxvkStateCache.registerShader DxvkStateCache.registerShaderOver
  simp [(shaderKey_eq_iff _ _).2 hk]

theorem getShaderByKey_true (c : DxvkStateCache)
    (hm : ∀ p ∈ c.m_shaderMap, p.2.getShaderKey = p.1) (key : DxvkShaderKey)
    (r : Option DxvkShader) (h : c.getShaderByKey key none = (true, r)) :
    slotHolds c.m_shaderMap key r := by
  unfold DxvkStateCache.getShaderByKey at h
  by_cases hk : key = g_nullShaderKey
  · rw [(shaderKey_eq_iff _ _).2 hk] at h
    simp only [if_true, Prod.mk.injEq, true_and] at h
    exact Or.inl ⟨hk, h.symm⟩
  · rw [(shaderKey_eq_false_iff _ _).2 hk] at h
    simp only [Bool.false_eq_true, if_false] at h
    cases hf : c.findShader key with
    | none => simp [hf] at h
    | some p =>
      simp only [hf, Prod.mk.injEq, true_and] at h
      have hf' : List.find? (fun q => q.1.eq key) c.m_shaderMap = some p := hf
      have h1 : p.1.eq key = true :=
        @List.find?_some _ (fun q : DxvkShaderKey × DxvkShader => q.1.eq key) p _ hf'
      have hp : p.1 = key := (shaderKey_eq_iff _ _).1 h1
      have hmem : p ∈ c.m_shaderMap := List.mem_of_find?_eq_some hf'
      refine Or.inr ⟨hk, p.2, h.symm, ?_, ?_⟩
      · rw [← hp]; exact hmem
      · rw [hm p hmem, hp]

theorem getShaderByKey_fst (c : DxvkStateCache) (key : DxvkShaderKey) :
    (c.getShaderByKey key none).1
      = (key.eq g_nullShaderKey || (c.findShader key).isSome) := by
  unfold DxvkStateCache.getShaderByKey
  cases hk : key.eq g_nullShaderKey
  · cases hf : c.findShader key <;> simp
  · simp

theorem resolveItem_isSome (c : DxvkStateCache) (k : DxvkStateCacheKey) :
    (c.resolveItem k).isSome
      = k.slots.all (fun s => s.eq g_nullShaderKey || (c.findShader s).isSome) := by
  simp only [DxvkStateCacheKey.slots, List.all_cons, List.all_nil, Bool.and_true,
    ← getShaderByKey_fst]
  unfold DxvkStateCache.resolveItem
  dsimp only
  cases h1 : (c.getShaderByKey k.vs none).1
  · simp
  cases h2 : (c.getShaderByKey k.tcs none).1
  · simp
  cases h3 : (c.getShaderByKey k.tes none).1
  · simp
  cases h4 : (c.getShaderByKey k.gs none).1
  · simp
  cases h5 : (c.getShaderByKey k.fs none).1
  · simp
  cases h6 : (c.getShaderByKey k.cs none).1
  · simp
  simp

theorem resolveItem_some (c : DxvkStateCache)
    (hm : ∀ p ∈ c.m_shaderMap, p.2.getShaderKey = p.1) (k : DxvkStateCacheKey)
    (item : WorkerItem) (h : c.resolveItem k = some item) :
    slotHolds c.m_shaderMap k.vs item.vs ∧ slotHolds c.m_shaderMap k.tcs item.tcs
      ∧ slotHolds c.m_shaderMap k.tes item.tes ∧ slotHolds c.m_shaderMap k.gs item.gs
      ∧ slotHolds c.m_shaderMap k.fs item.fs ∧ slotHolds c.m_shaderMap k.cs item.cs := by
  unfold DxvkStateCache.resolveItem at h
  dsimp only at h
  rcases h1 : c.getShaderByKey k.vs none with ⟨b1, v1⟩
  rw [h1] at h
  cases b1
  · simp at h
  rcases h2 : c.getShaderByKey k.tcs none with ⟨b2, v2⟩
  rw [h2] at h
  cases b2
  · simp at h
  rcases h3 : c.getShaderByKey k.tes none with ⟨b3, v3⟩
  rw [h3] at h
  cases b3
  · simp at h
  rcases h4 : c.getShaderByKey k.gs none with ⟨b4, v4⟩
  rw [h4] at h
  cases b4
  · simp at h
  rcases h5 : c.getShaderByKey k.fs none with ⟨b5, v5⟩
  rw [h5] at h
  cases b5
  · simp at h
  rcases h6 : c.getShaderByKey k.cs none with ⟨b6, v6⟩
  rw [h6] at h
  cases b6
  · simp at h
  simp only [Bool.not_true, Bool.false_eq_true, if_false, Option.some.injEq] at h
  subst h
  exact ⟨getShaderByKey_true c hm _ _ h1, getShaderByKey_true c hm _ _ h2,
    getShaderByKey_true c hm _ _ h3, getShaderByKey_true c hm _ _ h4,
    getShaderByKey_true c hm _ _ h5, getShaderByKey_true c hm _ _ h6⟩

theorem slotHolds_key (m : List (DxvkShaderKey × DxvkShader)) (key : DxvkShaderKey)
    (r : Option DxvkShader) (h : slotHolds m key r) : getShaderKey r = key := by
  rcases h with ⟨hk, rfl⟩ | ⟨_, s, rfl, _, hs⟩
  · exact hk.symm
  · exact hs

theorem resolveItem_key (c : DxvkStateCache)
    (hm : ∀ p ∈ c.m_shaderMap, p.2.getShaderKey = p.1) (k : DxvkStateCacheKey)
    (item : WorkerItem) (h : c.resolveItem k = some item) : item.key = k := by
  obtain ⟨h1, h2, h3, h4, h5, h6⟩ := resolveItem_some c hm k item h
  cases k
  simp only [WorkerItem.key, DxvkStateCacheKey.mk.injEq]
  exact ⟨slotHolds_key _ _ _ h1, slotHolds_key _ _ _ h2, slotHolds_key _ _ _ h3,
    slotHolds_key _ _ _ h4, slotHolds_key _ _ _ h5, slotHolds_key _ _ _ h6⟩

theorem countP_key_filterMap (c : DxvkStateCache)
    (hm : ∀ p ∈ c.m_shaderMap, p.2.getShaderKey = p.1) (K : DxvkStateCacheKey)
    (l : List (DxvkShaderKey × DxvkStateCacheKey)) :
    (l.filterMap (fun p => c.resolveItem p.2)).countP (fun item => decide (item.key = K))
      = if (c.resolveItem K).isSome then l.countP (fun p => decide (p.2 = K)) else 0 := by
  induction l with
  | nil => simp
  | cons p ps ih =>
    by_cases hp : p.2 = K
    · cases hr : c.resolveItem K with
      | none =>
        rw [hr] at ih
        simp only [Option.isSome_none, Bool.false_eq_true, if_false] at ih ⊢
        rw [List.filterMap_cons, hp, hr]
        exact ih
      | some item =>
        rw [hr] at ih
        simp only [Option.isSome_some, if_true] at ih ⊢
        rw [List.filterMap_cons, hp, hr]
        have hk := resolveItem_key c hm K item hr
        simp only
        rw [List.countP_cons_of_pos _ _ (by simpa using hk),
          List.countP_cons_of_pos _ _ (by simpa using hp), ih]
    · have hcount : (p :: ps).countP (fun p => decide (p.2 = K))
          = ps.countP (fun p => decide (p.2 = K)) :=
        List.countP_cons_of_neg _ _ (by simpa using hp)
      rw [hcount, ← ih, List.filterMap_cons]
      cases hr : c.resolveItem p.2 with
      | none => rfl
      | some item =>
        have hk := resolveItem_key c hm p.2 item hr
        simp only
        exact List.countP_cons_of_neg _ _ (by simpa [hk] using hp)

theorem countP_slotPairs (s : DxvkShaderKey) (hs : s ≠ g_nullShaderKey)
    (k K : DxvkStateCacheKey) (l : List DxvkShaderKey) :
    (l.flatMap (fun t => if !t.eq g_nullShaderKey then [(t, k)] else [])).countP
        (fun p => p.1.eq s && decide (p.2 = K))
      = if k = K then l.count s else 0 := by
  induction l with
  | nil => simp
  | cons t ts ih =>
    rw [List.flatMap_cons, List.countP_append, ih]
    by_cases ht : t = s
    · subst ht
      have : t.eq g_nullShaderKey = false := (shaderKey_eq_false_iff _ _).2 hs
      by_cases hk : k = K
      · subst hk
        simp [hs, DxvkShaderKey.eq]
        omega
      · simp [this, hk]
    · by_cases hn : t.eq g_nullShaderKey = true
      · by_cases hk : k = K
        · simp [hn, hk, List.count_cons_of_ne (Ne.symm ht)]
        · simp [hn, hk]
      · have hn' : t.eq g_nullShaderKey = false := by simpa using hn
        by_cases hk : k = K
        · simp [hn', hk, List.count_cons_of_ne (Ne.symm ht), DxvkShaderKey.eq, ht]
        · simp [hn', hk]

theorem countP_pipelineRange (c : DxvkStateCache) (hidx : c.Indexed) (s : DxvkShaderKey)
    (hs : s ≠ g_nullShaderKey) (K : DxvkStateCacheKey) :
    (c.pipelineRange s).countP (fun p => decide (p.2 = K))
      = c.m_entries.countP (fun e => decide (e.shaders = K)) * K.slots.count s := by
  unfold DxvkStateCache.pipelineRange
  rw [List.countP_filter, hidx.2.1]
  have hswap : (fun p : DxvkShaderKey × DxvkStateCacheKey => decide (p.2 = K) && p.1.eq s)
      = (fun p => p.1.eq s && decide (p.2 = K)) := by
    funext p; exact Bool.and_comm _ _
  rw [hswap]
  generalize c.m_entries = es
  induction es with
  | nil => simp
  | cons e es ih =>
    rw [List.flatMap_cons, List.countP_append, ih]
    unfold pipelinePairs
    rw [countP_slotPairs s hs]
    by_cases hk : e.shaders = K
    · rw [List.countP_cons_of_pos _ _ (by simpa using hk)]
      simp only [hk, if_true]
      rw [Nat.add_mul, Nat.one_mul, Nat.add_comm]
    · rw [List.countP_cons_of_neg _ _ (by simpa using hk)]
      simp [hk]

theorem indexed_insertShader (c : DxvkStateCache) (sh : DxvkShader) (hidx : c.Indexed) :
    (c.insertShader sh.getShaderKey sh).Indexed := by
  obtain ⟨h1, h2, h3⟩ := hidx
  obtain ⟨e1, e2, e3, _, _⟩ := insertShader_other c sh.getShaderKey sh
  refine ⟨by rw [e1, e2]; exact h1, by rw [e1, e3]; exact h2, ?_⟩
  rw [insertShader_shaderMap]
  split
  · exact h3
  · intro p hp
    rcases List.mem_append.1 hp with hp | hp
    · exact h3 p hp
    · rw [List.mem_singleton.1 hp]

theorem indexed_workerQueue (c : DxvkStateCache) (q : List WorkerItem) (hidx : c.Indexed) :
    DxvkStateCache.Indexed { c with m_workerQueue := q } := hidx

theorem indexed_writerQueue (c : DxvkStateCache) (q : List DxvkStateCacheEntry)
    (hidx : c.Indexed) : DxvkStateCache.Indexed { c with m_writerQueue := q } := hidx

theorem indexed_registerShader (c : DxvkStateCache) (sh : DxvkShader) (hidx : c.Indexed) :
    (c.registerShader sh).Indexed := by
  by_cases hk : sh.getShaderKey = g_nullShaderKey
  · rw [registerShader_null c sh hk]; exact hidx
  · rw [registerShader_eq c sh hk]
    exact indexed_workerQueue _ _ (indexed_insertShader c sh hidx)

theorem registerShader_entries (c : DxvkStateCache) (sh : DxvkShader) :
    (c.registerShader sh).m_entries = c.m_entries
      ∧ (c.registerShader sh).m_entryMap = c.m_entryMap := by
  by_cases hk : sh.getShaderKey = g_nullShaderKey
  · rw [registerShader_null c sh hk]; exact ⟨rfl, rfl⟩
  · rw [registerShader_eq c sh hk]
    exact ⟨(insertShader_other c _ sh).1, (insertShader_other c _ sh).2.1⟩

theorem findShader_registerShader (c : DxvkStateCache) (sh : DxvkShader)
    (hk : sh.getShaderKey ≠ g_nullShaderKey) (k' : DxvkShaderKey) :
    ((c.registerShader sh).findShader k').isSome
      = ((c.findShader k').isSome || decide (sh.getShaderKey = k')) := by
  rw [registerShader_eq c sh hk, ← findShader_insertShader]
  rfl

theorem registerAll_cons (c : DxvkStateCache) (sh : DxvkShader) (l : List DxvkShader) :
    c.registerAll (sh :: l) = (c.registerShader sh).registerAll l := rfl

theorem registerAll_append (c : DxvkStateCache) (l l' : List DxvkShader) :
    c.registerAll (l ++ l') = (c.registerAll l).registerAll l' := by
  simp [DxvkStateCache.registerAll, List.foldl_append]

theorem indexed_registerAll (l : List DxvkShader) :
    ∀ c : DxvkStateCache, c.Indexed → (c.registerAll l).Indexed := by
  induction l with
  | nil => intro c h; exact h
  | cons sh l ih =>
    intro c h
    rw [registerAll_cons]
    exact ih _ (indexed_registerShader c sh h)

theorem registerAll_entries (l : List DxvkShader) :
    ∀ c : DxvkStateCache, (c.registerAll l).m_entries = c.m_entries := by
  induction l with
  | nil => intro c; rfl
  | cons sh l ih =>
    intro c
    rw [registerAll_cons, ih, (registerShader_entries c sh).1]

theorem findShader_registerAll (l : List DxvkShader)
    (hl : ∀ sh ∈ l, sh.getShaderKey ≠ g_nullShaderKey) (k' : DxvkShaderKey) :
    ∀ c : DxvkStateCache,
      ((c.registerAll l).findShader k').isSome
        = ((c.findShader k').isSome || decide (k' ∈ l.map DxvkShader.getShaderKey)) := by
  induction l with
  | nil => intro c; simp [DxvkStateCache.registerAll]
  | cons sh l ih =>
    intro c
    rw [registerAll_cons, ih (fun x hx => hl x (List.mem_cons_of_mem _ hx)),
      findShader_registerShader c sh (hl sh (List.mem_cons_self _ _))]
    by_cases h1 : sh.getShaderKey = k'
    · simp [h1]
    · simp [h1, Ne.symm h1]

theorem registerShader_new_items (c : DxvkStateCache) (hidx : c.Indexed) (sh : DxvkShader)
    (hk : sh.getShaderKey ≠ g_nullShaderKey) (K : DxvkStateCacheKey) :
    (c.registerShader sh).m_workerQueue = c.m_workerQueue ++
        ((c.insertShader sh.getShaderKey sh).pipelineRange sh.getShaderKey).filterMap
          (fun p => (c.insertShader sh.getShaderKey sh).resolveItem p.2)
    ∧ (((c.insertShader sh.getShaderKey sh).pipelineRange sh.getShaderKey).filterMap
          (fun p => (c.insertShader sh.getShaderKey sh).resolveItem p.2)).countP
        (fun item => decide (item.key = K))
      = if K.slots.all (fun s => s.eq g_nullShaderKey
            || ((c.findShader s).isSome || decide (sh.getShaderKey = s)))
        then c.m_entries.countP (fun e => decide (e.shaders = K))
          * K.slots.count sh.getShaderKey
        else 0 := by
  have hidx1 := indexed_insertShader c sh hidx
  refine ⟨by rw [registerShader_eq c sh hk], ?_⟩
  rw [countP_key_filterMap _ hidx1.2.2, resolveItem_isSome,
    countP_pipelineRange _ hidx1 _ hk, (insertShader_other c _ sh).1]
  simp only [findShader_insertShader]

/-- C4: let the entry store of a consistent cache state (every state the cache
reaches is one) record exactly one entry for a combination `K` whose six stage
keys are non-null and pairwise distinct, none of them registered, and let
`order` be any arrangement of six shaders that carry these six keys. Then for
each of the six `registerShader` calls made in that order, the call appends
work items to the worker queue, of which none has key `K` for the first five
calls (`n < 5`) and exactly one has key `K` for the sixth (`n = 5`). -/
theorem C4_resolution_order (c : DxvkStateCache) (hidx : c.Indexed)
    (K : DxvkStateCacheKey)
    (hone : c.m_entries.countP (fun e => decide (e.shaders = K)) = 1)
    (hnull : g_nullShaderKey ∉ K.slots) (hdist : K.slots.Nodup)
    (hunreg : ∀ s ∈ K.slots, c.findShader s = none)
    (shaders order : List DxvkShader)
    (hkeys : shaders.map DxvkShader.getShaderKey = K.slots)
    (hperm : order.Perm shaders) (n : Nat) (hn : n < 6) :
    ∃ new : List WorkerItem,
      (c.registerAll (order.take (n + 1))).m_workerQueue
          = (c.registerAll (order.take n)).m_workerQueue ++ new
        ∧ new.countP (fun item => decide (item.key = K)) = if n = 5 then 1 else 0 := by
  have hkperm : (order.map DxvkShader.getShaderKey).Perm K.slots := by
    rw [← hkeys]; exact hperm.map _
  have hlen : order.length = 6 := by
    have := hkperm.length_eq
    simpa [DxvkStateCacheKey.slots] using this
  have hnn : ∀ sh ∈ order, sh.getShaderKey ≠ g_nullShaderKey := by
    intro sh hsh hcontra
    apply hnull
    rw [← hcontra]
    exact hkperm.mem_iff.1 (List.mem_map_of_mem _ hsh)
  have hlt : n < order.length := by omega
  have htake : order.take (n + 1) = order.take n ++ [order[n]] := by
    rw [List.take_succ, List.getElem?_eq_getElem hlt]; rfl
  have hmem : order[n] ∈ order := List.getElem_mem hlt
  have hkn := hnn _ hmem
  have hidxn := indexed_registerAll (order.take n) c hidx
  obtain ⟨hq, hcount⟩ := registerShader_new_items (c.registerAll (order.take n)) hidxn
    order[n] hkn K
  have hstep : c.registerAll (order.take (n + 1))
      = (c.registerAll (order.take n)).registerShader order[n] := by
    rw [htake, registerAll_append]; rfl
  rw [hstep]
  refine ⟨_, hq, ?_⟩
  · rw [hcount, registerAll_entries, hone]
    have hin : order[n].getShaderKey ∈ K.slots :=
      hkperm.mem_iff.1 (List.mem_map_of_mem _ hmem)
    rw [List.count_eq_one_of_mem hdist hin]
    have hreg : ∀ s, ((c.registerAll (order.take n)).findShader s).isSome
        = ((c.findShader s).isSome
            || decide (s ∈ (order.take n).map DxvkShader.getShaderKey)) :=
      fun s => findShader_registerAll (order.take n)
        (fun sh hsh => hnn sh (List.mem_of_mem_take hsh)) s c
    by_cases h5 : n = 5
    · subst h5
      simp only [if_true, Nat.mul_one]
      rw [if_pos]
      rw [List.all_eq_true]
      intro s hs
      have hs' : s ∈ order.map DxvkShader.getShaderKey := hkperm.mem_iff.2 hs
      have h6 : order.take 6 = order := List.take_of_length_le (by omega)
      rw [← h6, htake, List.map_append, List.mem_append] at hs'
      rw [hreg s]
      simp only [Bool.or_eq_true, decide_eq_true_eq]
      rcases hs' with h | h
      · exact Or.inr (Or.inl (Or.inr h))
      · have h' : s = order[5].getShaderKey := by simpa using h
        exact Or.inr (Or.inr h'.symm)
    · simp only [h5, if_false]
      rw [if_neg]
      intro hall
      rw [List.all_eq_true] at hall
      have hsub : K.slots ⊆ (order.take (n + 1)).map DxvkShader.getShaderKey := by
        intro s hs
        have h := hall s hs
        rw [hreg s, hunreg s hs] at h
        have hsn : s ≠ g_nullShaderKey := fun hc => hnull (hc ▸ hs)
        rw [htake, List.map_append, List.mem_append]
        simp only [(shaderKey_eq_false_iff _ _).2 hsn, Option.isSome_none, Bool.false_or,
          Bool.or_eq_true, decide_eq_true_eq] at h
        rcases h with h | h
        · exact Or.inl h
        · exact Or.inr (by simp [h])
      have hle := (List.subperm_of_subset hdist hsub).length_le
      have h6 : K.slots.length = 6 := rfl
      rw [h6, List.length_map, List.length_take] at hle
      omega

/-- Witness of C4: the sixth call of an order that starts with the geometry
stage, on the cache that holds one entry for `sampleKey6`. -/
theorem C4_resolution_order_witness :
    ((DxvkStateCache.indexEntry {} sampleEntry6).Indexed
      ∧ (DxvkStateCache.indexEntry {} sampleEntry6).m_entries.countP
          (fun e => decide (e.shaders = sampleKey6)) = 1
      ∧ g_nullShaderKey ∉ sampleKey6.slots ∧ sampleKey6.slots.Nodup
      ∧ (∀ s ∈ sampleKey6.slots,
          (DxvkStateCache.indexEntry {} sampleEntry6).findShader s = none)
      ∧ sampleShaders6.map DxvkShader.getShaderKey = sampleKey6.slots
      ∧ sampleOrder6.Perm sampleShaders6 ∧ 5 < 6)
    ∧ ∃ new : List WorkerItem,
        ((DxvkStateCache.indexEntry {} sampleEntry6).registerAll
            (sampleOrder6.take 6)).m_workerQueue
          = ((DxvkStateCache.indexEntry {} sampleEntry6).registerAll
              (sampleOrder6.take 5)).m_workerQueue ++ new
        ∧ new.countP (fun item => decide (item.key = sampleKey6)) = 1 :=
  ⟨⟨indexed_indexEntry _ _ indexed_empty, by decide, by decide, by decide, by decide,
    by decide, by decide, by decide⟩,
   C4_resolution_order (DxvkStateCache.indexEntry {} sampleEntry6)
     (indexed_indexEntry _ _ indexed_empty) sampleKey6 (by decide) (by decide) (by decide)
     (by decide) sampleShaders6 sampleOrder6 (by decide) (by decide) 5 (by decide)⟩

theorem readCacheLoop_indexAll (E : Externals) :
    ∀ (fuel : Nat) (s : IStream) (c : DxvkStateCache) (n : Nat),
      ∃ es, (readCacheLoop E fuel s c n).1 = c.indexAll es := by
  intro fuel
  induction fuel with
  | zero => intro s c n; exact ⟨[], rfl⟩
  | succ f ih =>
    intro s c n
    unfold readCacheLoop
    split
    · split
      · rename_i entry s' _
        obtain ⟨es, hes⟩ := ih s' (c.indexEntry entry) n
        exact ⟨entry :: es, by rw [hes]; rfl⟩
      · split
        · exact ih _ _ _
        · exact ih _ _ _
    · exact ⟨[], rfl⟩

theorem readCacheFile_indexAll (E : Externals) (c : DxvkStateCache)
    (file : Option (List Byte)) :
    ∃ es, (DxvkStateCache.readCacheFile E c file).cache = c.indexAll es := by
  cases file with
  | none => exact ⟨[], rfl⟩
  | some bytes =>
    unfold DxvkStateCache.readCacheFile
    rcases hr : readCacheHeader E { data := bytes, good := true } with ⟨b, s⟩
    cases b with
    | false => simp only [hr]; exact ⟨[], rfl⟩
    | true => simp only [hr]; exact readCacheLoop_indexAll E _ _ _ _

theorem writeAllEntries_snd (E : Externals) (es : List DxvkStateCacheEntry) :
    ∀ stream : List Byte, (writeAllEntries E es stream).2 = es.map E.written := by
  induction es with
  | nil => intro stream; rfl
  | cons e es ih =>
    intro stream
    simp only [writeAllEntries, List.map_cons, ih]
    rfl

theorem entryPairs_written (E : Externals) (es : List DxvkStateCacheEntry) :
    ∀ n : Nat, entryPairs n (es.map E.written) = entryPairs n es := by
  induction es with
  | nil => intro n; rfl
  | cons e es ih =>
    intro n
    simp only [List.map_cons, entryPairs, ih]
    rfl

theorem indexed_written (E : Externals) (c : DxvkStateCache) (hidx : c.Indexed) :
    DxvkStateCache.Indexed { c with m_entries := c.m_entries.map E.written } := by
  obtain ⟨h1, h2, h3⟩ := hidx
  refine ⟨?_, ?_, h3⟩
  · show c.m_entryMap = entryPairs 0 (c.m_entries.map E.written)
    rw [entryPairs_written, h1]
  · show c.m_pipelineMap = (c.m_entries.map E.written).flatMap
      (fun e => pipelinePairs e.shaders)
    rw [h2, List.flatMap_map]
    rfl

theorem reachable_indexed (E : Externals) (c : DxvkStateCache) (h : Reachable E c) :
    c.Indexed := by
  induction h with
  | construct file canWrite =>
    obtain ⟨es, hes⟩ := readCacheFile_indexAll E {} file
    have hr : (DxvkStateCache.readCacheFile E {} file).cache.Indexed := by
      rw [hes]; exact indexed_indexAll es _ indexed_empty
    unfold DxvkStateCache.openCache
    dsimp only
    split
    · exact hr
    · split
      · rw [writeAllEntries_snd]
        exact indexed_written E _ hr
      · exact hr
  | registerShader c sh _ ih => exact indexed_registerShader c sh ih
  | addGraphicsPipeline c shaders state format _ ih =>
    unfold DxvkStateCache.addGraphicsPipeline
    split
    · exact ih
    · split
      · exact ih
      · exact indexed_writerQueue _ _ ih
  | addComputePipeline c shaders state _ ih =>
    unfold DxvkStateCache.addComputePipeline
    split
    · exact ih
    · split
      · exact ih
      · exact indexed_writerQueue _ _ ih
  | workerPop c _ ih => exact indexed_workerQueue _ _ ih
  | writerPop c _ ih => exact indexed_writerQueue _ _ ih

theorem resolveItem_congr (c c' : DxvkStateCache) (h : c.m_shaderMap = c'.m_shaderMap)
    (k : DxvkStateCacheKey) : c.resolveItem k = c'.resolveItem k := by
  simp only [DxvkStateCache.resolveItem, DxvkStateCache.getShaderByKey,
    DxvkStateCache.findShader, h]

theorem pipelineMap_recorded (c : DxvkStateCache) (hidx : c.Indexed)
    (p : DxvkShaderKey × DxvkStateCacheKey) (hp : p ∈ c.m_pipelineMap) :
    ∃ e ∈ c.m_entries, e.shaders = p.2 := by
  rw [hidx.2.1, List.mem_flatMap] at hp
  obtain ⟨e, he, hpe⟩ := hp
  refine ⟨e, he, ?_⟩
  unfold pipelinePairs at hpe
  rw [List.mem_flatMap] at hpe
  obtain ⟨s, _, hs⟩ := hpe
  split at hs
  · rw [List.mem_singleton.1 hs]
  · cases hs

theorem registerShader_shaderMap (c : DxvkStateCache) (sh : DxvkShader)
    (hk : sh.getShaderKey ≠ g_nullShaderKey) :
    (c.registerShader sh).m_shaderMap
      = (c.insertShader sh.getShaderKey sh).m_shaderMap := by
  rw [registerShader_eq c sh hk]

/-- C8: in every reachable state, the work items that a `registerShader` call
appends to the worker queue are the items resolved, against the registry as the
call leaves it, for a list of combinations recorded in the entry store; and an
item resolved for a combination `K` holds in each slot whose stage key is not
null a shader of the registry filed under that key and carrying that key, holds
no shader in each slot whose stage key is null, and has `K` as the key that
`compilePipelines` recomputes from it. -/
theorem C8_no_missing_stage (E : Externals) (c : DxvkStateCache)
    (hr : Reachable E c) (sh : DxvkShader) :
    ∃ Ks : List DxvkStateCacheKey,
      (∀ K ∈ Ks, ∃ e ∈ c.m_entries, e.shaders = K)
      ∧ (c.registerShader sh).m_workerQueue
          = c.m_workerQueue ++ Ks.filterMap (fun K => (c.registerShader sh).resolveItem K)
      ∧ ∀ (K : DxvkStateCacheKey) (item : WorkerItem),
          (c.registerShader sh).resolveItem K = some item →
            (slotHolds (c.registerShader sh).m_shaderMap K.vs item.vs
              ∧ slotHolds (c.registerShader sh).m_shaderMap K.tcs item.tcs
              ∧ slotHolds (c.registerShader sh).m_shaderMap K.tes item.tes
              ∧ slotHolds (c.registerShader sh).m_shaderMap K.gs item.gs
              ∧ slotHolds (c.registerShader sh).m_shaderMap K.fs item.fs
              ∧ slotHolds (c.registerShader sh).m_shaderMap K.cs item.cs)
            ∧ item.key = K := by
  have hidx := reachable_indexed E c hr
  have hidx' := indexed_registerShader c sh hidx
  have hlast : ∀ (K : DxvkStateCacheKey) (item : WorkerItem),
      (c.registerShader sh).resolveItem K = some item →
        (slotHolds (c.registerShader sh).m_shaderMap K.vs item.vs
          ∧ slotHolds (c.registerShader sh).m_shaderMap K.tcs item.tcs
          ∧ slotHolds (c.registerShader sh).m_shaderMap K.tes item.tes
          ∧ slotHolds (c.registerShader sh).m_shaderMap K.gs item.gs
          ∧ slotHolds (c.registerShader sh).m_shaderMap K.fs item.fs
          ∧ slotHolds (c.registerShader sh).m_shaderMap K.cs item.cs)
        ∧ item.key = K :=
    fun K item h => ⟨resolveItem_some _ hidx'.2.2 K item h,
      resolveItem_key _ hidx'.2.2 K item h⟩
  by_cases hk : sh.getShaderKey = g_nullShaderKey
  · refine ⟨[], ?_, ?_, hlast⟩
    · intro K hK; cases hK
    · rw [registerShader_null c sh hk]; simp
  · refine ⟨((c.insertShader sh.getShaderKey sh).pipelineRange sh.getShaderKey).map
      Prod.snd, ?_, ?_, hlast⟩
    · intro K hK
      obtain ⟨p, hp, rfl⟩ := List.mem_map.1 hK
      have hp' : p ∈ c.m_pipelineMap := by
        have := (List.mem_filter.1 hp).1
        rwa [(insertShader_other c _ sh).2.2.1] at this
      exact pipelineMap_recorded c hidx p hp'
    · rw [List.filterMap_map]
      have hcongr : (fun K => (c.registerShader sh).resolveItem K)
          = fun K => (c.insertShader sh.getShaderKey sh).resolveItem K :=
        funext (resolveItem_congr _ _ (registerShader_shaderMap c sh hk))
      rw [hcongr]
      exact (registerShader_new_items c hidx sh hk {}).1

/-- Witness of C8: the cache loaded from a file of two records, and the
registration of the fragment shader of their combination. -/
theorem C8_no_missing_stage_witness :
    Reachable sampleExternals
        (DxvkStateCache.openCache sampleExternals
          (some (sampleExternals.fileOf sampleBlocks)) true).cache
    ∧ ∃ Ks : List DxvkStateCacheKey,
        (∀ K ∈ Ks, ∃ e ∈ (DxvkStateCache.openCache sampleExternals
            (some (sampleExternals.fileOf sampleBlocks)) true).cache.m_entries,
            e.shaders = K)
        ∧ ((DxvkStateCache.openCache sampleExternals
              (some (sampleExternals.fileOf sampleBlocks)) true).cache.registerShader
              (sampleShader 2)).m_workerQueue
            = (DxvkStateCache.openCache sampleExternals
                (some (sampleExternals.fileOf sampleBlocks)) true).cache.m_workerQueue
              ++ Ks.filterMap (fun K =>
                ((DxvkStateCache.openCache sampleExternals
                  (some (sampleExternals.fileOf sampleBlocks)) true).cache.registerShader
                  (sampleShader 2)).resolveItem K) :=
  ⟨Reachable.construct _ _,
   (C8_no_missing_stage sampleExternals _ (Reachable.construct _ _) (sampleShader 2)).imp
     (fun _ h => ⟨h.1, h.2.1⟩)⟩

theorem entryRange_lookup (K : DxvkStateCacheKey) (es : List DxvkStateCacheEntry) :
    ∀ (pre : List DxvkStateCacheEntry) (n : Nat), pre.length = n →
      ((entryPairs n es).filter (fun p => p.1.eq K)).map (fun p => (pre ++ es)[p.2]?)
        = (es.filter (fun e => decide (e.shaders = K))).map some := by
  induction es with
  | nil => intro pre n _; rfl
  | cons x xs ih =>
    intro pre n hn
    have hrest := ih (pre ++ [x]) (n + 1) (by simp [hn])
    rw [List.append_assoc, List.singleton_append] at hrest
    have hhead : (pre ++ x :: xs)[n]? = some x := by
      rw [← hn, List.getElem?_append_right (Nat.le_refl _)]
      simp
    by_cases hx : x.shaders = K
    · have h1 : x.shaders.eq K = true := (cacheKey_eq_iff _ _).2 hx
      have h2 : decide (x.shaders = K) = true := decide_eq_true hx
      rw [entryPairs, List.filter_cons, if_pos h1, List.map_cons, hrest, List.filter_cons,
        if_pos h2, List.map_cons]
      exact congrArg (· :: _) hhead
    · have h1 : x.shaders.eq K = false := by
        cases h : x.shaders.eq K with
        | false => rfl
        | true => exact absurd ((cacheKey_eq_iff _ _).1 h) hx
      simp only [entryPairs, List.filter_cons, h1, Bool.false_eq_true, if_false, hrest, hx,
        decide_False]

theorem entryPairs_snd (es : List DxvkStateCacheEntry) :
    ∀ n : Nat, (entryPairs n es).map Prod.snd = List.range' n es.length := by
  induction es with
  | nil => intro n; rfl
  | cons x xs ih =>
    intro n
    simp only [entryPairs, List.map_cons, ih, List.length_cons, List.range'_succ]

theorem entryRange_entries (c : DxvkStateCache) (hidx : c.Indexed) (K : DxvkStateCacheKey) :
    (c.entryRange K).map (fun p => c.m_entries[p.2]?)
        = (c.m_entries.filter (fun e => decide (e.shaders = K))).map some
      ∧ ((c.entryRange K).map Prod.snd).Nodup
      ∧ ∀ p ∈ c.entryRange K, p.1 = K := by
  refine ⟨?_, ?_, ?_⟩
  · have h := entryRange_lookup K c.m_entries [] 0 rfl
    rw [List.nil_append] at h
    unfold DxvkStateCache.entryRange
    rw [hidx.1]
    exact h
  · unfold DxvkStateCache.entryRange
    have hsub : ((c.m_entryMap.filter (fun p => p.1.eq K)).map Prod.snd).Sublist
        (c.m_entryMap.map Prod.snd) := (List.filter_sublist _).map _
    refine List.Nodup.sublist hsub ?_
    rw [hidx.1, entryPairs_snd]
    exact List.nodup_range' _ _
  · intro p hp
    exact (cacheKey_eq_iff _ _).1 (List.mem_filter.1 hp).2

/-! ### Traversals of a range in an arbitrary order -/

theorem flatMap_lookup_over {β : Type} (c : DxvkStateCache)
    (f : DxvkStateCacheEntry → List β) (range : List (DxvkStateCacheKey × Nat)) :
    range.flatMap (fun e =>
        match c.m_entries[e.2]? with
        | some entry => f entry
        | none => [])
      = (range.filterMap (fun e => c.m_entries[e.2]?)).flatMap f := by
  induction range with
  | nil => rfl
  | cons p ps ih =>
    rw [List.flatMap_cons, ih, List.filterMap_cons]
    cases h : c.m_entries[p.2]? with
    | none => simp
    | some entry => simp

theorem entryRange_filterMap (c : DxvkStateCache) (hidx : c.Indexed)
    (K : DxvkStateCacheKey) :
    (c.entryRange K).filterMap (fun e => c.m_entries[e.2]?)
      = c.m_entries.filter (fun e => decide (e.shaders = K)) := by
  have h := (entryRange_entries c hidx K).1
  have h1 : (c.entryRange K).filterMap (fun e => c.m_entries[e.2]?)
      = ((c.entryRange K).map (fun p => c.m_entries[p.2]?)).filterMap id := by
    rw [List.filterMap_map]
    rfl
  rw [h1, h, List.filterMap_map]
  simp

theorem compilePipelinesOver_eq (c : DxvkStateCache) (hidx : c.Indexed) (item : WorkerItem)
    (range : List (DxvkStateCacheKey × Nat)) (hrange : range.Perm (c.entryRange item.key)) :
    (range.filterMap (fun e => c.m_entries[e.2]?)).Perm
        (c.m_entries.filter (fun e => decide (e.shaders = item.key)))
    ∧ c.compilePipelinesOver item range
      = if item.cs = none then
          PipeCall.createGraphicsPipeline item.vs item.tcs item.tes item.gs item.fs ::
            (range.filterMap (fun e => c.m_entries[e.2]?)).flatMap
              (fun entry => [PipeCall.getRenderPass entry.format,
                PipeCall.getGraphicsPipelineHandle entry.gpState entry.format])
        else
          PipeCall.createComputePipeline item.cs ::
            (range.filterMap (fun e => c.m_entries[e.2]?)).flatMap
              (fun entry => [PipeCall.getComputePipelineHandle entry.cpState]) := by
  refine ⟨?_, ?_⟩
  · rw [← entryRange_filterMap c hidx item.key]
    exact hrange.filterMap _
  · unfold DxvkStateCache.compilePipelinesOver
    split
    · exact congrArg (List.cons _) (flatMap_lookup_over c
        (fun entry => [PipeCall.getRenderPass entry.format,
          PipeCall.getGraphicsPipelineHandle entry.gpState entry.format]) range)
    · exact congrArg (List.cons _) (flatMap_lookup_over c
        (fun entry => [PipeCall.getComputePipelineHandle entry.cpState]) range)

theorem registerShaderOver_eq (c : DxvkStateCache) (sh : DxvkShader)
    (hk : sh.getShaderKey ≠ g_nullShaderKey)
    (range : List (DxvkShaderKey × DxvkStateCacheKey)) :
    c.registerShaderOver sh range
      = { c.insertShader sh.getShaderKey sh with
          m_workerQueue := c.m_workerQueue ++
            range.filterMap
              (fun p => (c.insertShader sh.getShaderKey sh).resolveItem p.2) } := by
  unfold DxvkStateCache.registerShaderOver
  simp only [(shaderKey_eq_false_iff _ _).2 hk, Bool.false_eq_true, if_false]
  rw [registerShader_fold, (insertShader_other c _ sh).2.2.2.1]

theorem registerShaderOver_other (c : DxvkStateCache) (sh : DxvkShader)
    (range : List (DxvkShaderKey × DxvkStateCacheKey)) :
    (c.registerShaderOver sh range).m_entries = c.m_entries
    ∧ (c.registerShaderOver sh range).m_entryMap = c.m_entryMap
    ∧ (c.registerShaderOver sh range).m_pipelineMap = c.m_pipelineMap
    ∧ (c.registerShaderOver sh range).m_writerQueue = c.m_writerQueue := by
  by_cases hk : sh.getShaderKey = g_nullShaderKey
  · have : c.registerShaderOver sh range = c := by
      unfold DxvkStateCache.registerShaderOver
      simp [(shaderKey_eq_iff _ _).2 hk]
    rw [this]
    exact ⟨rfl, rfl, rfl, rfl⟩
  · rw [registerShaderOver_eq c sh hk]
    obtain ⟨e1, e2, e3, _, e5⟩ := insertShader_other c sh.getShaderKey sh
    exact ⟨e1, e2, e3, e5⟩

theorem indexed_registerShaderOver (c : DxvkStateCache) (sh : DxvkShader)
    (range : List (DxvkShaderKey × DxvkStateCacheKey)) (hidx : c.Indexed) :
    (c.registerShaderOver sh range).Indexed := by
  by_cases hk : sh.getShaderKey = g_nullShaderKey
  · have : c.registerShaderOver sh range = c := by
      unfold DxvkStateCache.registerShaderOver
      simp [(shaderKey_eq_iff _ _).2 hk]
    rw [this]; exact hidx
  · rw [registerShaderOver_eq c sh hk]
    exact indexed_workerQueue _ _ (indexed_insertShader c sh hidx)

theorem registerShaderOver_new_items (c : DxvkStateCache) (hidx : c.Indexed) (sh : DxvkShader)
    (hk : sh.getShaderKey ≠ g_nullShaderKey) (K : DxvkStateCacheKey)
    (range : List (DxvkShaderKey × DxvkStateCacheKey))
    (hrange : range.Perm (c.pipelineRange sh.getShaderKey)) :
    (range.filterMap (fun p => (c.insertShader sh.getShaderKey sh).resolveItem p.2)).countP
        (fun item => decide (item.key = K))
      = if K.slots.all (fun s => s.eq g_nullShaderKey
            || ((c.findShader s).isSome || decide (sh.getShaderKey = s)))
        then c.m_entries.countP (fun e => decide (e.shaders = K))
          * K.slots.count sh.getShaderKey
        else 0 := by
  have hpr : (c.insertShader sh.getShaderKey sh).pipelineRange sh.getShaderKey
      = c.pipelineRange sh.getShaderKey := by
    unfold DxvkStateCache.pipelineRange
    rw [(insertShader_other c _ sh).2.2.1]
  rw [← (registerShader_new_items c hidx sh hk K).2, hpr]
  exact (hrange.filterMap _).countP_eq _


theorem perm_pair_cases {α : Type} (l : List α) (a b : α) (h : l.Perm [a, b]) :
    l = [a, b] ∨ l = [b, a] := by
  have hlen : l.length = 2 := by rw [h.length_eq]; rfl
  obtain ⟨x, y, rfl⟩ := List.length_eq_two.1 hlen
  have hx : x ∈ [a, b] := h.subset (List.mem_cons_self _ _)
  rw [List.mem_cons, List.mem_singleton] at hx
  rcases hx with rfl | rfl
  · have h' : [y].Perm [b] := (List.perm_cons x).1 h
    rw [List.perm_singleton] at h'
    left
    rw [List.singleton_inj.1 h']
  · have h' : [y].Perm [a] := (List.perm_cons x).1 (h.trans (List.Perm.swap _ _ _))
    rw [List.perm_singleton] at h'
    right
    rw [List.singleton_inj.1 h']

/-- C5 (as amended): let a consistent cache state (every state the cache reaches
is one) store exactly two entries `e1`, `e2` for the combination `K`, and let a
shader be registered whose key occupies a slot of `K` while every other
non-null stage of `K` is registered; let the loop of `registerShader` visit the
elements of its range in any order `prange`. Then both entries stay in the
store, filed in the combination index under two distinct positions;
`registerShader` appends work items of which twice as many have key `K` as `K`
has slots holding the shader's key (one per entry and slot, so at least two);
and `compilePipelines` on any work item with key `K`, visiting its range in any
order `erange`, creates one pipeline object and requests a pipeline handle
exactly once for each of the two entries, in one order or the other, with the
entry's graphics state and the render pass of its format when the item has no
compute shader and with its compute state otherwise. Each entry's handle is
therefore requested once per work item, at least twice in all. -/
theorem C5_many_to_one (c : DxvkStateCache) (hidx : c.Indexed) (K : DxvkStateCacheKey)
    (e1 e2 : DxvkStateCacheEntry)
    (htwo : c.m_entries.filter (fun e => decide (e.shaders = K)) = [e1, e2])
    (sh : DxvkShader) (hnn : sh.getShaderKey ≠ g_nullShaderKey)
    (hin : sh.getShaderKey ∈ K.slots)
    (hlast : ∀ s ∈ K.slots, s ≠ g_nullShaderKey → s ≠ sh.getShaderKey →
      (c.findShader s).isSome = true)
    (prange : List (DxvkShaderKey × DxvkStateCacheKey))
    (hprange : prange.Perm (c.pipelineRange sh.getShaderKey)) :
    ((c.registerShaderOver sh prange).m_entries.filter (fun e => decide (e.shaders = K))
        = [e1, e2]
      ∧ (((c.registerShaderOver sh prange).entryRange K).map
          (fun p => (p.1, (c.registerShaderOver sh prange).m_entries[p.2]?))).Perm
          [(K, some e1), (K, some e2)]
      ∧ (((c.registerShaderOver sh prange).entryRange K).map Prod.snd).Nodup)
    ∧ ∃ new : List WorkerItem,
        (c.registerShaderOver sh prange).m_workerQueue = c.m_workerQueue ++ new
        ∧ new.countP (fun item => decide (item.key = K))
            = 2 * K.slots.count sh.getShaderKey
        ∧ 2 ≤ new.countP (fun item => decide (item.key = K))
        ∧ ∀ item : WorkerItem, item.key = K →
            ∀ erange : List (DxvkStateCacheKey × Nat),
              erange.Perm ((c.registerShaderOver sh prange).entryRange K) →
              ∃ es : List DxvkStateCacheEntry, (es = [e1, e2] ∨ es = [e2, e1])
                ∧ (c.registerShaderOver sh prange).compilePipelinesOver item erange
                  = if item.cs = none then
                      PipeCall.createGraphicsPipeline item.vs item.tcs item.tes item.gs
                          item.fs ::
                        es.flatMap (fun entry => [PipeCall.getRenderPass entry.format,
                          PipeCall.getGraphicsPipelineHandle entry.gpState entry.format])
                    else
                      PipeCall.createComputePipeline item.cs ::
                        es.flatMap (fun entry =>
                          [PipeCall.getComputePipelineHandle entry.cpState]) := by
  have hidx' := indexed_registerShaderOver c sh prange hidx
  have hent : (c.registerShaderOver sh prange).m_entries = c.m_entries :=
    (registerShaderOver_other c sh prange).1
  obtain ⟨hmap, hnodup, hkey⟩ := entryRange_entries (c.registerShaderOver sh prange) hidx' K
  rw [hent] at hmap
  rw [htwo] at hmap
  refine ⟨⟨by rw [hent, htwo], ?_, hnodup⟩, ?_⟩
  · have hlen : ((c.registerShaderOver sh prange).entryRange K).length = 2 := by
      have := congrArg List.length hmap
      simpa using this
    obtain ⟨p, q, hpq⟩ := List.length_eq_two.1 hlen
    rw [hpq] at hmap hkey ⊢
    simp only [List.map_cons, List.map_nil, List.cons.injEq, and_true] at hmap
    have hp : p.1 = K := hkey p (by simp)
    have hq : q.1 = K := hkey q (by simp)
    simp only [List.map_cons, List.map_nil, hent, hmap.1, hmap.2, hp, hq]
    exact List.Perm.refl _
  · have hcount := registerShaderOver_new_items c hidx sh hnn K prange hprange
    have hcountP : c.m_entries.countP (fun e => decide (e.shaders = K)) = 2 := by
      rw [List.countP_eq_length_filter, htwo]; rfl
    have hall : K.slots.all (fun s => s.eq g_nullShaderKey
        || ((c.findShader s).isSome || decide (sh.getShaderKey = s))) = true := by
      rw [List.all_eq_true]
      intro s hs
      by_cases h0 : s = g_nullShaderKey
      · simp [(shaderKey_eq_iff _ _).2 h0]
      · by_cases h1 : s = sh.getShaderKey
        · simp [h1]
        · simp [hlast s hs h0 h1]
    rw [hall, if_pos rfl, hcountP] at hcount
    have hpos : 0 < K.slots.count sh.getShaderKey := List.count_pos_iff.2 hin
    refine ⟨_, by rw [registerShaderOver_eq c sh hnn prange], hcount,
      by rw [hcount]; omega, ?_⟩
    intro item hitem erange herange
    rw [← hitem] at herange
    obtain ⟨hperm, heq⟩ := compilePipelinesOver_eq _ hidx' item erange herange
    have hf : (c.registerShaderOver sh prange).m_entries.filter
        (fun e => decide (e.shaders = K)) = [e1, e2] := by rw [hent, htwo]
    rw [hitem, hf] at hperm
    exact ⟨_, perm_pair_cases _ _ _ hperm, heq⟩

/-- Witness of C5 (as amended): two entries for `sampleKey` that differ in
their graphics state; the fragment shader is registered, the vertex shader is
registered last. -/
theorem C5_many_to_one_witness :
    (((DxvkStateCache.indexAll {} [sampleEntry 3 4, sampleEntry 5 4]).registerShader
          (sampleShader 2)).Indexed
      ∧ ((DxvkStateCache.indexAll {} [sampleEntry 3 4, sampleEntry 5 4]).registerShader
            (sampleShader 2)).m_entries.filter (fun e => decide (e.shaders = sampleKey))
          = [sampleEntry 3 4, sampleEntry 5 4]
      ∧ (sampleShader 1).getShaderKey ≠ g_nullShaderKey
      ∧ (sampleShader 1).getShaderKey ∈ sampleKey.slots
      ∧ (∀ s ∈ sampleKey.slots, s ≠ g_nullShaderKey → s ≠ (sampleShader 1).getShaderKey →
          (((DxvkStateCache.indexAll {} [sampleEntry 3 4, sampleEntry 5 4]).registerShader
            (sampleShader 2)).findShader s).isSome = true)
      ∧ [((sampleShader 1).getShaderKey, sampleKey),
          ((sampleShader 1).getShaderKey, sampleKey)].Perm
          (((DxvkStateCache.indexAll {} [sampleEntry 3 4, sampleEntry 5 4]).registerShader
            (sampleShader 2)).pipelineRange (sampleShader 1).getShaderKey))
    ∧ ∃ new : List WorkerItem,
        (((DxvkStateCache.indexAll {} [sampleEntry 3 4, sampleEntry 5 4]).registerShader
            (sampleShader 2)).registerShaderOver (sampleShader 1)
            [((sampleShader 1).getShaderKey, sampleKey),
             ((sampleShader 1).getShaderKey, sampleKey)]).m_workerQueue
          = ((DxvkStateCache.indexAll {} [sampleEntry 3 4, sampleEntry 5 4]).registerShader
              (sampleShader 2)).m_workerQueue ++ new
        ∧ new.countP (fun item => decide (item.key = sampleKey))
            = 2 * sampleKey.slots.count (sampleShader 1).getShaderKey :=
  ⟨⟨indexed_registerShader _ _ (indexed_indexAll _ _ indexed_empty), by decide, by decide,
    by decide, by decide, by decide⟩,
   (C5_many_to_one
      ((DxvkStateCache.indexAll {} [sampleEntry 3 4, sampleEntry 5 4]).registerShader
        (sampleShader 2))
      (indexed_registerShader _ _ (indexed_indexAll _ _ indexed_empty)) sampleKey
      (sampleEntry 3 4) (sampleEntry 5 4) (by decide) (sampleShader 1) (by decide)
      (by decide) (by decide)
      [((sampleShader 1).getShaderKey, sampleKey), ((sampleShader 1).getShaderKey, sampleKey)]
      (by decide)).2.imp (fun _ h => ⟨h.1, h.2.1⟩)⟩

/-- C5 fails as stated: with two entries for one combination that differ in
their graphics state, registering the last shader of the combination enqueues
two work items, and when `compilePipelines` has processed both, the pipeline
handle of the first entry (and of the second) was requested twice. -/
theorem C5_counterexample :
    (sampleEntry 3 4).shaders = (sampleEntry 5 4).shaders
    ∧ (sampleEntry 3 4).gpState ≠ (sampleEntry 5 4).gpState
    ∧ ((DxvkStateCache.indexAll {} [sampleEntry 3 4, sampleEntry 5 4]).registerShader
          (sampleShader 2)).m_workerQueue = []
    ∧ (((DxvkStateCache.indexAll {} [sampleEntry 3 4, sampleEntry 5 4]).registerShader
          (sampleShader 2)).registerShader (sampleShader 1)).m_workerQueue.length = 2
    ∧ ((((DxvkStateCache.indexAll {} [sampleEntry 3 4, sampleEntry 5 4]).registerShader
          (sampleShader 2)).registerShader (sampleShader 1)).m_workerQueue.flatMap
        (((DxvkStateCache.indexAll {} [sampleEntry 3 4, sampleEntry 5 4]).registerShader
          (sampleShader 2)).registerShader (sampleShader 1)).compilePipelines).count
        (PipeCall.getGraphicsPipelineHandle (DxvkGraphicsPipelineStateInfo.mk 3)
          (DxvkRenderPassFormat.mk 4)) = 2
    ∧ ((((DxvkStateCache.indexAll {} [sampleEntry 3 4, sampleEntry 5 4]).registerShader
          (sampleShader 2)).registerShader (sampleShader 1)).m_workerQueue.flatMap
        (((DxvkStateCache.indexAll {} [sampleEntry 3 4, sampleEntry 5 4]).registerShader
          (sampleShader 2)).registerShader (sampleShader 1)).compilePipelines).count
        (PipeCall.getGraphicsPipelineHandle (DxvkGraphicsPipelineStateInfo.mk 5)
          (DxvkRenderPassFormat.mk 4)) = 2 := by
  decide

/-! ### Regeneration of the cache file -/

theorem readCacheEntry_cases (E : Externals) (s : IStream) :
    readCacheEntry E s = (false, none, { data := [], good := false })
      ∨ ∃ block s', readCacheEntry E s = (E.validBlock block, some (E.loaded block), s') := by
  rcases s with ⟨d, g⟩
  cases g with
  | false => exact Or.inl (readCacheEntry_failed E d)
  | true =>
    by_cases hlen : E.entrySize ≤ d.length
    · refine Or.inr ⟨d.take E.entrySize, { data := d.drop E.entrySize, good := true }, ?_⟩
      simp only [readCacheEntry, read_full d _ hlen, Externals.validBlock, Externals.loaded]
    · exact Or.inl (readCacheEntry_short E d (Nat.not_le.1 hlen))

theorem readCacheLoop_entries (E : Externals) :
    ∀ (fuel : Nat) (s : IStream) (c : DxvkStateCache) (n : Nat),
      ∀ e ∈ (readCacheLoop E fuel s c n).1.m_entries,
        e ∈ c.m_entries ∨ ∃ block, E.validBlock block = true ∧ e = E.loaded block := by
  intro fuel
  induction fuel with
  | zero => intro s c n e he; exact Or.inl he
  | succ f ih =>
    intro s c n e he
    unfold readCacheLoop at he
    cases hg : s.good with
    | false => rw [hg] at he; exact Or.inl he
    | true =>
      rw [hg] at he
      simp only [if_true] at he
      rcases readCacheEntry_cases E s with h | ⟨block, s', h⟩
      · rw [h] at he
        simp only [Bool.false_eq_true, if_false] at he
        exact ih _ _ _ e he
      · rw [h] at he
        cases hv : E.validBlock block with
        | true =>
          rw [hv] at he
          rcases ih _ _ _ e he with h1 | h1
          · rw [indexEntry_entries] at h1
            rcases List.mem_append.1 h1 with h2 | h2
            · exact Or.inl h2
            · exact Or.inr ⟨block, hv, List.mem_singleton.1 h2⟩
          · exact Or.inr h1
        | false =>
          rw [hv] at he
          simp only at he
          split at he
          · exact ih _ _ _ e he
          · exact ih _ _ _ e he

theorem readCacheFile_entries (E : Externals) (c : DxvkStateCache)
    (file : Option (List Byte)) :
    ∀ e ∈ (DxvkStateCache.readCacheFile E c file).cache.m_entries,
      e ∈ c.m_entries ∨ ∃ block, E.validBlock block = true ∧ e = E.loaded block := by
  intro e he
  cases file with
  | none => exact Or.inl he
  | some bytes =>
    unfold DxvkStateCache.readCacheFile at he
    rcases hr : readCacheHeader E { data := bytes, good := true } with ⟨b, s⟩
    cases b with
    | false => simp only [hr] at he; exact Or.inl he
    | true => simp only [hr] at he; exact readCacheLoop_entries E _ _ _ _ e he

theorem writeAllEntries_fst (E : Externals) (es : List DxvkStateCacheEntry) :
    ∀ stream : List Byte,
      (writeAllEntries E es stream).1
        = stream ++ (es.map (fun e => E.entryBytes (E.written e))).flatten := by
  induction es with
  | nil => intro stream; simp [writeAllEntries]
  | cons e es ih =>
    intro stream
    simp only [writeAllEntries, ih, writeCacheEntry_eq, List.map_cons, List.flatten_cons,
      List.append_assoc]

theorem readCacheFile_written (E : Externals) (hpos : 0 < E.entrySize)
    (hhdr : E.HeaderFaithful) (c : DxvkStateCache) (es : List DxvkStateCacheEntry)
    (hnull : ∀ e ∈ es, e.hash = E.g_nullHash)
    (hfaith : ∀ e ∈ es, E.Faithful (E.written e)) :
    DxvkStateCache.readCacheFile E c
        (some (E.headerBytes E.expectedHeader
          ++ (es.map (fun e => E.entryBytes (E.written e))).flatten))
      = { ok := true, numInvalidEntries := 0, cache := c.indexAll es } := by
  have hvalid : ∀ e ∈ es, E.validBlock (E.entryBytes (E.written e)) = true :=
    fun e he => validBlock_written E e (hnull e he) (hfaith e he)
  have hload : ∀ e ∈ es, E.loaded (E.entryBytes (E.written e)) = e :=
    fun e he => loaded_written E e (hnull e he) (hfaith e he)
  have hfull : ∀ b ∈ es.map (fun e => E.entryBytes (E.written e)),
      b.length = E.entrySize := by
    intro b hb
    obtain ⟨e, he, rfl⟩ := List.mem_map.1 hb
    exact (hfaith e he).1
  have h := readCacheFile_fileOf E hpos hhdr c
    (es.map (fun e => E.entryBytes (E.written e))) [] hfull (by simpa using hpos)
  rw [List.append_nil] at h
  have hfilter : ((es.map (fun e => E.entryBytes (E.written e))).filter E.validBlock).map
      E.loaded = es := by
    rw [List.filter_eq_self.2 (by
      intro b hb
      obtain ⟨e, he, rfl⟩ := List.mem_map.1 hb
      exact hvalid e he)]
    rw [List.map_map]
    calc es.map (E.loaded ∘ fun e => E.entryBytes (E.written e))
        = es.map id := List.map_congr_left (fun e he => hload e he)
      _ = es := List.map_id es
  have hcount : (es.map (fun e => E.entryBytes (E.written e))).countP
      (fun b => !E.validBlock b) = 0 := by
    rw [List.countP_eq_zero]
    intro b hb
    obtain ⟨e, he, rfl⟩ := List.mem_map.1 hb
    simp [hvalid e he]
  rw [hfilter, hcount] at h
  simpa [Externals.fileOf] using h

theorem readCacheFile_hash (E : Externals) (file : Option (List Byte)) :
    ∀ e ∈ (DxvkStateCache.readCacheFile E {} file).cache.m_entries,
      e.hash = E.g_nullHash := by
  intro e he
  rcases readCacheFile_entries E {} file e he with h | ⟨block, _, rfl⟩
  · cases h
  · rfl

theorem openCache_regenerate (E : Externals) (file : Option (List Byte))
    (hbad : (DxvkStateCache.readCacheFile E {} file).ok = false) :
    DxvkStateCache.openCache E file true
      = { cache := { (DxvkStateCache.readCacheFile E {} file).cache with
            m_entries := (DxvkStateCache.readCacheFile E {} file).cache.m_entries.map
              E.written }
          newFile := true
          writerOpen := true
          file := some (E.headerBytes E.expectedHeader
            ++ ((DxvkStateCache.readCacheFile E {} file).cache.m_entries.map
                (fun e => E.entryBytes (E.written e))).flatten) } := by
  unfold DxvkStateCache.openCache
  simp only [hbad, Bool.not_false, Bool.not_true, Bool.false_eq_true, if_false, if_true,
    writeAllEntries_fst, writeAllEntries_snd]

theorem openCache_keep (E : Externals) (file : Option (List Byte))
    (hok : (DxvkStateCache.readCacheFile E {} file).ok = true) :
    DxvkStateCache.openCache E file true
      = { cache := (DxvkStateCache.readCacheFile E {} file).cache
          newFile := false
          writerOpen := true
          file := file } := by
  unfold DxvkStateCache.openCache
  simp only [hok, Bool.not_false, Bool.not_true, Bool.false_eq_true, if_false]

/-- C11: when `readCacheFile` returns false (file missing, header rejected, or
some record invalid) and the file can be opened for writing, the constructor
replaces the file by the header of the current build followed by the records
that `writeCacheEntry` appends for the entries of the store, in store order.
`readCacheFile` on the new file returns true with no invalid record and loads
the entries the store held, in the same order; these are the entries of the
store after the constructor with the hash field, which the rewrite fills in
place, reset to the null hash. A second start-up on the new file therefore
keeps it as it is. -/
theorem C11_regeneration (E : Externals) (file : Option (List Byte))
    (hpos : 0 < E.entrySize) (hhdr : E.HeaderFaithful)
    (hbad : (DxvkStateCache.readCacheFile E {} file).ok = false)
    (hfaith : ∀ e ∈ (DxvkStateCache.readCacheFile E {} file).cache.m_entries,
      E.Faithful (E.written e)) :
    (DxvkStateCache.openCache E file true).newFile = true
    ∧ (DxvkStateCache.openCache E file true).file
        = some ((DxvkStateCache.readCacheFile E {} file).cache.m_entries.foldl
            (fun stream e => (writeCacheEntry E stream e).1)
            (E.headerBytes E.expectedHeader))
    ∧ DxvkStateCache.readCacheFile E {} (DxvkStateCache.openCache E file true).file
        = { ok := true, numInvalidEntries := 0,
            cache := DxvkStateCache.indexAll {}
              (DxvkStateCache.readCacheFile E {} file).cache.m_entries }
    ∧ (DxvkStateCache.readCacheFile E {}
          (DxvkStateCache.openCache E file true).file).cache.m_entries
        = (DxvkStateCache.readCacheFile E {} file).cache.m_entries
    ∧ (DxvkStateCache.readCacheFile E {}
          (DxvkStateCache.openCache E file true).file).cache.m_entries
        = (DxvkStateCache.openCache E file true).cache.m_entries.map
            (fun e => { e with hash := E.g_nullHash })
    ∧ (DxvkStateCache.openCache E (DxvkStateCache.openCache E file true).file true).newFile
        = false
    ∧ (DxvkStateCache.openCache E (DxvkStateCache.openCache E file true).file true).file
        = (DxvkStateCache.openCache E file true).file := by
  have hnull := readCacheFile_hash E file
  have hread := readCacheFile_written E hpos hhdr {}
    (DxvkStateCache.readCacheFile E {} file).cache.m_entries hnull hfaith
  have hopen := openCache_regenerate E file hbad
  have hfile : (DxvkStateCache.openCache E file true).file
      = some (E.headerBytes E.expectedHeader
          ++ ((DxvkStateCache.readCacheFile E {} file).cache.m_entries.map
              (fun e => E.entryBytes (E.written e))).flatten) := by rw [hopen]
  have hentries : (DxvkStateCache.indexAll {}
      (DxvkStateCache.readCacheFile E {} file).cache.m_entries).m_entries
      = (DxvkStateCache.readCacheFile E {} file).cache.m_entries := by
    rw [indexAll_entries]; rfl
  have hok : (DxvkStateCache.readCacheFile E {}
      (DxvkStateCache.openCache E file true).file).ok = true := by rw [hfile, hread]
  refine ⟨by rw [hopen], ?_, ?_, ?_, ?_, ?_, ?_⟩
  · rw [hfile, foldl_writeCacheEntry]
  · rw [hfile, hread]
  · rw [hfile, hread]; exact hentries
  · rw [hfile, hread, hopen]
    simp only [hentries, List.map_map]
    symm
    calc (DxvkStateCache.readCacheFile E {} file).cache.m_entries.map
          ((fun e => ({ e with hash := E.g_nullHash } : DxvkStateCacheEntry)) ∘ E.written)
        = (DxvkStateCache.readCacheFile E {} file).cache.m_entries.map id :=
          List.map_congr_left (fun e he => by
            have := hnull e he
            cases e
            simp only [Externals.written, Function.comp, id] at *
            simp [this])
      _ = _ := List.map_id _
  · rw [openCache_keep E _ hok]
  · rw [openCache_keep E _ hok]

/-- Witness of C11: a file of three records, the second of which fails
validation. -/
theorem C11_regeneration_witness :
    (0 < sampleExternals.entrySize ∧ sampleExternals.HeaderFaithful
      ∧ (DxvkStateCache.readCacheFile sampleExternals {}
          (some (sampleExternals.fileOf sampleBlocks))).ok = false
      ∧ ∀ e ∈ (DxvkStateCache.readCacheFile sampleExternals {}
          (some (sampleExternals.fileOf sampleBlocks))).cache.m_entries,
          sampleExternals.Faithful (sampleExternals.written e))
    ∧ (DxvkStateCache.readCacheFile sampleExternals {}
          (DxvkStateCache.openCache sampleExternals
            (some (sampleExternals.fileOf sampleBlocks)) true).file).cache.m_entries
        = (DxvkStateCache.readCacheFile sampleExternals {}
            (some (sampleExternals.fileOf sampleBlocks))).cache.m_entries
    ∧ (DxvkStateCache.openCache sampleExternals
          (DxvkStateCache.openCache sampleExternals
            (some (sampleExternals.fileOf sampleBlocks)) true).file true).newFile
        = false :=
  ⟨⟨by decide, by unfold Externals.HeaderFaithful; decide, by decide,
    by unfold Externals.Faithful; decide⟩,
   (C11_regeneration sampleExternals (some (sampleExternals.fileOf sampleBlocks))
      (by decide) (by unfold Externals.HeaderFaithful; decide) (by decide)
      (by unfold Externals.Faithful; decide)).2.2.2.1,
   (C11_regeneration sampleExternals (some (sampleExternals.fileOf sampleBlocks))
      (by decide) (by unfold Externals.HeaderFaithful; decide) (by decide)
      (by unfold Externals.Faithful; decide)).2.2.2.2.2.1⟩

/-! ### The writer thread -/

theorem records_append (E : Externals) (es : List DxvkStateCacheEntry)
    (e : DxvkStateCacheEntry) :
    E.records (es ++ [e]) = E.records es ++ E.entryBytes (E.written e) := by
  simp [Externals.records]

theorem writerInv_init (E : Externals) (file0 : Option (List Byte)) :
    (WriterState.init file0).Inv E file0 := by
  refine ⟨rfl, ?_, ?_, Nat.zero_le _, fun _ => rfl, fun _ => rfl⟩
  · cases file0 <;> simp [WriterState.init, Externals.records]
  · intro h; cases h

theorem writerInv_step (E : Externals) (file0 : Option (List Byte)) (s : WriterState)
    (a : WriterAction) (h : s.Inv E file0) : (s.step E a).Inv E file0 := by
  rcases s with ⟨queue, stop, file, pc, enq, taken, tas⟩
  obtain ⟨h1, h2, h3, h4, h5, h6⟩ := h
  simp only at h1 h2 h3 h4 h5 h6
  cases a with
  | enqueue entry =>
    refine ⟨?_, h2, h3, h4, h5, h6⟩
    show enq ++ [entry] = taken ++ pc.inFlight ++ (queue ++ [entry])
    rw [h1]
    simp only [List.append_assoc]
  | stop =>
    refine ⟨h1, h2, fun _ => rfl, h4, ?_, h6⟩
    intro hc; cases hc
  | writer =>
    cases pc with
    | loopHead =>
      cases stop with
      | true =>
        exact ⟨h1, h2, fun _ => rfl, h4, (fun hc => by cases hc), (fun hc => by cases hc)⟩
      | false =>
        exact ⟨h1, h2, (fun hc => by cases hc), h4, fun _ => h5 rfl, fun _ => h5 rfl⟩
    | waiting =>
      cases queue with
      | nil =>
        cases stop with
        | true =>
          exact ⟨h1, h2, fun _ => rfl, h4, h5, (fun hc => by cases hc)⟩
        | false =>
          exact ⟨h1, h2, (fun hc => by cases hc), h4, h5, h6⟩
      | cons entry queue =>
        have h0 : tas = 0 := h6 rfl
        subst h0
        refine ⟨?_, h2, (fun hc => by cases hc), ?_, ?_, (fun hc => by cases hc)⟩
        · show enq = taken ++ [entry] ++ queue
          rw [h1]
          simp [WriterPc.inFlight]
        · show (if stop = true then 0 + 1 else 0) ≤ 1
          split <;> omega
        · intro hs
          have hs' : stop = false := hs
          subst hs'
          rfl
    | writing entry =>
      refine ⟨?_, ?_, (fun hc => by cases hc), h4, h5, (fun hc => by cases hc)⟩
      · show enq = taken ++ [entry] ++ [] ++ queue
        rw [h1]
        simp [WriterPc.inFlight]
      · show file.map (fun f => (writeCacheEntry E f entry).1)
          = file0.map (fun f => f ++ E.records (taken ++ [entry]))
        rw [h2]
        cases file0 with
        | none => rfl
        | some f =>
          simp only [Option.map_some', writeCacheEntry_eq, records_append,
            List.append_assoc]
    | done =>
      exact ⟨h1, h2, h3, h4, h5, h6⟩

theorem writerInv_run (E : Externals) (file0 : Option (List Byte))
    (acts : List WriterAction) :
    ∀ s : WriterState, s.Inv E file0 → (s.run E acts).Inv E file0 := by
  induction acts with
  | nil => intro s h; exact h
  | cons a acts ih =>
    intro s h
    exact ih _ (writerInv_step E file0 s a h)

/-- C12: in every state of every run made of pushes on the writer queue, the
setting of the stop flag and steps of the writer thread, the entries pushed so
far are, in order, the entries the writer has handed to `writeCacheEntry`, then
the entry it holds, then the entries in the queue; and the output stream holds
what it held at the start followed by the records of the entries handed over,
in that order. So the records appended are always a prefix of the entries
enqueued, in the same order. -/
theorem C12_writer_ordering (E : Externals) (file0 : Option (List Byte))
    (acts : List WriterAction) :
    ((WriterState.init file0).run E acts).enqueued
        = ((WriterState.init file0).run E acts).taken
          ++ (((WriterState.init file0).run E acts).pc.inFlight
            ++ ((WriterState.init file0).run E acts).m_writerQueue)
    ∧ ((WriterState.init file0).run E acts).m_writerFile
        = file0.map (fun f => f ++ (((WriterState.init file0).run E acts).taken.map
            (fun e => E.entryBytes (E.written e))).flatten) := by
  obtain ⟨h1, h2, _⟩ := writerInv_run E file0 acts _ (writerInv_init E file0)
  exact ⟨by rw [h1, List.append_assoc], h2⟩

theorem writer_done_run (E : Externals) (acts : List WriterAction) :
    ∀ s : WriterState, s.pc = WriterPc.done →
      (s.run E acts).pc = WriterPc.done ∧ (s.run E acts).taken = s.taken
        ∧ (s.run E acts).m_writerFile = s.m_writerFile := by
  induction acts with
  | nil => intro s h; exact ⟨h, rfl, rfl⟩
  | cons a acts ih =>
    intro s h
    have hstep : (s.step E a).pc = WriterPc.done ∧ (s.step E a).taken = s.taken
        ∧ (s.step E a).m_writerFile = s.m_writerFile := by
      cases a with
      | enqueue entry => exact ⟨h, rfl, rfl⟩
      | stop => exact ⟨h, rfl, rfl⟩
      | writer =>
        show (s.writerStep E).pc = WriterPc.done ∧ (s.writerStep E).taken = s.taken
          ∧ (s.writerStep E).m_writerFile = s.m_writerFile
        unfold WriterState.writerStep
        rw [h]
        exact ⟨h, rfl, rfl⟩
    obtain ⟨h1, h2, h3⟩ := ih (s.step E a) hstep.1
    exact ⟨h1, by rw [← hstep.2.1]; exact h2, by rw [← hstep.2.2]; exact h3⟩

/-- C19 (as amended): in every run of the writer, once the writer loop has
terminated the stop flag is set, and the entries pushed are, in order, the
entries handed to `writeCacheEntry` followed by the entries still in the writer
queue: nothing is dropped or reordered, and the output stream holds the records
of the entries handed over. The queue need not be empty: the writer popped at
most one entry after the stop flag was set, and whatever happens afterwards
no further entry is written. -/
theorem C19_writer_shutdown (E : Externals) (file0 : Option (List Byte))
    (acts : List WriterAction)
    (hdone : ((WriterState.init file0).run E acts).pc = WriterPc.done) :
    ((WriterState.init file0).run E acts).m_stopThreads = true
    ∧ ((WriterState.init file0).run E acts).enqueued
        = ((WriterState.init file0).run E acts).taken
          ++ ((WriterState.init file0).run E acts).m_writerQueue
    ∧ ((WriterState.init file0).run E acts).m_writerFile
        = file0.map (fun f => f ++ (((WriterState.init file0).run E acts).taken.map
            (fun e => E.entryBytes (E.written e))).flatten)
    ∧ ((WriterState.init file0).run E acts).takenAfterStop ≤ 1
    ∧ ∀ more : List WriterAction,
        (((WriterState.init file0).run E acts).run E more).pc = WriterPc.done
        ∧ (((WriterState.init file0).run E acts).run E more).taken
            = ((WriterState.init file0).run E acts).taken
        ∧ (((WriterState.init file0).run E acts).run E more).m_writerFile
            = ((WriterState.init file0).run E acts).m_writerFile := by
  obtain ⟨h1, h2, h3, h4, _, _⟩ := writerInv_run E file0 acts _ (writerInv_init E file0)
  refine ⟨h3 hdone, ?_, h2, h4, fun more => writer_done_run E more _ hdone⟩
  rw [h1, hdone]
  simp [WriterPc.inFlight]

/-- Witness of C19 (as amended): the run `sampleWriterRun`. -/
theorem C19_writer_shutdown_witness :
    ((WriterState.init (some [])).run sampleExternals sampleWriterRun).pc
        = WriterPc.done
    ∧ ((WriterState.init (some [])).run sampleExternals sampleWriterRun).enqueued
        = ((WriterState.init (some [])).run sampleExternals sampleWriterRun).taken
          ++ ((WriterState.init (some [])).run sampleExternals
              sampleWriterRun).m_writerQueue :=
  ⟨by decide,
   (C19_writer_shutdown sampleExternals (some []) sampleWriterRun (by decide)).2.1⟩

/-- C19 fails as stated: in the run `sampleWriterRun` two entries are in the
writer queue when the stop flag is set (the flag is clear after the first four
steps); the writer loop terminates with the second entry still in the queue,
and the output stream holds the record of the first entry only. -/
theorem C19_counterexample :
    ((WriterState.init (some [])).run sampleExternals
        (sampleWriterRun.take 4)).m_stopThreads = false
    ∧ ((WriterState.init (some [])).run sampleExternals
        (sampleWriterRun.take 4)).enqueued = [sampleEntry 3 4, sampleEntry 5 4]
    ∧ ((WriterState.init (some [])).run sampleExternals sampleWriterRun).pc
        = WriterPc.done
    ∧ ((WriterState.init (some [])).run sampleExternals sampleWriterRun).m_writerQueue
        = [sampleEntry 5 4]
    ∧ ((WriterState.init (some [])).run sampleExternals sampleWriterRun).m_writerFile
        = some (sampleExternals.entryBytes (sampleExternals.written (sampleEntry 3 4))) := by
  decide

/-! ### Repeated work items -/

theorem registerShader_resolvable (c : DxvkStateCache) (sh : DxvkShader)
    (hk : sh.getShaderKey ≠ g_nullShaderKey) (K : DxvkStateCacheKey) :
    K.slots.all (fun s => s.eq g_nullShaderKey
        || ((c.findShader s).isSome || decide (sh.getShaderKey = s)))
      = K.slots.all (fun s => s.eq g_nullShaderKey
        || ((c.registerShader sh).findShader s).isSome) := by
  congr 1
  funext s
  rw [findShader_registerShader c sh hk]

theorem registerAll_at_most_once (K : DxvkStateCacheKey)
    (hdist : (K.slots.filter (fun s => !s.eq g_nullShaderKey)).Nodup)
    (l : List DxvkShader) :
    ∀ c : DxvkStateCache, c.Indexed →
      c.m_entries.countP (fun e => decide (e.shaders = K)) ≤ 1 →
      ((l.map DxvkShader.getShaderKey).filter (fun s => !s.eq g_nullShaderKey)).Nodup →
      (∀ sh ∈ l, sh.getShaderKey ≠ g_nullShaderKey → c.findShader sh.getShaderKey = none) →
      ∃ new : List WorkerItem,
        (c.registerAll l).m_workerQueue = c.m_workerQueue ++ new
        ∧ new.countP (fun item => decide (item.key = K)) ≤ 1
        ∧ (K.slots.all (fun s => s.eq g_nullShaderKey || (c.findShader s).isSome) = true →
            new.countP (fun item => decide (item.key = K)) = 0) := by
  induction l with
  | nil =>
    intro c _ _ _ _
    exact ⟨[], by simp [DxvkStateCache.registerAll], by simp, fun _ => by simp⟩
  | cons sh l ih =>
    intro c hidx hone hnodup hfresh
    by_cases hk : sh.getShaderKey = g_nullShaderKey
    · rw [registerAll_cons, registerShader_null c sh hk]
      rw [List.map_cons, List.filter_cons_of_neg
        (by simp [(shaderKey_eq_iff _ _).2 hk])] at hnodup
      exact ih c hidx hone hnodup (fun x hx => hfresh x (List.mem_cons_of_mem _ hx))
    have hidx' := indexed_registerShader c sh hidx
    have hent : (c.registerShader sh).m_entries = c.m_entries :=
      (registerShader_entries c sh).1
    rw [List.map_cons, List.filter_cons_of_pos
      (by simp [(shaderKey_eq_false_iff _ _).2 hk]), List.nodup_cons] at hnodup
    have hfresh' : ∀ x ∈ l, x.getShaderKey ≠ g_nullShaderKey →
        (c.registerShader sh).findShader x.getShaderKey = none := by
      intro x hx hxn
      have h1 := findShader_registerShader c sh hk x.getShaderKey
      rw [hfresh x (List.mem_cons_of_mem _ hx) hxn] at h1
      have hne : sh.getShaderKey ≠ x.getShaderKey := by
        intro heq
        apply hnodup.1
        rw [heq]
        exact List.mem_filter.2 ⟨List.mem_map_of_mem _ hx,
          by simp [(shaderKey_eq_false_iff _ _).2 hxn]⟩
      simp only [Option.isSome_none, Bool.false_or, hne, decide_False] at h1
      cases hf : (c.registerShader sh).findShader x.getShaderKey with
      | none => rfl
      | some p => rw [hf] at h1; cases h1
    obtain ⟨new2, hq2, hle2, hzero2⟩ := ih (c.registerShader sh) hidx'
      (by rw [hent]; exact hone) hnodup.2 hfresh'
    obtain ⟨hq1, hcount1⟩ := registerShader_new_items c hidx sh hk K
    rw [registerShader_resolvable c sh hk K] at hcount1
    have hslot : K.slots.count sh.getShaderKey ≤ 1 := by
      have h1 := List.nodup_iff_count_le_one.1 hdist sh.getShaderKey
      rwa [List.count_filter (by simp [(shaderKey_eq_false_iff _ _).2 hk])] at h1
    generalize ((c.insertShader sh.getShaderKey sh).pipelineRange sh.getShaderKey).filterMap
      (fun p => (c.insertShader sh.getShaderKey sh).resolveItem p.2) = new1 at hq1 hcount1
    refine ⟨new1 ++ new2, ?_, ?_, ?_⟩
    · rw [registerAll_cons, hq2, hq1, List.append_assoc]
    · rw [List.countP_append, hcount1]
      by_cases hres : K.slots.all (fun s => s.eq g_nullShaderKey
          || ((c.registerShader sh).findShader s).isSome) = true
      · rw [if_pos hres, hzero2 hres]
        have := Nat.mul_le_mul hone hslot
        omega
      · rw [if_neg hres]
        omega
    · intro hres
      have hnot : sh.getShaderKey ∉ K.slots := by
        intro hin
        rw [List.all_eq_true] at hres
        have h1 := hres _ hin
        rw [(shaderKey_eq_false_iff _ _).2 hk, hfresh sh (List.mem_cons_self _ _) hk] at h1
        cases h1
      have hres' : K.slots.all (fun s => s.eq g_nullShaderKey
          || ((c.registerShader sh).findShader s).isSome) = true := by
        rw [List.all_eq_true] at hres ⊢
        intro s hs
        have h1 := hres s hs
        rw [findShader_registerShader c sh hk]
        simp only [Bool.or_eq_true] at h1 ⊢
        rcases h1 with h1 | h1
        · exact Or.inl h1
        · exact Or.inr (Or.inl h1)
      rw [List.countP_append, hcount1, hzero2 hres', List.count_eq_zero_of_not_mem hnot]
      simp

/-- C13 (as amended): let a consistent cache state (every state the cache
reaches is one) record the combination `K`, whose non-null stage keys are
pairwise distinct, in at most one entry, and let `registerShader` be called on
a sequence of shaders whose non-null keys are pairwise distinct and not
registered before. Then at most one of the work items that these calls append
to the worker queue has key `K`. -/
theorem C13_at_most_once (c : DxvkStateCache) (hidx : c.Indexed) (K : DxvkStateCacheKey)
    (hone : c.m_entries.countP (fun e => decide (e.shaders = K)) ≤ 1)
    (hdist : (K.slots.filter (fun s => !s.eq g_nullShaderKey)).Nodup)
    (l : List DxvkShader)
    (hnodup : ((l.map DxvkShader.getShaderKey).filter
      (fun s => !s.eq g_nullShaderKey)).Nodup)
    (hfresh : ∀ sh ∈ l, sh.getShaderKey ≠ g_nullShaderKey →
      c.findShader sh.getShaderKey = none) :
    ∃ new : List WorkerItem,
      (c.registerAll l).m_workerQueue = c.m_workerQueue ++ new
      ∧ new.countP (fun item => decide (item.key = K)) ≤ 1 := by
  obtain ⟨new, h1, h2, _⟩ := registerAll_at_most_once K hdist l c hidx hone hnodup hfresh
  exact ⟨new, h1, h2⟩

/-- Witness of C13 (as amended): the vertex and the fragment shader of
`sampleKey` are registered on the cache that holds one entry for it. -/
theorem C13_at_most_once_witness :
    ((DxvkStateCache.indexEntry {} (sampleEntry 3 4)).Indexed
      ∧ (DxvkStateCache.indexEntry {} (sampleEntry 3 4)).m_entries.countP
          (fun e => decide (e.shaders = sampleKey)) ≤ 1
      ∧ (sampleKey.slots.filter (fun s => !s.eq g_nullShaderKey)).Nodup
      ∧ (([sampleShader 1, sampleShader 2].map DxvkShader.getShaderKey).filter
          (fun s => !s.eq g_nullShaderKey)).Nodup
      ∧ ∀ sh ∈ [sampleShader 1, sampleShader 2], sh.getShaderKey ≠ g_nullShaderKey →
          (DxvkStateCache.indexEntry {} (sampleEntry 3 4)).findShader sh.getShaderKey
            = none)
    ∧ ∃ new : List WorkerItem,
        ((DxvkStateCache.indexEntry {} (sampleEntry 3 4)).registerAll
            [sampleShader 1, sampleShader 2]).m_workerQueue
          = (DxvkStateCache.indexEntry {} (sampleEntry 3 4)).m_workerQueue ++ new
        ∧ new.countP (fun item => decide (item.key = sampleKey)) ≤ 1 :=
  ⟨⟨indexed_indexEntry _ _ indexed_empty, by decide, by decide, by decide, by decide⟩,
   C13_at_most_once (DxvkStateCache.indexEntry {} (sampleEntry 3 4))
     (indexed_indexEntry _ _ indexed_empty) sampleKey (by decide) (by decide)
     [sampleShader 1, sampleShader 2] (by decide) (by decide)⟩

/-- C13 fails as stated: on the cache that holds one entry for `sampleKey`,
the vertex shader and the fragment shader are registered, and then a second
shader whose key equals that of the fragment shader; the worker queue then
holds two work items for the one recorded combination. -/
theorem C13_counterexample :
    (DxvkStateCache.indexEntry {} (sampleEntry 3 4)).m_entries.countP
        (fun e => decide (e.shaders = sampleKey)) = 1
    ∧ (DxvkStateCache.indexEntry {} (sampleEntry 3 4)).m_workerQueue = []
    ∧ (((DxvkStateCache.indexEntry {} (sampleEntry 3 4)).registerAll
          [sampleShader 1, sampleShader 2,
           { object := 7, key := DxvkShaderKey.mk 2 }]).m_workerQueue.countP
        (fun item => decide (item.key = sampleKey))) = 2 := by
  decide

/-! ### The entry store in reachable states -/

theorem indexEntry_writerQueue (c : DxvkStateCache) (e : DxvkStateCacheEntry) :
    (c.indexEntry e).m_writerQueue = c.m_writerQueue := by
  simp only [DxvkStateCache.indexEntry, DxvkStateCache.mapShaderToPipeline,
    DxvkStateCache.mapPipelineToEntry]
  repeat' split
  all_goals rfl

theorem indexAll_writerQueue (es : List DxvkStateCacheEntry) :
    ∀ c : DxvkStateCache, (c.indexAll es).m_writerQueue = c.m_writerQueue := by
  induction es with
  | nil => intro c; rfl
  | cons e es ih =>
    intro c
    rw [indexAll_cons, ih, indexEntry_writerQueue]

theorem openCache_entries (E : Externals) (file : Option (List Byte)) (canWrite : Bool) :
    (DxvkStateCache.openCache E file canWrite).cache.m_entries
        = (DxvkStateCache.readCacheFile E {} file).cache.m_entries
      ∨ (DxvkStateCache.openCache E file canWrite).cache.m_entries
        = (DxvkStateCache.readCacheFile E {} file).cache.m_entries.map E.written := by
  unfold DxvkStateCache.openCache
  dsimp only
  split
  · exact Or.inl rfl
  · split
    · right
      rw [writeAllEntries_snd]
    · exact Or.inl rfl

theorem openCache_writerQueue (E : Externals) (file : Option (List Byte))
    (canWrite : Bool) :
    (DxvkStateCache.openCache E file canWrite).cache.m_writerQueue = [] := by
  obtain ⟨es, hes⟩ := readCacheFile_indexAll E {} file
  have h : (DxvkStateCache.readCacheFile E {} file).cache.m_writerQueue = [] := by
    rw [hes, indexAll_writerQueue]
  unfold DxvkStateCache.openCache
  dsimp only
  split
  · exact h
  · split
    · exact h
    · exact h

theorem registerShader_writerQueue (c : DxvkStateCache) (sh : DxvkShader) :
    (c.registerShader sh).m_writerQueue = c.m_writerQueue := by
  by_cases hk : sh.getShaderKey = g_nullShaderKey
  · rw [registerShader_null c sh hk]
  · rw [registerShader_eq c sh hk]
    exact (insertShader_other c _ sh).2.2.2.2

theorem addGraphicsPipeline_entries (E : Externals) (c : DxvkStateCache)
    (shaders : DxvkStateCacheKey) (state : DxvkGraphicsPipelineStateInfo)
    (format : DxvkRenderPassFormat) :
    (c.addGraphicsPipeline E shaders state format).m_entries = c.m_entries := by
  unfold DxvkStateCache.addGraphicsPipeline
  repeat' split
  all_goals rfl

theorem addComputePipeline_entries (E : Externals) (c : DxvkStateCache)
    (shaders : DxvkStateCacheKey) (state : DxvkComputePipelineStateInfo) :
    (c.addComputePipeline E shaders state).m_entries = c.m_entries := by
  unfold DxvkStateCache.addComputePipeline
  repeat' split
  all_goals rfl

theorem reachable_writerQueue (E : Externals) (c : DxvkStateCache) (h : Reachable E c) :
    ∀ e ∈ c.m_writerQueue,
      e.shaders.vs ≠ g_nullShaderKey ∨ e.shaders.cs ≠ g_nullShaderKey := by
  induction h with
  | construct file canWrite =>
    intro e he
    rw [openCache_writerQueue] at he
    cases he
  | registerShader c sh _ ih =>
    intro e he
    rw [registerShader_writerQueue] at he
    exact ih e he
  | addGraphicsPipeline c shaders state format _ ih =>
    intro e he
    unfold DxvkStateCache.addGraphicsPipeline at he
    split at he
    · exact ih e he
    · rename_i hvs
      split at he
      · exact ih e he
      · simp only [List.mem_append, List.mem_singleton] at he
        rcases he with he | rfl
        · exact ih e he
        · left
          intro hc
          exact hvs ((shaderKey_eq_iff _ _).2 hc)
  | addComputePipeline c shaders state _ ih =>
    intro e he
    unfold DxvkStateCache.addComputePipeline at he
    split at he
    · exact ih e he
    · rename_i hcs
      split at he
      · exact ih e he
      · simp only [List.mem_append, List.mem_singleton] at he
        rcases he with he | rfl
        · exact ih e he
        · right
          intro hc
          exact hcs ((shaderKey_eq_iff _ _).2 hc)
  | workerPop c _ ih => exact ih
  | writerPop c _ ih =>
    intro e he
    exact ih e (List.mem_of_mem_tail he)

theorem descriptor_written (E : Externals) (e : DxvkStateCacheEntry) :
    (E.written e).descriptor = e.descriptor := rfl

theorem descriptor_loaded (E : Externals) (block : List Byte) :
    (E.loaded block).descriptor = (E.entryOfBytes block).descriptor := rfl

theorem openCache_descriptors (E : Externals) (file : Option (List Byte))
    (canWrite : Bool) :
    (DxvkStateCache.openCache E file canWrite).cache.m_entries.map
        DxvkStateCacheEntry.descriptor
      = (DxvkStateCache.readCacheFile E {} file).cache.m_entries.map
        DxvkStateCacheEntry.descriptor := by
  rcases openCache_entries E file canWrite with h | h
  · rw [h]
  · rw [h, List.map_map]
    rfl

/-! ### The entry store as a function of the cache file -/

theorem bytes_split (size : Nat) (hpos : 0 < size) :
    ∀ (n : Nat) (d : List Byte), d.length ≤ n →
      ∃ (blocks : List (List Byte)) (tail : List Byte),
        d = blocks.flatten ++ tail ∧ (∀ b ∈ blocks, b.length = size) ∧ tail.length < size := by
  intro n
  induction n with
  | zero =>
    intro d hd
    refine ⟨[], d, by simp, by simp, ?_⟩
    omega
  | succ n ih =>
    intro d hd
    by_cases hlt : d.length < size
    · exact ⟨[], d, by simp, by simp, hlt⟩
    · have hle : size ≤ d.length := Nat.le_of_not_lt hlt
      obtain ⟨blocks, tail, h1, h2, h3⟩ := ih (d.drop size) (by rw [List.length_drop]; omega)
      refine ⟨d.take size :: blocks, tail, ?_, ?_, h3⟩
      · rw [List.flatten_cons, List.append_assoc, ← h1, List.take_append_drop]
      · intro b hb
        rcases List.mem_cons.1 hb with rfl | hb
        · rw [List.length_take]
          omega
        · exact h2 b hb

theorem readCacheHeader_block (E : Externals) (hdr rest : List Byte)
    (hlen : hdr.length = E.headerSize) :
    readCacheHeader E { data := hdr ++ rest, good := true }
      = (E.headerAccepted hdr, { data := rest, good := true }) := by
  have hle : E.headerSize ≤ (hdr ++ rest).length := by simp [hlen]
  rw [readCacheHeader_full E _ hle, List.take_left' hlen, List.drop_left' hlen]
  rfl

theorem readCacheFile_blocks (E : Externals) (hpos : 0 < E.entrySize) (c : DxvkStateCache)
    (hdr : List Byte) (blocks : List (List Byte)) (tail : List Byte)
    (hlen : hdr.length = E.headerSize)
    (hfull : ∀ b ∈ blocks, b.length = E.entrySize) (htail : tail.length < E.entrySize) :
    DxvkStateCache.readCacheFile E c (some (hdr ++ (blocks.flatten ++ tail)))
      = if E.headerAccepted hdr = true then
          { ok := decide (blocks.countP (fun b => !E.validBlock b) % 2 ^ 32 = 0)
            numInvalidEntries := blocks.countP (fun b => !E.validBlock b) % 2 ^ 32
            cache := c.indexAll ((blocks.filter E.validBlock).map E.loaded) }
        else { ok := false, numInvalidEntries := 0, cache := c } := by
  have hfuel : blocks.length < (blocks.flatten ++ tail).length + 1 := by
    have := length_le_flatten E.entrySize hpos blocks hfull
    simp only [List.length_append]
    omega
  cases ha : E.headerAccepted hdr with
  | false =>
    simp [DxvkStateCache.readCacheFile, readCacheHeader_block E hdr _ hlen, ha]
  | true =>
    simp only [DxvkStateCache.readCacheFile, readCacheHeader_block E hdr _ hlen, ha,
      readCacheLoop_blocks E blocks tail hfull htail _ c 0 hfuel, iterate_bump_zero, if_true]

/-- The cache file as `readCacheFile` sees it: either nothing is loaded, because
the file is missing, shorter than a header or has a header that is not
accepted, or the file is an accepted header followed by full-size records and a
shorter fragment, and the result is determined by the records. -/
theorem readCacheFile_cases (E : Externals) (hpos : 0 < E.entrySize) (c : DxvkStateCache)
    (file : Option (List Byte)) :
    (DxvkStateCache.readCacheFile E c file
        = { ok := false, numInvalidEntries := 0, cache := c }
      ∧ (file = none ∨ ∃ bytes, file = some bytes
          ∧ (bytes.length < E.headerSize
            ∨ E.headerAccepted (bytes.take E.headerSize) = false)))
    ∨ ∃ (hdr : List Byte) (blocks : List (List Byte)) (tail : List Byte),
        file = some (hdr ++ (blocks.flatten ++ tail))
        ∧ hdr.length = E.headerSize ∧ E.headerAccepted hdr = true
        ∧ (∀ b ∈ blocks, b.length = E.entrySize) ∧ tail.length < E.entrySize
        ∧ DxvkStateCache.readCacheFile E c file
          = { ok := decide (blocks.countP (fun b => !E.validBlock b) % 2 ^ 32 = 0)
              numInvalidEntries := blocks.countP (fun b => !E.validBlock b) % 2 ^ 32
              cache := c.indexAll ((blocks.filter E.validBlock).map E.loaded) } := by
  cases file with
  | none => exact Or.inl ⟨rfl, Or.inl rfl⟩
  | some bytes =>
    by_cases hshort : bytes.length < E.headerSize
    · left
      refine ⟨?_, Or.inr ⟨bytes, rfl, Or.inl hshort⟩⟩
      simp [DxvkStateCache.readCacheFile, readCacheHeader_short E bytes hshort]
    · have hle : E.headerSize ≤ bytes.length := Nat.le_of_not_lt hshort
      have hlen : (bytes.take E.headerSize).length = E.headerSize := by
        rw [List.length_take]; omega
      obtain ⟨blocks, tail, h1, h2, h3⟩ :=
        bytes_split E.entrySize hpos _ (bytes.drop E.headerSize) (Nat.le_refl _)
      have hbytes : bytes = bytes.take E.headerSize ++ (blocks.flatten ++ tail) := by
        rw [← h1, List.take_append_drop]
      have hread := readCacheFile_blocks E hpos c _ blocks tail hlen h2 h3
      rw [← hbytes] at hread
      cases ha : E.headerAccepted (bytes.take E.headerSize) with
      | false =>
        left
        rw [ha] at hread
        exact ⟨by rw [hread]; rfl, Or.inr ⟨bytes, rfl, Or.inr ha⟩⟩
      | true =>
        right
        rw [ha] at hread
        exact ⟨_, blocks, tail, congrArg some hbytes, hlen, ha, h2, h3, by rw [hread]; rfl⟩

theorem apply_entries (E : Externals) (c : DxvkStateCache) (op : CacheOp) :
    (c.apply E op).m_entries = c.m_entries := by
  cases op with
  | registerShader sh => exact (registerShader_entries c sh).1
  | addGraphicsPipeline shaders state format => exact addGraphicsPipeline_entries E c _ _ _
  | addComputePipeline shaders state => exact addComputePipeline_entries E c _ _
  | workerPop => rfl
  | writerPop => rfl

theorem applyAll_entries (E : Externals) (ops : List CacheOp) :
    ∀ c : DxvkStateCache, (c.applyAll E ops).m_entries = c.m_entries := by
  induction ops with
  | nil => intro c; rfl
  | cons op ops ih =>
    intro c
    show ((c.apply E op).applyAll E ops).m_entries = c.m_entries
    rw [ih, apply_entries]

theorem reachable_apply (E : Externals) (c : DxvkStateCache) (op : CacheOp)
    (h : Reachable E c) : Reachable E (c.apply E op) := by
  cases op with
  | registerShader sh => exact Reachable.registerShader c sh h
  | addGraphicsPipeline shaders state format =>
    exact Reachable.addGraphicsPipeline c shaders state format h
  | addComputePipeline shaders state => exact Reachable.addComputePipeline c shaders state h
  | workerPop => exact Reachable.workerPop c h
  | writerPop => exact Reachable.writerPop c h

theorem reachable_applyAll (E : Externals) (ops : List CacheOp) :
    ∀ c : DxvkStateCache, Reachable E c → Reachable E (c.applyAll E ops) := by
  induction ops with
  | nil => intro c h; exact h
  | cons op ops ih =>
    intro c h
    exact ih _ (reachable_apply E c op h)

theorem applyAll_append (E : Externals) (c : DxvkStateCache) (ops : List CacheOp)
    (op : CacheOp) : c.applyAll E (ops ++ [op]) = (c.applyAll E ops).apply E op := by
  unfold DxvkStateCache.applyAll
  rw [List.foldl_append]
  rfl

/-- The reachable states are the states that a sequence of operations leads to
from the state the constructor leaves for some cache file. -/
theorem reachable_iff_applyAll (E : Externals) (c : DxvkStateCache) :
    Reachable E c ↔ ∃ (file : Option (List Byte)) (canWrite : Bool) (ops : List CacheOp),
      c = (DxvkStateCache.openCache E file canWrite).cache.applyAll E ops := by
  constructor
  · intro h
    induction h with
    | construct file canWrite => exact ⟨file, canWrite, [], rfl⟩
    | registerShader c sh _ ih =>
      obtain ⟨file, canWrite, ops, rfl⟩ := ih
      exact ⟨file, canWrite, ops ++ [CacheOp.registerShader sh], by rw [applyAll_append]; rfl⟩
    | addGraphicsPipeline c shaders state format _ ih =>
      obtain ⟨file, canWrite, ops, rfl⟩ := ih
      exact ⟨file, canWrite, ops ++ [CacheOp.addGraphicsPipeline shaders state format],
        by rw [applyAll_append]; rfl⟩
    | addComputePipeline c shaders state _ ih =>
      obtain ⟨file, canWrite, ops, rfl⟩ := ih
      exact ⟨file, canWrite, ops ++ [CacheOp.addComputePipeline shaders state],
        by rw [applyAll_append]; rfl⟩
    | workerPop c _ ih =>
      obtain ⟨file, canWrite, ops, rfl⟩ := ih
      exact ⟨file, canWrite, ops ++ [CacheOp.workerPop], by rw [applyAll_append]; rfl⟩
    | writerPop c _ ih =>
      obtain ⟨file, canWrite, ops, rfl⟩ := ih
      exact ⟨file, canWrite, ops ++ [CacheOp.writerPop], by rw [applyAll_append]; rfl⟩
  · rintro ⟨file, canWrite, ops, rfl⟩
    exact reachable_applyAll E ops _ (Reachable.construct file canWrite)

/-- The store that the constructor leaves, up to the hash field, for a file
made of an accepted header, full-size records and a shorter fragment. -/
theorem openCache_blocks (E : Externals) (hpos : 0 < E.entrySize) (canWrite : Bool)
    (hdr : List Byte) (blocks : List (List Byte)) (tail : List Byte)
    (hlen : hdr.length = E.headerSize) (hacc : E.headerAccepted hdr = true)
    (hfull : ∀ b ∈ blocks, b.length = E.entrySize) (htail : tail.length < E.entrySize) :
    (DxvkStateCache.openCache E (some (hdr ++ (blocks.flatten ++ tail)))
        canWrite).cache.m_entries.map DxvkStateCacheEntry.descriptor
      = (blocks.filter E.validBlock).map (fun b => (E.entryOfBytes b).descriptor) := by
  rw [openCache_descriptors, readCacheFile_blocks E hpos {} hdr blocks tail hlen hfull htail,
    if_pos hacc, indexAll_entries]
  simp only [List.nil_append, List.map_map]
  rfl

theorem openCache_rejected (E : Externals) (file : Option (List Byte)) (canWrite : Bool)
    (h : DxvkStateCache.readCacheFile E {} file
      = { ok := false, numInvalidEntries := 0, cache := {} }) :
    (DxvkStateCache.openCache E file canWrite).cache.m_entries = [] := by
  rcases openCache_entries E file canWrite with h1 | h1
  · rw [h1, h]
  · rw [h1, h]
    rfl

/-- C14 (as amended): for every cache file and every sequence of
`registerShader`, `addGraphicsPipeline` and `addComputePipeline` calls and queue
steps made after the constructor loaded it, the entry store is the store that
the constructor left: no operation changes it, in any state. Either the file is
missing, shorter than a header or has a header that is not accepted, and the
store is empty; or the file is an accepted header followed by full-size records
and a shorter fragment, and the entries of the store are, up to the hash field,
the records of this file whose hash validates, in file order, every one of
them: duplicates are not suppressed, so the store is free of duplicates exactly
when the valid records of the file are. Every reachable state is of this
kind. -/
theorem C14_store_is_log (E : Externals) (hpos : 0 < E.entrySize)
    (file : Option (List Byte)) (canWrite : Bool) (ops : List CacheOp) :
    ((DxvkStateCache.openCache E file canWrite).cache.applyAll E ops).m_entries
        = (DxvkStateCache.openCache E file canWrite).cache.m_entries
    ∧ (∀ (c : DxvkStateCache) (op : CacheOp), (c.apply E op).m_entries = c.m_entries)
    ∧ ((((DxvkStateCache.openCache E file canWrite).cache.applyAll E ops).m_entries = []
          ∧ (file = none ∨ ∃ bytes, file = some bytes
              ∧ (bytes.length < E.headerSize
                ∨ E.headerAccepted (bytes.take E.headerSize) = false)))
        ∨ ∃ (hdr : List Byte) (blocks : List (List Byte)) (tail : List Byte),
            file = some (hdr ++ (blocks.flatten ++ tail))
            ∧ hdr.length = E.headerSize ∧ E.headerAccepted hdr = true
            ∧ (∀ b ∈ blocks, b.length = E.entrySize) ∧ tail.length < E.entrySize
            ∧ ((DxvkStateCache.openCache E file canWrite).cache.applyAll E ops).m_entries.map
                DxvkStateCacheEntry.descriptor
              = (blocks.filter E.validBlock).map (fun b => (E.entryOfBytes b).descriptor)
            ∧ ((((DxvkStateCache.openCache E file canWrite).cache.applyAll E
                    ops).m_entries.map DxvkStateCacheEntry.descriptor).Nodup
                ↔ ((blocks.filter E.validBlock).map
                    (fun b => (E.entryOfBytes b).descriptor)).Nodup))
    ∧ (∀ c : DxvkStateCache, Reachable E c →
        ∃ (file' : Option (List Byte)) (canWrite' : Bool) (ops' : List CacheOp),
          c = (DxvkStateCache.openCache E file' canWrite').cache.applyAll E ops') := by
  refine ⟨applyAll_entries E ops _, apply_entries E, ?_,
    fun c hc => (reachable_iff_applyAll E c).1 hc⟩
  rw [applyAll_entries]
  rcases readCacheFile_cases E hpos {} file with ⟨hrej, hfile⟩ | ⟨hdr, blocks, tail, rfl, hlen,
      hacc, hfull, htail, _⟩
  · exact Or.inl ⟨openCache_rejected E file canWrite hrej, hfile⟩
  · right
    have hd := openCache_blocks E hpos canWrite hdr blocks tail hlen hacc hfull htail
    exact ⟨hdr, blocks, tail, rfl, hlen, hacc, hfull, htail, hd, by rw [hd]⟩

/-- Witness of C14 (as amended): a file with two equal records, then two
registrations. -/
theorem C14_store_is_log_witness :
    0 < sampleExternals.entrySize
    ∧ ((DxvkStateCache.openCache sampleExternals
          (some (sampleExternals.fileOf sampleDupBlocks)) true).cache.applyAll sampleExternals
          [CacheOp.registerShader (sampleShader 1),
           CacheOp.addGraphicsPipeline sampleKey (DxvkGraphicsPipelineStateInfo.mk 9)
             (DxvkRenderPassFormat.mk 4)]).m_entries
      = (DxvkStateCache.openCache sampleExternals
          (some (sampleExternals.fileOf sampleDupBlocks)) true).cache.m_entries :=
  ⟨by decide,
   (C14_store_is_log sampleExternals (by decide)
      (some (sampleExternals.fileOf sampleDupBlocks)) true
      [CacheOp.registerShader (sampleShader 1),
       CacheOp.addGraphicsPipeline sampleKey (DxvkGraphicsPipelineStateInfo.mk 9)
         (DxvkRenderPassFormat.mk 4)]).1⟩

/-- C14 fails as stated: two calls of `addGraphicsPipeline` with the same
arguments put two equal entries in the writer queue, the writer appends both to
a new cache file, and the constructor that loads this file accepts it (result
true) and reaches a state whose entry store holds two entries with equal
combination key, format and state descriptors. -/
theorem C14_counterexample :
    Reachable sampleExternals
        (DxvkStateCache.openCache sampleExternals
          (some (sampleExternals.fileOf sampleDupBlocks)) true).cache
    ∧ ((DxvkStateCache.addGraphicsPipeline sampleExternals {} sampleKey
          (DxvkGraphicsPipelineStateInfo.mk 3)
          (DxvkRenderPassFormat.mk 4)).addGraphicsPipeline sampleExternals sampleKey
          (DxvkGraphicsPipelineStateInfo.mk 3) (DxvkRenderPassFormat.mk 4)).m_writerQueue
        = [sampleEntry 3 4, sampleEntry 3 4]
    ∧ ((WriterState.init
          (some (sampleExternals.headerBytes sampleExternals.expectedHeader))).run
          sampleExternals
          [WriterAction.enqueue (sampleEntry 3 4), WriterAction.enqueue (sampleEntry 3 4),
           WriterAction.writer, WriterAction.writer, WriterAction.writer,
           WriterAction.writer, WriterAction.writer, WriterAction.writer]).m_writerFile
        = some (sampleExternals.fileOf sampleDupBlocks)
    ∧ (DxvkStateCache.readCacheFile sampleExternals {}
          (some (sampleExternals.fileOf sampleDupBlocks))).ok = true
    ∧ (DxvkStateCache.openCache sampleExternals
          (some (sampleExternals.fileOf sampleDupBlocks)) true).cache.m_entries
        = [sampleEntry 3 4, sampleEntry 3 4]
    ∧ ¬ ((DxvkStateCache.openCache sampleExternals
          (some (sampleExternals.fileOf sampleDupBlocks)) true).cache.m_entries.map
          DxvkStateCacheEntry.descriptor).Nodup :=
  ⟨Reachable.construct _ _, by decide, by decide, by decide, by decide, by decide⟩

/-- C16 (as amended): for every cache file and every sequence of operations
made after the constructor loaded it, every entry in the writer queue has a
non-null vertex-stage key or a non-null compute-stage key; every entry of the
entry store agrees, in all fields but the hash, with a full-size record of this
file that passed the hash validation of `readCacheEntry`; and conversely every
full-size record of the file that passes the hash validation is in the store,
whatever its stage keys: the hash is the only check made on a record, so a
record whose vertex-stage and compute-stage keys are both null is loaded with
these null keys. -/
theorem C16_primary_stage (E : Externals) (hpos : 0 < E.entrySize)
    (file : Option (List Byte)) (canWrite : Bool) (ops : List CacheOp) :
    (∀ e ∈ ((DxvkStateCache.openCache E file canWrite).cache.applyAll E ops).m_writerQueue,
      e.shaders.vs ≠ g_nullShaderKey ∨ e.shaders.cs ≠ g_nullShaderKey)
    ∧ (∀ e ∈ ((DxvkStateCache.openCache E file canWrite).cache.applyAll E ops).m_entries,
        ∃ (hdr : List Byte) (blocks : List (List Byte)) (tail : List Byte),
          file = some (hdr ++ (blocks.flatten ++ tail))
          ∧ hdr.length = E.headerSize ∧ E.headerAccepted hdr = true
          ∧ (∀ b ∈ blocks, b.length = E.entrySize) ∧ tail.length < E.entrySize
          ∧ ∃ block ∈ blocks, E.validBlock block = true
              ∧ e.descriptor = (E.entryOfBytes block).descriptor)
    ∧ (∀ (hdr : List Byte) (blocks : List (List Byte)) (tail : List Byte),
        file = some (hdr ++ (blocks.flatten ++ tail)) →
        hdr.length = E.headerSize → E.headerAccepted hdr = true →
        (∀ b ∈ blocks, b.length = E.entrySize) → tail.length < E.entrySize →
        ∀ block ∈ blocks, E.validBlock block = true →
          ∃ e ∈ ((DxvkStateCache.openCache E file canWrite).cache.applyAll E ops).m_entries,
            e.descriptor = (E.entryOfBytes block).descriptor
            ∧ ((E.entryOfBytes block).shaders.vs = g_nullShaderKey →
                (E.entryOfBytes block).shaders.cs = g_nullShaderKey →
                e.shaders.vs = g_nullShaderKey ∧ e.shaders.cs = g_nullShaderKey)) := by
  refine ⟨reachable_writerQueue E _
    (reachable_applyAll E ops _ (Reachable.construct file canWrite)), ?_, ?_⟩
  · intro e he
    rw [applyAll_entries] at he
    rcases readCacheFile_cases E hpos {} file with ⟨hrej, _⟩ | ⟨hdr, blocks, tail, rfl, hlen,
        hacc, hfull, htail, _⟩
    · rw [openCache_rejected E file canWrite hrej] at he
      cases he
    · have hd := openCache_blocks E hpos canWrite hdr blocks tail hlen hacc hfull htail
      have hmem : e.descriptor ∈ (blocks.filter E.validBlock).map
          (fun b => (E.entryOfBytes b).descriptor) := by
        rw [← hd]
        exact List.mem_map_of_mem _ he
      obtain ⟨block, hb, hbe⟩ := List.mem_map.1 hmem
      rw [List.mem_filter] at hb
      exact ⟨hdr, blocks, tail, rfl, hlen, hacc, hfull, htail, block, hb.1, hb.2, hbe.symm⟩
  · intro hdr blocks tail hfile hlen hacc hfull htail block hb hv
    subst hfile
    rw [applyAll_entries]
    have hd := openCache_blocks E hpos canWrite hdr blocks tail hlen hacc hfull htail
    have hmem : (E.entryOfBytes block).descriptor
        ∈ (DxvkStateCache.openCache E (some (hdr ++ (blocks.flatten ++ tail)))
            canWrite).cache.m_entries.map DxvkStateCacheEntry.descriptor := by
      rw [hd]
      exact List.mem_map.2 ⟨block, List.mem_filter.2 ⟨hb, hv⟩, rfl⟩
    obtain ⟨e, he, hed⟩ := List.mem_map.1 hmem
    refine ⟨e, he, hed, fun h1 h2 => ?_⟩
    have hs : e.shaders = (E.entryOfBytes block).shaders := congrArg (fun d => d.1) hed
    rw [hs]
    exact ⟨h1, h2⟩

/-- Witness of C16 (as amended): the state after the constructor loaded a file
and `addGraphicsPipeline` enqueued an entry. -/
theorem C16_primary_stage_witness :
    0 < sampleExternals.entrySize
    ∧ ∀ e ∈ ((DxvkStateCache.openCache sampleExternals
          (some (sampleExternals.fileOf sampleBlocks)) true).cache.applyAll sampleExternals
          [CacheOp.addGraphicsPipeline sampleKey (DxvkGraphicsPipelineStateInfo.mk 9)
            (DxvkRenderPassFormat.mk 4)]).m_writerQueue,
        e.shaders.vs ≠ g_nullShaderKey ∨ e.shaders.cs ≠ g_nullShaderKey :=
  ⟨by decide,
   (C16_primary_stage sampleExternals (by decide)
      (some (sampleExternals.fileOf sampleBlocks)) true
      [CacheOp.addGraphicsPipeline sampleKey (DxvkGraphicsPipelineStateInfo.mk 9)
        (DxvkRenderPassFormat.mk 4)]).1⟩

/-- C16 fails as stated: a file that holds one record whose vertex-stage and
compute-stage keys are both null, with a valid hash, is accepted by
`readCacheFile` (result true, no invalid record), and the state the constructor
reaches holds this record in its entry store. -/
theorem C16_counterexample :
    Reachable sampleExternals
        (DxvkStateCache.openCache sampleExternals
          (some (sampleExternals.fileOf
            [sampleExternals.entryBytes (sampleExternals.written sampleNullPrimary)]))
          true).cache
    ∧ sampleNullPrimary.shaders.vs = g_nullShaderKey
    ∧ sampleNullPrimary.shaders.cs = g_nullShaderKey
    ∧ DxvkStateCache.readCacheFile sampleExternals {}
        (some (sampleExternals.fileOf
          [sampleExternals.entryBytes (sampleExternals.written sampleNullPrimary)]))
      = { ok := true, numInvalidEntries := 0,
          cache := DxvkStateCache.indexEntry {} sampleNullPrimary }
    ∧ (DxvkStateCache.openCache sampleExternals
          (some (sampleExternals.fileOf
            [sampleExternals.entryBytes (sampleExternals.written sampleNullPrimary)]))
          true).cache.m_entries = [sampleNullPrimary] :=
  ⟨Reachable.construct _ _, by decide, by decide, by decide, by decide⟩

theorem mem_entryPairs (K : DxvkStateCacheKey) (es : List DxvkStateCacheEntry) :
    ∀ (n i : Nat), (K, i) ∈ entryPairs n es ↔
      n ≤ i ∧ ∃ e, es[i - n]? = some e ∧ e.shaders = K := by
  induction es with
  | nil => intro n i; simp [entryPairs]
  | cons x xs ih =>
    intro n i
    rw [entryPairs, List.mem_cons, ih]
    constructor
    · rintro (h | ⟨hle, e, he, hk⟩)
      · simp only [Prod.mk.injEq] at h
        obtain ⟨rfl, rfl⟩ := h
        exact ⟨Nat.le_refl _, x, by simp, rfl⟩
      · refine ⟨by omega, e, ?_, hk⟩
        have : i - n = (i - (n + 1)) + 1 := by omega
        rw [this, List.getElem?_cons_succ]
        exact he
    · rintro ⟨hle, e, he, hk⟩
      by_cases hin : i = n
      · subst hin
        simp only [Nat.sub_self, List.getElem?_cons_zero, Option.some.injEq] at he
        subst he
        exact Or.inl (by rw [hk])
      · right
        refine ⟨by omega, e, ?_, hk⟩
        have : i - n = (i - (n + 1)) + 1 := by omega
        rw [this, List.getElem?_cons_succ] at he
        exact he

theorem mem_pipelinePairs (s : DxvkShaderKey) (K k : DxvkStateCacheKey) :
    (s, K) ∈ pipelinePairs k ↔ K = k ∧ s ∈ k.slots ∧ s ≠ g_nullShaderKey := by
  unfold pipelinePairs
  rw [List.mem_flatMap]
  constructor
  · rintro ⟨t, ht, hmem⟩
    split at hmem
    · rename_i hn
      simp only [List.mem_singleton, Prod.mk.injEq] at hmem
      obtain ⟨rfl, rfl⟩ := hmem
      refine ⟨rfl, ht, ?_⟩
      intro hc
      rw [(shaderKey_eq_iff _ _).2 hc] at hn
      cases hn
    · cases hmem
  · rintro ⟨rfl, hs, hn⟩
    refine ⟨s, hs, ?_⟩
    rw [(shaderKey_eq_false_iff _ _).2 hn]
    simp

/-- C15: in every reachable cache state the combination index is the list of
pairs (shaders of the entry, position) of the entry sequence, one pair for
every position: it holds `(K, i)` exactly when the entry at position `i` has
shaders `K`, and holds no pair twice; and the shader index is the list of the
pairs made for every stored entry and every non-null stage slot of it: it
relates `s` to `K` exactly when `s` is not the null key and occupies a slot of
`K`, and some stored entry has shaders `K`. Since this holds after every
operation, no operation changes the entry sequence without keeping both
indexes in step. -/
theorem C15_index_consistency (E : Externals) (c : DxvkStateCache)
    (hr : Reachable E c) :
    c.m_entryMap = entryPairs 0 c.m_entries
    ∧ c.m_pipelineMap = c.m_entries.flatMap (fun e => pipelinePairs e.shaders)
    ∧ (∀ (K : DxvkStateCacheKey) (i : Nat),
        (K, i) ∈ c.m_entryMap ↔ ∃ e, c.m_entries[i]? = some e ∧ e.shaders = K)
    ∧ c.m_entryMap.Nodup
    ∧ (∀ (s : DxvkShaderKey) (K : DxvkStateCacheKey),
        (s, K) ∈ c.m_pipelineMap ↔
          s ≠ g_nullShaderKey ∧ s ∈ K.slots ∧ ∃ e ∈ c.m_entries, e.shaders = K) := by
  obtain ⟨h1, h2, _⟩ := reachable_indexed E c hr
  refine ⟨h1, h2, ?_, ?_, ?_⟩
  · intro K i
    rw [h1, mem_entryPairs]
    simp
  · apply List.Nodup.of_map Prod.snd
    rw [h1, entryPairs_snd]
    exact List.nodup_range' _ _
  · intro s K
    rw [h2, List.mem_flatMap]
    constructor
    · rintro ⟨e, he, hmem⟩
      obtain ⟨hk, hs, hn⟩ := (mem_pipelinePairs s K e.shaders).1 hmem
      exact ⟨hn, hk ▸ hs, e, he, hk.symm⟩
    · rintro ⟨hn, hs, e, he, hk⟩
      exact ⟨e, he, (mem_pipelinePairs s K e.shaders).2 ⟨hk.symm, hk ▸ hs, hn⟩⟩

/-- Witness of C15: the state after the constructor loaded a file and a shader
was registered. -/
theorem C15_index_consistency_witness :
    Reachable sampleExternals
        ((DxvkStateCache.openCache sampleExternals
          (some (sampleExternals.fileOf sampleBlocks)) true).cache.registerShader
          (sampleShader 2))
    ∧ ((DxvkStateCache.openCache sampleExternals
          (some (sampleExternals.fileOf sampleBlocks)) true).cache.registerShader
          (sampleShader 2)).m_entryMap
        = entryPairs 0 ((DxvkStateCache.openCache sampleExternals
          (some (sampleExternals.fileOf sampleBlocks)) true).cache.registerShader
          (sampleShader 2)).m_entries :=
  ⟨Reachable.registerShader _ _ (Reachable.construct _ _),
   (C15_index_consistency sampleExternals _
      (Reachable.registerShader _ _ (Reachable.construct _ _))).1⟩

/-! ### Worker sizing and the cache file name -/

/-- The product `numCpuCores * 3` leaves the range of `uint32_t` from the core
count 1431655766 on; there it wraps and the result is no longer three-quarters
of the count. -/
theorem numWorkers_wraps :
    1431655765 * 3 < 2 ^ 32
    ∧ ¬ 1431655766 * 3 < 2 ^ 32
    ∧ numWorkers 1431655766 = 1 := by
  decide

theorem findLastOf_not_mem (c : Char) (s : List Char) (h : c ∉ s) :
    findLastOf s c = none := by
  induction s with
  | nil => rfl
  | cons x xs ih =>
    rw [List.mem_cons, not_or] at h
    rw [findLastOf, ih h.2]
    simp only
    rw [if_neg (fun hc => h.1 hc.symm)]

theorem findLastOf_append (c : Char) (rest : List Char) (h : c ∉ rest)
    (base : List Char) : findLastOf (base ++ c :: rest) c = some base.length := by
  induction base with
  | nil =>
    rw [List.nil_append, findLastOf, findLastOf_not_mem c rest h]
    simp
  | cons x xs ih =>
    rw [List.cons_append, findLastOf, ih]
    rfl

theorem findLastOf_split (c : Char) (s : List Char) :
    ∀ p : Nat, findLastOf s c = some p → s.take p ++ c :: s.drop (p + 1) = s := by
  induction s with
  | nil => intro p h; cases h
  | cons x xs ih =>
    intro p h
    rw [findLastOf] at h
    cases hf : findLastOf xs c with
    | some i =>
      rw [hf] at h
      simp only [Option.some.injEq] at h
      subst h
      rw [List.take_succ_cons, List.drop_succ_cons, List.cons_append, ih i hf]
    | none =>
      rw [hf] at h
      simp only at h
      split at h
      · rename_i hx
        simp only [Option.some.injEq] at h
        subst h
        subst hx
        rfl
      · cases h

theorem cacheDirectory_eq (path : List Char) :
    (if !path.isEmpty && path.getLast? != some '/' then path ++ ['/'] else path)
      = cacheDirectory path := by
  unfold cacheDirectory
  cases path with
  | nil => simp
  | cons x xs =>
    by_cases h : (x :: xs).getLast? = some '/'
    · simp [h]
    · simp [h]

/-- C18 (as amended): `getCacheFileName` returns the cache directory (followed
by a slash when it is not empty and does not end in one), then the executable
name, from which a final `.exe` is removed when there is one and which is left
as it is otherwise, then the suffix `.dxvk-cache`. -/
theorem C18_cache_file_name (path exeName : List Char) :
    (∀ base : List Char, exeName = base ++ ['.', 'e', 'x', 'e'] →
      getCacheFileName path exeName
        = cacheDirectory path
          ++ (base ++ ['.', 'd', 'x', 'v', 'k', '-', 'c', 'a', 'c', 'h', 'e']))
    ∧ ((¬ ∃ base : List Char, exeName = base ++ ['.', 'e', 'x', 'e']) →
      getCacheFileName path exeName
        = cacheDirectory path
          ++ (exeName ++ ['.', 'd', 'x', 'v', 'k', '-', 'c', 'a', 'c', 'h', 'e'])) := by
  constructor
  · rintro base rfl
    unfold getCacheFileName
    simp only [cacheDirectory_eq]
    rw [findLastOf_append '.' ['e', 'x', 'e'] (by decide) base]
    simp
  · intro hno
    unfold getCacheFileName
    simp only [cacheDirectory_eq]
    cases hf : findLastOf exeName '.' with
    | none => rfl
    | some p =>
      simp only
      split
      · rename_i hd
        exfalso
        apply hno
        refine ⟨exeName.take p, ?_⟩
        have := findLastOf_split '.' exeName p hf
        rw [hd] at this
        exact this.symm
      · rfl

/-- C18 fails as stated: for the executable name `game.bin` and no cache
directory the file name is `game.bin.dxvk-cache`; the extension `bin` is not
stripped. -/
theorem C18_counterexample :
    getCacheFileName "".toList "game.bin".toList = "game.bin.dxvk-cache".toList
    ∧ getCacheFileName "".toList "game.bin".toList ≠ "game.dxvk-cache".toList := by
  decide

/-! ### Compilation of a work item, and a truncated cache file -/

/-- C22: for a file made of the header of the current build, full-size records
that all pass the hash validation, and a final fragment shorter than one
record, `readCacheFile` loads one entry per record, in order, counts no invalid
record and returns true. The constructor then keeps the file as it is (it is
opened in append mode), and in every run of the writer the output stream holds
the old file, fragment included, followed by the records written since. -/
theorem C22_truncated_tail (E : Externals) (blocks : List (List Byte)) (tail : List Byte)
    (hpos : 0 < E.entrySize) (hhdr : E.HeaderFaithful)
    (hfull : ∀ b ∈ blocks, b.length = E.entrySize)
    (hvalid : ∀ b ∈ blocks, E.validBlock b = true)
    (htail : tail.length < E.entrySize) :
    DxvkStateCache.readCacheFile E {} (some (E.fileOf blocks ++ tail))
        = { ok := true, numInvalidEntries := 0,
            cache := DxvkStateCache.indexAll {} (blocks.map E.loaded) }
    ∧ (DxvkStateCache.indexAll {} (blocks.map E.loaded)).m_entries = blocks.map E.loaded
    ∧ (DxvkStateCache.openCache E (some (E.fileOf blocks ++ tail)) true).newFile = false
    ∧ (DxvkStateCache.openCache E (some (E.fileOf blocks ++ tail)) true).file
        = some (E.fileOf blocks ++ tail)
    ∧ ∀ acts : List WriterAction,
        ((WriterState.init
            (DxvkStateCache.openCache E (some (E.fileOf blocks ++ tail)) true).file).run
            E acts).m_writerFile
          = some (E.fileOf blocks ++ tail
              ++ (((WriterState.init
                  (DxvkStateCache.openCache E (some (E.fileOf blocks ++ tail))
                    true).file).run E acts).taken.map
                (fun e => E.entryBytes (E.written e))).flatten) := by
  have hread : DxvkStateCache.readCacheFile E {} (some (E.fileOf blocks ++ tail))
      = { ok := true, numInvalidEntries := 0,
          cache := DxvkStateCache.indexAll {} (blocks.map E.loaded) } := by
    rw [readCacheFile_fileOf E hpos hhdr {} blocks tail hfull htail]
    have hfilter : blocks.filter E.validBlock = blocks := List.filter_eq_self.2 hvalid
    have hcount : blocks.countP (fun b => !E.validBlock b) = 0 := by
      rw [List.countP_eq_zero]
      intro b hb
      simp [hvalid b hb]
    rw [hfilter, hcount]
    rfl
  have hok : (DxvkStateCache.readCacheFile E {} (some (E.fileOf blocks ++ tail))).ok
      = true := by rw [hread]
  have hopen := openCache_keep E (some (E.fileOf blocks ++ tail)) hok
  refine ⟨hread, by rw [indexAll_entries]; rfl, by rw [hopen], by rw [hopen], ?_⟩
  intro acts
  rw [hopen]
  exact (writerInv_run E (some (E.fileOf blocks ++ tail)) acts _
    (writerInv_init E _)).2.1

/-- Witness of C22: two written records followed by three stray bytes. -/
theorem C22_truncated_tail_witness :
    (0 < sampleExternals.entrySize ∧ sampleExternals.HeaderFaithful
      ∧ (∀ b ∈ sampleDupBlocks, b.length = sampleExternals.entrySize)
      ∧ (∀ b ∈ sampleDupBlocks, sampleExternals.validBlock b = true)
      ∧ [(1 : Byte), 2, 3].length < sampleExternals.entrySize)
    ∧ DxvkStateCache.readCacheFile sampleExternals {}
        (some (sampleExternals.fileOf sampleDupBlocks ++ [1, 2, 3]))
      = { ok := true, numInvalidEntries := 0,
          cache := DxvkStateCache.indexAll {} (sampleDupBlocks.map sampleExternals.loaded) } :=
  ⟨⟨by decide, by unfold Externals.HeaderFaithful; decide, by decide, by decide, by decide⟩,
   (C22_truncated_tail sampleExternals sampleDupBlocks [1, 2, 3] (by decide)
      (by unfold Externals.HeaderFaithful; decide) (by decide) (by decide) (by decide)).1⟩

/-! ### Blend state -/

theorem normalizeTarget0_both_enabled (ibe : BOOL) (rt : D3D11_RENDER_TARGET_BLEND_DESC1)
    (hb : rt.BlendEnable ≠ 0) (hl : rt.LogicOpEnable ≠ 0) :
    ∃ rt', D3D11BlendState.normalizeTarget0 ibe rt = .error rt' := by
  unfold D3D11BlendState.normalizeTarget0 D3D11BlendState.normalizeBlendEnable
  simp only [hb, ne_eq, not_false_eq_true, if_true]
  split_ifs
  · exact ⟨_, rfl⟩
  · exact ⟨_, rfl⟩
  · exact ⟨_, rfl⟩
  · simp only [D3D11BlendState.normalizeLogicOpEnable, hl, ne_eq, not_false_eq_true, if_true]
    exact ⟨_, rfl⟩

theorem normalizeFlags_target (d : D3D11_BLEND_DESC1) :
    (D3D11BlendState.normalizeFlags d).RenderTarget = d.RenderTarget := by
  rcases d with ⟨a, i, rt⟩
  unfold D3D11BlendState.normalizeFlags
  by_cases ha : a = 0 <;> by_cases hi : i = 0 <;> simp [ha, hi]

/-- C23: when render target 0 of a blend descriptor has `BlendEnable` and
`LogicOpEnable` both different from zero, whatever their values,
`NormalizeDesc` returns `E_INVALIDARG`. -/
theorem C23_blend_and_logic_op (d : D3D11_BLEND_DESC1)
    (hb : (d.RenderTarget 0).BlendEnable ≠ 0) (hl : (d.RenderTarget 0).LogicOpEnable ≠ 0) :
    (D3D11BlendState.NormalizeDesc d).1 = HRESULT.E_INVALIDARG := by
  unfold D3D11BlendState.NormalizeDesc D3D11BlendState.normalizeTargets
  obtain ⟨rt', h⟩ := normalizeTarget0_both_enabled
    (D3D11BlendState.normalizeFlags d).IndependentBlendEnable
    ((D3D11BlendState.normalizeFlags d).RenderTarget 0)
    (by rw [normalizeFlags_target]; exact hb) (by rw [normalizeFlags_target]; exact hl)
  rw [h]

/-- Witness of C23: blending enabled with the value 7 and the logic op enabled
with the value 2. -/
theorem C23_blend_and_logic_op_witness :
    ((sampleBlendLogicDesc.RenderTarget 0).BlendEnable ≠ 0
      ∧ (sampleBlendLogicDesc.RenderTarget 0).LogicOpEnable ≠ 0)
    ∧ (D3D11BlendState.NormalizeDesc sampleBlendLogicDesc).1 = HRESULT.E_INVALIDARG :=
  ⟨⟨by decide, by decide⟩, C23_blend_and_logic_op sampleBlendLogicDesc (by decide) (by decide)⟩

/-- C26: for a blend descriptor with `IndependentBlendEnable` zero, each of the
eight blend modes stored by the constructor is the decoded mode of render target
0, `BindToContext` sets that mode on the slots 0 to 7, and a descriptor that
differs only in render targets 1 to 7 gives the same modes. -/
theorem C26_shared_blend_mode (desc : D3D11_BLEND_DESC1)
    (h : desc.IndependentBlendEnable = 0) :
    (∀ i : Fin 8, D3D11BlendState.construct desc i
        = D3D11BlendState.DecodeBlendMode (desc.RenderTarget 0))
    ∧ (∀ i j : Fin 8, D3D11BlendState.construct desc i = D3D11BlendState.construct desc j)
    ∧ D3D11BlendState.BindToContext (D3D11BlendState.construct desc)
        = (List.range 8).map
            (fun i => (i, D3D11BlendState.DecodeBlendMode (desc.RenderTarget 0)))
    ∧ (∀ other : D3D11_BLEND_DESC1, other.IndependentBlendEnable = 0 →
        other.RenderTarget 0 = desc.RenderTarget 0 →
        D3D11BlendState.construct other = D3D11BlendState.construct desc) := by
  have hall : ∀ (d : D3D11_BLEND_DESC1), d.IndependentBlendEnable = 0 → ∀ i : Fin 8,
      D3D11BlendState.construct d i = D3D11BlendState.DecodeBlendMode (d.RenderTarget 0) := by
    intro d hd i
    simp [D3D11BlendState.construct, hd]
  refine ⟨hall desc h, fun i j => by rw [hall desc h i, hall desc h j], ?_, ?_⟩
  · unfold D3D11BlendState.BindToContext
    simp only [hall desc h]
    rfl
  · intro other ho h0
    funext i
    rw [hall other ho i, hall desc h i, h0]

/-- Witness of C26: render targets 1 to 7 of the sample differ from render
target 0, the stored mode of slot 5 is that of render target 0. -/
theorem C26_shared_blend_mode_witness :
    sampleBlendDesc.IndependentBlendEnable = 0
    ∧ sampleBlendDesc.RenderTarget 5 ≠ sampleBlendDesc.RenderTarget 0
    ∧ D3D11BlendState.construct sampleBlendDesc 5
        = D3D11BlendState.DecodeBlendMode (sampleBlendDesc.RenderTarget 0) :=
  ⟨by decide, by decide, (C26_shared_blend_mode sampleBlendDesc (by decide)).1 5⟩

/-- C25: the validator accepts the values 12 and 13, which lie between the
enumerators `D3D11_BLEND_SRC_ALPHA_SAT` and `D3D11_BLEND_BLEND_FACTOR`, and the
decoder has no case for them. `NormalizeDesc` returns `S_OK` for an enabled
render target 0 with the source factor 12 and leaves the factor in place;
`DecodeBlendFactor` then reaches the fallback, logs the error and returns
`VK_BLEND_FACTOR_ZERO`. These two values are the only ones that `ValidBlend`
accepts and the decoder logs as invalid. -/
theorem C25_validator_decoder_gap :
    D3D11BlendState.ValidBlend 12 = true
    ∧ D3D11BlendState.DecodeBlendFactor 12 false
        = { value := VkBlendFactor.VK_BLEND_FACTOR_ZERO, loggedError := true }
    ∧ (D3D11BlendState.NormalizeDesc sampleGapDesc).1 = HRESULT.S_OK
    ∧ ((D3D11BlendState.NormalizeDesc sampleGapDesc).2.RenderTarget 0).BlendEnable = 1
    ∧ ((D3D11BlendState.NormalizeDesc sampleGapDesc).2.RenderTarget 0).SrcBlend = 12
    ∧ (D3D11BlendState.construct (D3D11BlendState.NormalizeDesc sampleGapDesc).2 0).colorSrcFactor
        = VkBlendFactor.VK_BLEND_FACTOR_ZERO
    ∧ ∀ (b : Int) (isAlpha : Bool), D3D11BlendState.ValidBlend b = true →
        ((D3D11BlendState.DecodeBlendFactor b isAlpha).loggedError = true ↔ b = 12 ∨ b = 13) := by
  refine ⟨by decide, by decide, by decide, by decide, by decide, by decide, ?_⟩
  intro b isAlpha hb
  have hrange : 1 ≤ b ∧ b ≤ 19 := by
    unfold D3D11BlendState.ValidBlend D3D11_BLEND_ZERO D3D11_BLEND_INV_SRC1_ALPHA at hb
    split_ifs at hb with h
    omega
  obtain ⟨h1, h2⟩ := hrange
  interval_cases b <;> cases isAlpha <;> decide

/-! ### Multisample check and colour space -/

/-- C27, counterexample: with a valid adapter and the device type HAL, the
multisample type 16 is not above 16 and is a power of two, yet the result is
`D3DERR_NOTAVAILABLE`, not `D3D_OK`. -/
theorem C27_counterexample :
    (Direct3D9.mk 1).ValidAdapter 0 = true
    ∧ (∃ k : Nat, (16 : Int) = 2 ^ k)
    ∧ Direct3D9.CheckDeviceMultiSampleType (Direct3D9.mk 1) 0 D3DDEVTYPE_HAL 16 (some 0)
        = (HRESULT.D3DERR_NOTAVAILABLE, some 1) :=
  ⟨by decide, ⟨4, by norm_num⟩, by decide⟩

/-- C27, amended: with a valid adapter and the device type HAL,
`CheckDeviceMultiSampleType` returns `D3DERR_INVALIDCALL` for a multisample type
above 16; up to 16 it returns `D3D_OK` exactly for the types 1, 2, 4 and 8, the
powers of two up to 8, and `D3DERR_NOTAVAILABLE` for every other type, 16
included. In all these cases a non-null `pQualityLevels` is set to 1 and a null
one stays null. -/
theorem C27_multisample_type (self : Direct3D9) (Adapter : Nat) (MultiSampleType : Int)
    (pQualityLevels : Option Nat) (hadapter : self.ValidAdapter Adapter = true) :
    (Direct3D9.CheckDeviceMultiSampleType self Adapter D3DDEVTYPE_HAL MultiSampleType
        pQualityLevels).2 = pQualityLevels.map (fun _ => 1)
    ∧ (16 < MultiSampleType →
        (Direct3D9.CheckDeviceMultiSampleType self Adapter D3DDEVTYPE_HAL MultiSampleType
          pQualityLevels).1 = HRESULT.D3DERR_INVALIDCALL)
    ∧ (MultiSampleType ≤ 16 →
        ((Direct3D9.CheckDeviceMultiSampleType self Adapter D3DDEVTYPE_HAL MultiSampleType
            pQualityLevels).1 = D3D_OK
          ↔ (∃ k : Nat, MultiSampleType = 2 ^ k) ∧ MultiSampleType ≤ 8)
        ∧ ((Direct3D9.CheckDeviceMultiSampleType self Adapter D3DDEVTYPE_HAL MultiSampleType
            pQualityLevels).1 = HRESULT.D3DERR_NOTAVAILABLE
          ↔ ¬ ((∃ k : Nat, MultiSampleType = 2 ^ k) ∧ MultiSampleType ≤ 8))) := by
  have hpow : ((∃ k : Nat, MultiSampleType = 2 ^ k) ∧ MultiSampleType ≤ 8)
      ↔ (MultiSampleType = 1 ∨ MultiSampleType = 2 ∨ MultiSampleType = 4
          ∨ MultiSampleType = 8) := by
    constructor
    · rintro ⟨⟨k, hk⟩, h8⟩
      have hk4 : k < 4 := by
        by_contra hge
        have : (2 : Int) ^ 4 ≤ 2 ^ k := pow_le_pow_right₀ (by norm_num) (by omega)
        omega
      interval_cases k <;> simp_all
    · rintro (h | h | h | h)
      · exact ⟨⟨0, by rw [h]; norm_num⟩, by omega⟩
      · exact ⟨⟨1, by rw [h]; norm_num⟩, by omega⟩
      · exact ⟨⟨2, by rw [h]; norm_num⟩, by omega⟩
      · exact ⟨⟨3, by rw [h]; norm_num⟩, by omega⟩
  rw [hpow]
  unfold Direct3D9.CheckDeviceMultiSampleType
  simp only [hadapter, Bool.not_true, Bool.false_eq_true, if_false, ne_eq, not_true_eq_false]
  refine ⟨by split_ifs <;> rfl, fun h => by simp [h], fun h => ?_⟩
  have h16 : ¬ MultiSampleType > 16 := by omega
  simp only [h16, if_false]
  by_cases hc : MultiSampleType = 1 ∨ MultiSampleType = 2 ∨ MultiSampleType = 4
      ∨ MultiSampleType = 8
  · simp [hc]
  · simp [hc]

/-- Witness of C27: the multisample type 4 on the only adapter. -/
theorem C27_multisample_type_witness :
    (Direct3D9.mk 1).ValidAdapter 0 = true
    ∧ (Direct3D9.CheckDeviceMultiSampleType (Direct3D9.mk 1) 0 D3DDEVTYPE_HAL 4 (some 0)).2
        = (some 0).map (fun _ => 1) :=
  ⟨by decide, (C27_multisample_type (Direct3D9.mk 1) 0 4 (some 0) (by decide)).1⟩

theorem puntColorSpace_options (self : DxgiMonitorInfo) (cs : Nat) :
    (self.PuntColorSpace cs).m_options = self.m_options := by
  unfold DxgiMonitorInfo.PuntColorSpace
  split_ifs <;> rfl

theorem puntColorSpace_current (self : DxgiMonitorInfo) (cs : Nat) :
    (self.PuntColorSpace cs).CurrentColorSpace
      = if self.m_options.enableHDR then self.CurrentColorSpace else cs := by
  unfold DxgiMonitorInfo.PuntColorSpace DxgiMonitorInfo.DefaultColorSpace
    DxgiMonitorInfo.CurrentColorSpace
  cases h : self.m_options.enableHDR <;>
    simp [DXGI_COLOR_SPACE_RGB_FULL_G22_NONE_P709, DXGI_COLOR_SPACE_RGB_FULL_G2084_NONE_P2020]

theorem puntColorSpace_foldl_options (calls : List Nat) (self : DxgiMonitorInfo) :
    (calls.foldl DxgiMonitorInfo.PuntColorSpace self).m_options = self.m_options := by
  induction calls generalizing self with
  | nil => rfl
  | cons c cs ih => rw [List.foldl_cons, ih, puntColorSpace_options]

/-- C28: for a monitor information object created with the given options and
any sequence of `PuntColorSpace` calls made on it afterwards,
`CurrentColorSpace` returns the HDR10 colour space when HDR is enabled;
when HDR is disabled it returns the argument of the last call, and sRGB when
no call was made. -/
theorem C28_colour_space_punting (options : DxgiOptions) (calls : List Nat) :
    (calls.foldl DxgiMonitorInfo.PuntColorSpace
        (DxgiMonitorInfo.construct options)).CurrentColorSpace
      = (if options.enableHDR then DXGI_COLOR_SPACE_RGB_FULL_G2084_NONE_P2020
         else calls.getLast?.getD DXGI_COLOR_SPACE_RGB_FULL_G22_NONE_P709) := by
  induction calls using List.reverseRecOn with
  | nil =>
    cases h : options.enableHDR <;>
      simp [DxgiMonitorInfo.construct, DxgiMonitorInfo.CurrentColorSpace,
        DxgiMonitorInfo.DefaultColorSpace, h]
  | append_singleton cs c ih =>
    rw [List.foldl_append, List.foldl_cons, List.foldl_nil, puntColorSpace_current,
      puntColorSpace_foldl_options, ih]
    have hopt : (DxgiMonitorInfo.construct options).m_options = options := rfl
    rw [hopt]
    cases h : options.enableHDR <;> simp

/-! ### Idempotence of `NormalizeDesc` -/

section BlendNormalize

open D3D11BlendState

theorem normalizeBlendEnable_eq (rt : D3D11_RENDER_TARGET_BLEND_DESC1) :
    normalizeBlendEnable rt
      = if rt.BlendEnable ≠ 0 ∧ (rt.LogicOpEnable = 1 ∨ validBlendFields rt = false) then
          .error { rt with BlendEnable := 1 }
        else .ok { rt with BlendEnable := if rt.BlendEnable ≠ 0 then 1 else 0 } := by
  rcases rt with ⟨be, le, sb, db, bo, sba, dba, boa, lo, wm⟩
  unfold normalizeBlendEnable validBlendFields
  by_cases hb : be = 0
  · subst hb
    simp
  · by_cases h1 : le = 1
    · simp [hb, h1]
    · cases h2 : ValidBlendOp bo <;> cases h3 : ValidBlendOp boa <;>
        cases h4 : ValidBlend sb <;> cases h5 : ValidBlendAlpha sba <;>
        cases h6 : ValidBlend db <;> cases h7 : ValidBlendAlpha dba <;>
        simp [hb, h1, h2, h3, h4, h5, h6, h7]

theorem normalizeLogicOpEnable_eq (ibe : BOOL) (rt : D3D11_RENDER_TARGET_BLEND_DESC1) :
    normalizeLogicOpEnable ibe rt
      = if rt.LogicOpEnable ≠ 0
            ∧ (rt.BlendEnable = 1 ∨ ibe = 1 ∨ ValidLogicOp rt.LogicOp = false) then
          .error { rt with LogicOpEnable := 1 }
        else .ok { rt with LogicOpEnable := if rt.LogicOpEnable ≠ 0 then 1 else 0 } := by
  rcases rt with ⟨be, le, sb, db, bo, sba, dba, boa, lo, wm⟩
  unfold normalizeLogicOpEnable
  by_cases hl : le = 0
  · subst hl
    simp
  · by_cases h1 : be = 1 <;> by_cases h2 : ibe = 1 <;> cases h3 : ValidLogicOp lo <;>
      simp [hl, h1, h2, h3]

theorem normalizeDefaults_eq (rt : D3D11_RENDER_TARGET_BLEND_DESC1) :
    normalizeDefaults rt
      = if rt.RenderTargetWriteMask > D3D11_COLOR_WRITE_ENABLE_ALL then
          .error { (if rt.BlendEnable = 0 then assignDefaultBlend rt else rt) with
            LogicOp := if rt.LogicOpEnable = 0 then (DefaultDesc.RenderTarget 0).LogicOp
              else rt.LogicOp }
        else
          .ok { (if rt.BlendEnable = 0 then assignDefaultBlend rt else rt) with
            LogicOp := if rt.LogicOpEnable = 0 then (DefaultDesc.RenderTarget 0).LogicOp
              else rt.LogicOp } := by
  rcases rt with ⟨be, le, sb, db, bo, sba, dba, boa, lo, wm⟩
  unfold normalizeDefaults assignDefaultBlend
  by_cases hb : be = 0 <;> by_cases hl : le = 0 <;>
    by_cases hm : wm > D3D11_COLOR_WRITE_ENABLE_ALL <;> simp [hb, hl, hm]

theorem normalizeTarget0_ok_iff (ibe : BOOL) (rt r : D3D11_RENDER_TARGET_BLEND_DESC1) :
    normalizeTarget0 ibe rt = .ok r
      ↔ ∃ r1 r2, normalizeBlendEnable rt = .ok r1 ∧ normalizeLogicOpEnable ibe r1 = .ok r2
          ∧ normalizeDefaults r2 = .ok r := by
  unfold normalizeTarget0
  rcases h1 : normalizeBlendEnable rt with e1 | r1
  · simp
  · rcases h2 : normalizeLogicOpEnable ibe r1 with e2 | r2
    · simp [h2]
    · simp [h2]

theorem normalizeBlendEnable_ok_iff (rt r : D3D11_RENDER_TARGET_BLEND_DESC1) :
    normalizeBlendEnable rt = .ok r
      ↔ ¬ (rt.BlendEnable ≠ 0 ∧ (rt.LogicOpEnable = 1 ∨ validBlendFields rt = false))
        ∧ r = { rt with BlendEnable := if rt.BlendEnable ≠ 0 then 1 else 0 } := by
  rw [normalizeBlendEnable_eq]
  by_cases h : rt.BlendEnable ≠ 0 ∧ (rt.LogicOpEnable = 1 ∨ validBlendFields rt = false)
  · rw [if_pos h]
    exact ⟨(fun h' => by cases h'), fun h' => absurd h h'.1⟩
  · rw [if_neg h]
    exact ⟨fun h' => ⟨h, (Except.ok.inj h').symm⟩, fun h' => by rw [h'.2]⟩

theorem normalizeLogicOpEnable_ok_iff (ibe : BOOL) (rt r : D3D11_RENDER_TARGET_BLEND_DESC1) :
    normalizeLogicOpEnable ibe rt = .ok r
      ↔ ¬ (rt.LogicOpEnable ≠ 0
            ∧ (rt.BlendEnable = 1 ∨ ibe = 1 ∨ ValidLogicOp rt.LogicOp = false))
        ∧ r = { rt with LogicOpEnable := if rt.LogicOpEnable ≠ 0 then 1 else 0 } := by
  rw [normalizeLogicOpEnable_eq]
  by_cases h : rt.LogicOpEnable ≠ 0
      ∧ (rt.BlendEnable = 1 ∨ ibe = 1 ∨ ValidLogicOp rt.LogicOp = false)
  · rw [if_pos h]
    exact ⟨(fun h' => by cases h'), fun h' => absurd h h'.1⟩
  · rw [if_neg h]
    exact ⟨fun h' => ⟨h, (Except.ok.inj h').symm⟩, fun h' => by rw [h'.2]⟩

theorem normalizeDefaults_ok_iff (rt r : D3D11_RENDER_TARGET_BLEND_DESC1) :
    normalizeDefaults rt = .ok r
      ↔ ¬ rt.RenderTargetWriteMask > D3D11_COLOR_WRITE_ENABLE_ALL
        ∧ r = { (if rt.BlendEnable = 0 then assignDefaultBlend rt else rt) with
            LogicOp := if rt.LogicOpEnable = 0 then (DefaultDesc.RenderTarget 0).LogicOp
              else rt.LogicOp } := by
  rw [normalizeDefaults_eq]
  by_cases h : rt.RenderTargetWriteMask > D3D11_COLOR_WRITE_ENABLE_ALL
  · rw [if_pos h]
    exact ⟨(fun h' => by cases h'), fun h' => absurd h h'.1⟩
  · rw [if_neg h]
    exact ⟨fun h' => ⟨h, (Except.ok.inj h').symm⟩, fun h' => by rw [h'.2]⟩

theorem normalizeTarget0_idem (ibe : BOOL) (rt r : D3D11_RENDER_TARGET_BLEND_DESC1)
    (h : normalizeTarget0 ibe rt = .ok r) : normalizeTarget0 ibe r = .ok r := by
  rw [normalizeTarget0_ok_iff] at h ⊢
  obtain ⟨r1, r2, h1, h2, h3⟩ := h
  rw [normalizeBlendEnable_ok_iff] at h1
  rw [normalizeLogicOpEnable_ok_iff] at h2
  rw [normalizeDefaults_ok_iff] at h3
  obtain ⟨c1, rfl⟩ := h1
  obtain ⟨c2, rfl⟩ := h2
  obtain ⟨c3, rfl⟩ := h3
  refine ⟨_, _, (normalizeBlendEnable_ok_iff _ _).2 ⟨?_, rfl⟩,
    (normalizeLogicOpEnable_ok_iff _ _ _).2 ⟨?_, rfl⟩, (normalizeDefaults_ok_iff _ _).2 ⟨?_, ?_⟩⟩
  all_goals rcases rt with ⟨be, le, sb, db, bo, sba, dba, boa, lo, wm⟩
  all_goals simp only [validBlendFields, assignDefaultBlend] at c1 c2 c3 ⊢
  all_goals by_cases hb : be = 0 <;> by_cases hl : le = 0
  all_goals simp_all

theorem normalizeIndependent_frame (l : List (Fin 8)) (d d2 : D3D11_BLEND_DESC1)
    (h : normalizeIndependent l d = .ok d2) :
    d2.AlphaToCoverageEnable = d.AlphaToCoverageEnable
    ∧ d2.IndependentBlendEnable = d.IndependentBlendEnable
    ∧ ∀ j, j ∉ l → d2.RenderTarget j = d.RenderTarget j := by
  induction l generalizing d with
  | nil =>
    simp only [normalizeIndependent, Except.ok.injEq] at h
    subst h
    exact ⟨rfl, rfl, fun _ _ => rfl⟩
  | cons i rest ih =>
    simp only [normalizeIndependent] at h
    by_cases hm : (independentTarget (d.RenderTarget 0) (d.RenderTarget i)).RenderTargetWriteMask
        > D3D11_COLOR_WRITE_ENABLE_ALL
    · rw [if_pos hm] at h
      cases h
    · rw [if_neg hm] at h
      obtain ⟨h1, h2, h3⟩ := ih _ h
      refine ⟨h1, h2, fun j hj => ?_⟩
      rw [h3 j (fun hmem => hj (List.mem_cons_of_mem _ hmem))]
      exact Function.update_noteq (fun hji => hj (by rw [hji]; exact List.mem_cons_self _ _)) _ _

theorem independentTarget_idem (rt0 rt : D3D11_RENDER_TARGET_BLEND_DESC1) :
    independentTarget rt0 (independentTarget rt0 rt) = independentTarget rt0 rt := by
  rcases rt with ⟨be, le, sb, db, bo, sba, dba, boa, lo, wm⟩
  unfold independentTarget assignDefaultBlend
  by_cases hb : be = 0 <;> simp [hb]

theorem normalizeIndependent_idem (l : List (Fin 8)) (hl : (0 : Fin 8) ∉ l) (hnd : l.Nodup)
    (d d2 : D3D11_BLEND_DESC1) (h : normalizeIndependent l d = .ok d2) :
    normalizeIndependent l d2 = .ok d2 := by
  induction l generalizing d with
  | nil => rfl
  | cons i rest ih =>
    have hi0 : i ≠ 0 := fun hi => hl (by rw [hi]; exact List.mem_cons_self _ _)
    have hrest0 : (0 : Fin 8) ∉ rest := fun hmem => hl (List.mem_cons_of_mem _ hmem)
    have hirest : i ∉ rest := (List.nodup_cons.1 hnd).1
    simp only [normalizeIndependent] at h ⊢
    by_cases hm : (independentTarget (d.RenderTarget 0) (d.RenderTarget i)).RenderTargetWriteMask
        > D3D11_COLOR_WRITE_ENABLE_ALL
    · rw [if_pos hm] at h
      cases h
    · rw [if_neg hm] at h
      obtain ⟨-, -, h3⟩ := normalizeIndependent_frame _ _ _ h
      have e0 : d2.RenderTarget 0 = d.RenderTarget 0 := by
        rw [h3 0 hrest0]
        exact Function.update_noteq (Ne.symm hi0) _ _
      have ei : d2.RenderTarget i
          = independentTarget (d.RenderTarget 0) (d.RenderTarget i) := by
        rw [h3 i hirest]
        exact Function.update_same _ _ _
      have hfix : independentTarget (d2.RenderTarget 0) (d2.RenderTarget i)
          = d2.RenderTarget i := by
        rw [e0, ei, independentTarget_idem]
      rw [hfix, Function.update_eq_self]
      rw [ei, if_neg hm]
      exact ih hrest0 (List.nodup_cons.1 hnd).2 _ h

theorem normalizeShared_frame (l : List (Fin 8)) (hl : (0 : Fin 8) ∉ l) (d : D3D11_BLEND_DESC1) :
    (normalizeShared l d).AlphaToCoverageEnable = d.AlphaToCoverageEnable
    ∧ (normalizeShared l d).IndependentBlendEnable = d.IndependentBlendEnable
    ∧ ∀ j, (normalizeShared l d).RenderTarget j
        = if j ∈ l then sharedTarget (d.RenderTarget 0) else d.RenderTarget j := by
  induction l generalizing d with
  | nil => exact ⟨rfl, rfl, fun j => by simp [normalizeShared]⟩
  | cons i rest ih =>
    have hi0 : i ≠ 0 := fun hi => hl (by rw [hi]; exact List.mem_cons_self _ _)
    have hrest0 : (0 : Fin 8) ∉ rest := fun hmem => hl (List.mem_cons_of_mem _ hmem)
    simp only [normalizeShared]
    obtain ⟨h1, h2, h3⟩ := ih hrest0 (D3D11_BLEND_DESC1.mk d.AlphaToCoverageEnable
      d.IndependentBlendEnable
      (Function.update d.RenderTarget i (sharedTarget (d.RenderTarget 0))))
    refine ⟨h1, h2, fun j => ?_⟩
    rw [h3 j]
    simp only [Function.update_noteq (Ne.symm hi0), List.mem_cons]
    by_cases hj : j ∈ rest
    · simp [hj]
    · by_cases hji : j = i
      · subst hji
        simp [hj]
      · simp [hj, hji, Function.update_noteq hji]

theorem normalizeFlags_fixed (d : D3D11_BLEND_DESC1)
    (ha : d.AlphaToCoverageEnable = 0 ∨ d.AlphaToCoverageEnable = 1)
    (hi : d.IndependentBlendEnable = 0 ∨ d.IndependentBlendEnable = 1) :
    normalizeFlags d = d := by
  rcases d with ⟨a, i, rt⟩
  simp only at ha hi
  unfold normalizeFlags
  rcases ha with ha | ha <;> rcases hi with hi | hi <;> subst ha <;> subst hi <;> simp

theorem normalizeFlags_flags (d : D3D11_BLEND_DESC1) :
    ((normalizeFlags d).AlphaToCoverageEnable = 0 ∨ (normalizeFlags d).AlphaToCoverageEnable = 1)
    ∧ ((normalizeFlags d).IndependentBlendEnable = 0
        ∨ (normalizeFlags d).IndependentBlendEnable = 1) := by
  rcases d with ⟨a, i, rt⟩
  unfold normalizeFlags
  by_cases ha : a = 0 <;> by_cases hi : i = 0 <;> simp [ha, hi]

theorem normalizeTargets_idem (d d' : D3D11_BLEND_DESC1)
    (hi : d.IndependentBlendEnable = 0 ∨ d.IndependentBlendEnable = 1)
    (h : normalizeTargets d = (HRESULT.S_OK, d')) :
    d'.AlphaToCoverageEnable = d.AlphaToCoverageEnable
    ∧ d'.IndependentBlendEnable = d.IndependentBlendEnable
    ∧ normalizeTargets d' = (HRESULT.S_OK, d') := by
  have hL0 : (0 : Fin 8) ∉ ([1, 2, 3, 4, 5, 6, 7] : List (Fin 8)) := by decide
  have hnd : ([1, 2, 3, 4, 5, 6, 7] : List (Fin 8)).Nodup := by decide
  unfold normalizeTargets at h
  rcases hT : normalizeTarget0 d.IndependentBlendEnable (d.RenderTarget 0) with e | r0
  · rw [hT] at h
    cases h
  · rw [hT] at h
    simp only at h
    have hT' := normalizeTarget0_idem _ _ _ hT
    rcases hi with hi | hi
    · rw [hi] at h hT'
      simp only [ne_eq, not_true_eq_false, if_false, if_true, Prod.mk.injEq, true_and] at h
      obtain ⟨f1, f2, f3⟩ := normalizeShared_frame [1, 2, 3, 4, 5, 6, 7] hL0
        (D3D11_BLEND_DESC1.mk d.AlphaToCoverageEnable 0 (Function.update d.RenderTarget 0 r0))
      rw [h] at f1 f2 f3
      simp only at f1 f2 f3
      have e0 : d'.RenderTarget 0 = r0 := by
        rw [f3 0, if_neg hL0, Function.update_same]
      refine ⟨f1, by rw [f2, hi], ?_⟩
      unfold normalizeTargets
      rw [f2, e0, hT']
      simp only [ne_eq, not_true_eq_false, if_false, if_true, Prod.mk.injEq, true_and]
      obtain ⟨g1, g2, g3⟩ := normalizeShared_frame [1, 2, 3, 4, 5, 6, 7] hL0
        (D3D11_BLEND_DESC1.mk d'.AlphaToCoverageEnable 0 (Function.update d'.RenderTarget 0 r0))
      simp only at g1 g2 g3
      rcases hd' : d' with ⟨a', i', rt'⟩
      rw [hd'] at f2 f3 g1 g2 g3 e0
      simp only at f2 f3 g1 g2 g3 e0 ⊢
      subst f2
      generalize hres : normalizeShared [1, 2, 3, 4, 5, 6, 7]
        (D3D11_BLEND_DESC1.mk a' 0 (Function.update rt' 0 r0)) = res at g1 g2 g3
      rcases res with ⟨a2, i2, rt2⟩
      simp only at g1 g2 g3
      subst g1
      subst g2
      congr 1
      funext j
      rw [g3 j, f3 j, Function.update_same, Function.update_same]
      by_cases hj : j ∈ ([1, 2, 3, 4, 5, 6, 7] : List (Fin 8))
      · rw [if_pos hj, if_pos hj]
      · rw [if_neg hj, if_neg hj]
        by_cases hj0 : j = 0
        · subst hj0
          simp
        · rw [Function.update_noteq hj0, f3 j, if_neg hj]
    · rw [hi] at h hT'
      simp only [ne_eq, one_ne_zero, not_false_eq_true, if_true] at h
      rcases hI : normalizeIndependent [1, 2, 3, 4, 5, 6, 7]
        (D3D11_BLEND_DESC1.mk d.AlphaToCoverageEnable 1 (Function.update d.RenderTarget 0 r0))
        with e | d2
      · rw [hI] at h
        cases h
      · rw [hI] at h
        obtain ⟨f1, f2, f3⟩ := normalizeIndependent_frame _ _ _ hI
        simp only at f1 f2 f3
        simp only [f2, one_ne_zero, if_false, Prod.mk.injEq, true_and] at h
        subst h
        have e0 : d2.RenderTarget 0 = r0 := by
          rw [f3 0 hL0, Function.update_same]
        have hI' := normalizeIndependent_idem _ hL0 hnd _ _ hI
        refine ⟨f1, by rw [f2, hi], ?_⟩
        unfold normalizeTargets
        rw [f2, e0, hT']
        have hself : (D3D11_BLEND_DESC1.mk d2.AlphaToCoverageEnable 1
            (Function.update d2.RenderTarget 0 r0)) = d2 := by
          rcases d2 with ⟨a2, i2, rt2⟩
          simp only at f2 e0 ⊢
          subst f2
          rw [← e0, Function.update_eq_self]
        simp only [ne_eq, one_ne_zero, not_false_eq_true, if_true, hself, hI', f2, if_false]

end BlendNormalize

/-- C24: when `NormalizeDesc` returns `S_OK` on a blend descriptor, a second
call on the descriptor it produced returns `S_OK` again and produces the same
descriptor, field for field. -/
theorem C24_normalize_idempotent (d : D3D11_BLEND_DESC1)
    (h : (D3D11BlendState.NormalizeDesc d).1 = HRESULT.S_OK) :
    D3D11BlendState.NormalizeDesc (D3D11BlendState.NormalizeDesc d).2
      = (HRESULT.S_OK, (D3D11BlendState.NormalizeDesc d).2) := by
  unfold D3D11BlendState.NormalizeDesc at h ⊢
  obtain ⟨ha, hi⟩ := normalizeFlags_flags d
  have h' : D3D11BlendState.normalizeTargets (D3D11BlendState.normalizeFlags d)
      = (HRESULT.S_OK,
          (D3D11BlendState.normalizeTargets (D3D11BlendState.normalizeFlags d)).2) :=
    Prod.ext h rfl
  obtain ⟨f1, f2, f3⟩ := normalizeTargets_idem _ _ hi h'
  rw [normalizeFlags_fixed _ (by rw [f1]; exact ha) (by rw [f2]; exact hi)]
  exact f3

/-- Witness of C24: a descriptor with non-normalised flags and render targets 1
to 7 that differ from render target 0. -/
theorem C24_normalize_idempotent_witness :
    (D3D11BlendState.NormalizeDesc sampleBlendDesc).1 = HRESULT.S_OK
    ∧ D3D11BlendState.NormalizeDesc (D3D11BlendState.NormalizeDesc sampleBlendDesc).2
      = (HRESULT.S_OK, (D3D11BlendState.NormalizeDesc sampleBlendDesc).2) :=
  ⟨by decide, C24_normalize_idempotent sampleBlendDesc (by decide)⟩

/-! ### Bit operations -/

theorem land_concat (W a x c y : Nat) (hx : x < 2 ^ W) (hy : y < 2 ^ W) :
    (2 ^ W * a + x) &&& (2 ^ W * c + y) = 2 ^ W * (a &&& c) + (x &&& y) := by
  have hxy : x &&& y < 2 ^ W := Nat.and_lt_two_pow x hy
  apply Nat.eq_of_testBit_eq
  intro j
  rw [Nat.testBit_and, Nat.testBit_mul_pow_two_add _ hx, Nat.testBit_mul_pow_two_add _ hy,
    Nat.testBit_mul_pow_two_add _ hxy]
  by_cases hj : j < W
  · simp [hj]
  · simp [hj]

theorem land_dvd_of_mask (y c s : Nat) (hc : c % 2 ^ s = 0) : (y &&& c) % 2 ^ s = 0 := by
  rw [← Nat.and_pow_two_sub_one_eq_mod, Nat.land_assoc, Nat.and_pow_two_sub_one_eq_mod, hc,
    Nat.and_zero]

theorem shiftRight_concat (W s A X : Nat) (hA : A % 2 ^ s = 0) :
    (2 ^ W * A + X) >>> s = 2 ^ W * (A >>> s) + X >>> s := by
  obtain ⟨q, rfl⟩ := Nat.dvd_of_mod_eq_zero hA
  rw [Nat.shiftRight_eq_div_pow, Nat.shiftRight_eq_div_pow, Nat.shiftRight_eq_div_pow,
    Nat.mul_div_cancel_left _ (Nat.two_pow_pos s),
    show 2 ^ W * (2 ^ s * q) + X = 2 ^ s * (2 ^ W * q) + X by ring,
    Nat.mul_add_div (Nat.two_pow_pos s)]

/-- One step of the count on a word made of a low part `x` of `W` bits and a
high part `y`, for masks that split in the same way. -/
theorem step_concat (W s m m' c c' x y : Nat) (hx : x < 2 ^ W) (hm : m < 2 ^ W)
    (hc : c < 2 ^ W) (hc' : c' % 2 ^ s = 0) :
    ((2 ^ W * y + x) &&& (2 ^ W * m' + m)) + (((2 ^ W * y + x) &&& (2 ^ W * c' + c)) >>> s)
      = 2 ^ W * ((y &&& m') + ((y &&& c') >>> s)) + ((x &&& m) + ((x &&& c) >>> s)) := by
  rw [land_concat W y x m' m hx hm, land_concat W y x c' c hx hc,
    shiftRight_concat W s _ _ (land_dvd_of_mask y c' s hc')]
  ring

theorem concat_mask_mod (s X c : Nat) (hs : s ≤ 8) (hc : c % 2 ^ s = 0) :
    (2 ^ 8 * X + c) % 2 ^ s = 0 := by
  apply Nat.mod_eq_zero_of_dvd
  exact Nat.dvd_add (Dvd.dvd.mul_right (pow_dvd_pow 2 hs) X) (Nat.dvd_of_mod_eq_zero hc)

/-- A step of `popcnt` with a mask that repeats the byte `t` acts on each of the
four bytes of the word separately. -/
theorem popcntStep_bytes (t c s : Nat) (hs : s ≤ 8) (ht : t < 2 ^ 8) (hc : c < 2 ^ 8)
    (htc : t + c = 255) (hcs : c % 2 ^ s = 0)
    (hS : ∀ b, b < 2 ^ 8 → (b &&& t) + ((b &&& c) >>> s) < 2 ^ 8)
    (b0 b1 b2 b3 : Nat) (h0 : b0 < 2 ^ 8) (h1 : b1 < 2 ^ 8) (h2 : b2 < 2 ^ 8)
    (h3 : b3 < 2 ^ 8) :
    bit.popcntStep (2 ^ 8 * (2 ^ 8 * (2 ^ 8 * b3 + b2) + b1) + b0)
        (2 ^ 8 * (2 ^ 8 * (2 ^ 8 * t + t) + t) + t) s
      = 2 ^ 8 * (2 ^ 8 * (2 ^ 8 * ((b3 &&& t) + ((b3 &&& c) >>> s))
            + ((b2 &&& t) + ((b2 &&& c) >>> s)))
          + ((b1 &&& t) + ((b1 &&& c) >>> s)))
        + ((b0 &&& t) + ((b0 &&& c) >>> s)) := by
  have hcompl : 2 ^ 32 - 1 - (2 ^ 8 * (2 ^ 8 * (2 ^ 8 * t + t) + t) + t)
      = 2 ^ 8 * (2 ^ 8 * (2 ^ 8 * c + c) + c) + c := by
    norm_num at ht hc ⊢
    omega
  unfold bit.popcntStep
  rw [hcompl,
    step_concat 8 s t _ c _ b0 _ h0 ht hc (concat_mask_mod s _ c hs hcs),
    step_concat 8 s t _ c _ b1 _ h1 ht hc (concat_mask_mod s _ c hs hcs),
    step_concat 8 s t _ c _ b2 _ h2 ht hc hcs]
  apply Nat.mod_eq_of_lt
  have e0 := hS b0 h0
  have e1 := hS b1 h1
  have e2 := hS b2 h2
  have e3 := hS b3 h3
  norm_num at e0 e1 e2 e3 ⊢
  omega

set_option maxRecDepth 100000 in
theorem byte_step_lt (t c s : Nat)
    (h : (t = 0x55 ∧ c = 0xAA ∧ s = 1) ∨ (t = 0x33 ∧ c = 0xCC ∧ s = 2)
      ∨ (t = 0x0F ∧ c = 0xF0 ∧ s = 4)) :
    ∀ b, b < 2 ^ 8 → (b &&& t) + ((b &&& c) >>> s) < 2 ^ 8 := by
  rcases h with ⟨rfl, rfl, rfl⟩ | ⟨rfl, rfl, rfl⟩ | ⟨rfl, rfl, rfl⟩ <;> decide

set_option maxRecDepth 100000 in
theorem byte_popcnt :
    ∀ b, b < 2 ^ 8 →
      ((((((b &&& 0x55) + ((b &&& 0xAA) >>> 1)) &&& 0x33)
            + ((((b &&& 0x55) + ((b &&& 0xAA) >>> 1)) &&& 0xCC) >>> 2)) &&& 0x0F)
          + ((((((b &&& 0x55) + ((b &&& 0xAA) >>> 1)) &&& 0x33)
            + ((((b &&& 0x55) + ((b &&& 0xAA) >>> 1)) &&& 0xCC) >>> 2)) &&& 0xF0) >>> 4))
        = (List.range 8).countP (fun i => b.testBit i) := by
  decide

theorem half_step :
    ∀ c0, c0 < 9 → ∀ c1, c1 < 9 →
      ((2 ^ 8 * c1 + c0) &&& 0x00FF) + (((2 ^ 8 * c1 + c0) &&& 0xFF00) >>> 8) = c1 + c0 := by
  decide

theorem word_step :
    ∀ u, u < 17 → ∀ v, v < 17 →
      (((2 ^ 16 * v + u) &&& 0x0000FFFF) + (((2 ^ 16 * v + u) &&& 0xFFFF0000) >>> 16)) % 2 ^ 32
        = v + u := by
  decide

theorem popcnt_tail (c0 c1 c2 c3 : Nat) (h0 : c0 < 9) (h1 : c1 < 9) (h2 : c2 < 9)
    (h3 : c3 < 9) :
    bit.popcntStep
        (bit.popcntStep (2 ^ 8 * (2 ^ 8 * (2 ^ 8 * c3 + c2) + c1) + c0) 0x00FF00FF 8)
        0x0000FFFF 16
      = c3 + c2 + c1 + c0 := by
  have e4 : bit.popcntStep (2 ^ 8 * (2 ^ 8 * (2 ^ 8 * c3 + c2) + c1) + c0) 0x00FF00FF 8
      = 2 ^ 16 * (c3 + c2) + (c1 + c0) := by
    unfold bit.popcntStep
    rw [show 2 ^ 8 * (2 ^ 8 * (2 ^ 8 * c3 + c2) + c1) + c0
          = 2 ^ 16 * (2 ^ 8 * c3 + c2) + (2 ^ 8 * c1 + c0) by ring,
      show (0x00FF00FF : Nat) = 2 ^ 16 * 0x00FF + 0x00FF by norm_num,
      show 2 ^ 32 - 1 - (2 ^ 16 * 0x00FF + 0x00FF) = 2 ^ 16 * 0xFF00 + 0xFF00 by norm_num,
      step_concat 16 8 0x00FF 0x00FF 0xFF00 0xFF00 _ _ (by norm_num; omega) (by norm_num)
        (by norm_num) (by norm_num),
      half_step c0 h0 c1 h1, half_step c2 h2 c3 h3]
    apply Nat.mod_eq_of_lt
    norm_num
    omega
  rw [e4]
  unfold bit.popcntStep
  rw [show 2 ^ 32 - 1 - 0x0000FFFF = 0xFFFF0000 by norm_num,
    word_step (c1 + c0) (by omega) (c3 + c2) (by omega)]
  ring

theorem popcnt_bytes (b0 b1 b2 b3 : Nat) (h0 : b0 < 2 ^ 8) (h1 : b1 < 2 ^ 8)
    (h2 : b2 < 2 ^ 8) (h3 : b3 < 2 ^ 8) :
    bit.popcnt (2 ^ 8 * (2 ^ 8 * (2 ^ 8 * b3 + b2) + b1) + b0)
      = (List.range 8).countP (fun i => b3.testBit i)
        + (List.range 8).countP (fun i => b2.testBit i)
        + (List.range 8).countP (fun i => b1.testBit i)
        + (List.range 8).countP (fun i => b0.testBit i) := by
  have hlt1 := byte_step_lt 0x55 0xAA 1 (Or.inl ⟨rfl, rfl, rfl⟩)
  have hlt2 := byte_step_lt 0x33 0xCC 2 (Or.inr (Or.inl ⟨rfl, rfl, rfl⟩))
  have hlt3 := byte_step_lt 0x0F 0xF0 4 (Or.inr (Or.inr ⟨rfl, rfl, rfl⟩))
  have hle : ∀ b : Nat, (List.range 8).countP (fun i => b.testBit i) < 9 := by
    intro b
    have := List.countP_le_length (fun i => b.testBit i) (l := List.range 8)
    rw [List.length_range] at this
    omega
  unfold bit.popcnt
  simp only
  rw [show (0x55555555 : Nat) = 2 ^ 8 * (2 ^ 8 * (2 ^ 8 * 0x55 + 0x55) + 0x55) + 0x55 by norm_num,
    show (0x33333333 : Nat) = 2 ^ 8 * (2 ^ 8 * (2 ^ 8 * 0x33 + 0x33) + 0x33) + 0x33 by norm_num,
    show (0x0F0F0F0F : Nat) = 2 ^ 8 * (2 ^ 8 * (2 ^ 8 * 0x0F + 0x0F) + 0x0F) + 0x0F by norm_num,
    popcntStep_bytes 0x55 0xAA 1 (by norm_num) (by norm_num) (by norm_num) rfl (by norm_num) hlt1
      b0 b1 b2 b3 h0 h1 h2 h3,
    popcntStep_bytes 0x33 0xCC 2 (by norm_num) (by norm_num) (by norm_num) rfl (by norm_num) hlt2
      _ _ _ _ (hlt1 b0 h0) (hlt1 b1 h1) (hlt1 b2 h2) (hlt1 b3 h3),
    popcntStep_bytes 0x0F 0xF0 4 (by norm_num) (by norm_num) (by norm_num) rfl (by norm_num) hlt3
      _ _ _ _ (hlt2 _ (hlt1 b0 h0)) (hlt2 _ (hlt1 b1 h1)) (hlt2 _ (hlt1 b2 h2))
      (hlt2 _ (hlt1 b3 h3)),
    byte_popcnt b0 h0, byte_popcnt b1 h1, byte_popcnt b2 h2, byte_popcnt b3 h3]
  exact popcnt_tail _ _ _ _ (hle b0) (hle b1) (hle b2) (hle b3)

theorem countP_range_add (a b : Nat) (p : Nat → Bool) :
    (List.range (a + b)).countP p
      = (List.range a).countP p + (List.range b).countP (fun i => p (a + i)) := by
  rw [List.range_add, List.countP_append, List.countP_map]
  rfl

theorem countP_byte (n k : Nat) :
    (List.range 8).countP (fun i => ((n >>> k) % 2 ^ 8).testBit i)
      = (List.range 8).countP (fun i => n.testBit (k + i)) := by
  apply List.countP_congr
  intro i hi
  rw [List.mem_range] at hi
  rw [Nat.testBit_mod_two_pow, Nat.testBit_shiftRight]
  simp [hi]

/-- C29: for every `n` below `2 ^ 32`, `bit::popcnt(n)` is the number of
positions 0 to 31 at which the binary representation of `n` has a 1, a value
between 0 and 32. -/
theorem C29_popcnt (n : Nat) (h : n < 2 ^ 32) :
    bit.popcnt n = (List.range 32).countP (fun i => n.testBit i)
    ∧ bit.popcnt n ≤ 32 := by
  have hcount : bit.popcnt n = (List.range 32).countP (fun i => n.testBit i) := by
    have hn : n = 2 ^ 8 * (2 ^ 8 * (2 ^ 8 * ((n >>> 24) % 2 ^ 8) + (n >>> 16) % 2 ^ 8)
        + (n >>> 8) % 2 ^ 8) + (n >>> 0) % 2 ^ 8 := by
      simp only [Nat.shiftRight_eq_div_pow]
      norm_num at h ⊢
      omega
    have hb : ∀ k, (n >>> k) % 2 ^ 8 < 2 ^ 8 := fun k => Nat.mod_lt _ (Nat.two_pow_pos 8)
    conv_lhs => rw [hn]
    rw [popcnt_bytes _ _ _ _ (hb 0) (hb 8) (hb 16) (hb 24), countP_byte, countP_byte,
      countP_byte, countP_byte,
      show 32 = 8 + (8 + (8 + 8)) from rfl, countP_range_add, countP_range_add,
      countP_range_add]
    simp only [Nat.zero_add, ← Nat.add_assoc, Nat.reduceAdd]
    omega
  refine ⟨hcount, ?_⟩
  rw [hcount]
  have := List.countP_le_length (fun i => n.testBit i) (l := List.range 32)
  rwa [List.length_range] at this

/-- Witness of C29: the word `0x80000101` has three bits set. -/
theorem C29_popcnt_witness :
    (0x80000101 : Nat) < 2 ^ 32
    ∧ bit.popcnt 0x80000101 = (List.range 32).countP (fun i => (0x80000101 : Nat).testBit i)
    ∧ bit.popcnt 0x80000101 = 3 :=
  ⟨by norm_num, (C29_popcnt 0x80000101 (by norm_num)).1, by decide⟩

theorem testBit_false_of_lt (x n i : Nat) (h : x < 2 ^ n) (hi : n ≤ i) :
    x.testBit i = false :=
  Nat.testBit_lt_two_pow (lt_of_lt_of_le h (Nat.pow_le_pow_right (by norm_num) hi))

theorem pack_testBit (Bits s c src dst : Nat) (hs : s < Bits) (hsc : s + c ≤ Bits)
    (hsrc : src < 2 ^ c) (hdst : dst < 2 ^ Bits) :
    (bit.pack Bits dst s src c).dst = dst ||| (src <<< s)
    ∧ ∀ i, (bit.pack Bits dst s src c).dst.testBit i
        = (dst.testBit i || (decide (s ≤ i) && src.testBit (i - s))) := by
  have hlt : dst ||| (src <<< s) < 2 ^ Bits := by
    apply Nat.lt_pow_two_of_testBit
    intro i hi
    rw [Nat.testBit_or, Nat.testBit_shiftLeft, testBit_false_of_lt dst Bits i hdst hi,
      testBit_false_of_lt src c (i - s) hsrc (by omega)]
    simp
  have hp : (bit.pack Bits dst s src c).dst = dst ||| (src <<< s) := by
    unfold bit.pack
    simp only [hs, if_true]
    exact Nat.mod_eq_of_lt hlt
  refine ⟨hp, fun i => ?_⟩
  rw [hp, Nat.testBit_or, Nat.testBit_shiftLeft]

theorem pack_unpack_shift (Bits s c : Nat) (h : s + c < 2 ^ 32) (d x : Nat) :
    (bit.pack Bits d s x c).shift = s + c
    ∧ (bit.unpack Bits d x s c).shift = s + c
    ∧ (bit.pack Bits d s x c).ret = (if Bits < s + c then s + c - Bits else 0)
    ∧ (bit.unpack Bits d x s c).ret = (if Bits < s + c then s + c - Bits else 0) := by
  unfold bit.pack bit.unpack
  simp only [Nat.mod_eq_of_lt h, gt_iff_lt, and_self]

/-- C30, counterexample: for a 32-bit type, the shift 32 and the count 0 meet
the conditions of the claim with the source value 0, and `unpack` leaves the
previous value 5 of its destination in place instead of giving the source. -/
theorem C30_counterexample :
    (0 : Nat) < 32 ∧ 32 + 0 ≤ 32 ∧ (0 : Nat) < 2 ^ 0
    ∧ (∀ i, 32 ≤ i → i < 32 + 0 → (0 : Nat).testBit i = false)
    ∧ (bit.pack 32 0 32 0 0).dst = 0
    ∧ (bit.unpack 32 5 (bit.pack 32 0 32 0 0).dst 32 0).dst = 5 :=
  ⟨by decide, by decide, by decide, fun i h1 h2 => by omega, by decide, by decide⟩

/-- C30, amended: for a type of `Bits` bits, a shift `s` below `Bits`, a count
`c` below `Bits` with `s + c ≤ Bits`, a source below `2 ^ c` and a destination
whose bits `s` to `s + c - 1` are zero, `pack` followed by `unpack` of the
packed word at the same shift and count gives back the source, whatever the
destination of `unpack` held before; `pack` leaves every bit of the
destination outside the field as it was and stores the source in the field;
both calls advance the shift to `s + c` and return 0. For every shift and
count whose sum is above `Bits` and below `2 ^ 32` both functions return
`s + c - Bits`. When the shift is not below `Bits`, neither function changes
its destination. -/
theorem C30_pack_unpack (Bits s c src dst old : Nat) (hBits : Bits < 2 ^ 32) (hs : s < Bits)
    (hc : c < Bits) (hsc : s + c ≤ Bits) (hsrc : src < 2 ^ c) (hdst : dst < 2 ^ Bits)
    (hzero : ∀ i, s ≤ i → i < s + c → dst.testBit i = false) :
    (bit.unpack Bits old (bit.pack Bits dst s src c).dst s c).dst = src
    ∧ (∀ i, i < s ∨ s + c ≤ i → (bit.pack Bits dst s src c).dst.testBit i = dst.testBit i)
    ∧ (∀ i, i < c → (bit.pack Bits dst s src c).dst.testBit (s + i) = src.testBit i)
    ∧ (bit.pack Bits dst s src c).shift = s + c
    ∧ (bit.unpack Bits old (bit.pack Bits dst s src c).dst s c).shift = s + c
    ∧ (bit.pack Bits dst s src c).ret = 0
    ∧ (bit.unpack Bits old (bit.pack Bits dst s src c).dst s c).ret = 0
    ∧ (∀ s' c' d x : Nat, s' + c' < 2 ^ 32 → Bits < s' + c' →
        (bit.pack Bits d s' x c').ret = s' + c' - Bits
        ∧ (bit.unpack Bits d x s' c').ret = s' + c' - Bits)
    ∧ (∀ s' c' d x : Nat, Bits ≤ s' →
        (bit.pack Bits d s' x c').dst = d ∧ (bit.unpack Bits d x s' c').dst = d) := by
  obtain ⟨hp, hbit⟩ := pack_testBit Bits s c src dst hs hsc hsrc hdst
  have hlt32 : s + c < 2 ^ 32 := by omega
  have hnot : ¬ Bits < s + c := by omega
  obtain ⟨e1, e2, e3, e4⟩ := pack_unpack_shift Bits s c hlt32 dst src
  obtain ⟨-, e2', -, e4'⟩ := pack_unpack_shift Bits s c hlt32 old
    (bit.pack Bits dst s src c).dst
  rw [if_neg hnot] at e3 e4'
  have hfield : ∀ i, i < c → (bit.pack Bits dst s src c).dst.testBit (s + i) = src.testBit i := by
    intro i hi
    rw [hbit, hzero (s + i) (by omega) (by omega)]
    simp
  have hun : (bit.unpack Bits old (bit.pack Bits dst s src c).dst s c).dst = src := by
    unfold bit.unpack
    simp only [hs, if_true]
    rw [Nat.one_shiftLeft, Nat.and_pow_two_sub_one_eq_mod]
    have hmod : ((bit.pack Bits dst s src c).dst >>> s) % 2 ^ c = src := by
      apply Nat.eq_of_testBit_eq
      intro i
      rw [Nat.testBit_mod_two_pow, Nat.testBit_shiftRight]
      by_cases hi : i < c
      · rw [hfield i hi]
        simp [hi]
      · rw [testBit_false_of_lt src c i hsrc (by omega)]
        simp [hi]
    rw [hmod]
    exact Nat.mod_eq_of_lt (lt_of_lt_of_le hsrc (Nat.pow_le_pow_right (by norm_num) (by omega)))
  refine ⟨hun, ?_, hfield, e1, e2', e3, e4', ?_, ?_⟩
  · intro i hi
    rw [hbit]
    rcases hi with hi | hi
    · have : ¬ s ≤ i := by omega
      simp [this]
    · rw [testBit_false_of_lt src c (i - s) hsrc (by omega)]
      simp
  · intro s' c' d x h1 h2
    obtain ⟨-, -, r1, r2⟩ := pack_unpack_shift Bits s' c' h1 d x
    rw [if_pos h2] at r1 r2
    exact ⟨r1, r2⟩
  · intro s' c' d x h
    have : ¬ s' < Bits := by omega
    unfold bit.pack bit.unpack
    simp [this]

/-- Witness of C30: the value 5 packed into three bits at shift 4 of a byte
that holds 3 in its low bits. -/
theorem C30_pack_unpack_witness :
    ((8 : Nat) < 2 ^ 32 ∧ (4 : Nat) < 8 ∧ (3 : Nat) < 8 ∧ 4 + 3 ≤ 8 ∧ (5 : Nat) < 2 ^ 3
      ∧ (3 : Nat) < 2 ^ 8 ∧ ∀ i, 4 ≤ i → i < 4 + 3 → (3 : Nat).testBit i = false)
    ∧ (bit.unpack 8 0 (bit.pack 8 3 4 5 3).dst 4 3).dst = 5 :=
  ⟨⟨by norm_num, by norm_num, by norm_num, by norm_num, by norm_num, by norm_num,
    fun i h1 h2 => by interval_cases i <;> decide⟩,
   (C30_pack_unpack 8 4 3 5 3 0 (by norm_num) (by norm_num) (by norm_num) (by norm_num)
      (by norm_num) (by norm_num) (fun i h1 h2 => by interval_cases i <;> decide)).1⟩

end dxvk
